import Mathlib

/-!
# liveMediaStreamer: queue endpoints, audio encoder and audio mixer

A shallow embedding of the parts of liveMediaStreamer that the properties
below talk about:

* `src/IOInterface.cpp`: the `Reader` and `Writer` endpoints of a frame queue;
* `src/modules/audioEncoder/AudioEncoderLibav.cpp`: reader registration and
  (re)configuration of the libav audio encoder;
* `src/modules/audioMixer/AudioMixer.cpp`: reader registration and the mix
  algorithms of the audio mixer.

Conventions of the embedding.

* A C++ pointer to a queue is an `Option Nat`: `none` is `NULL`, `some p` is
  the address `p`.  Queue objects live in a `Heap`; `delete` is recorded by a
  per-address counter, so that a second destruction and a reference to a
  destroyed queue are both visible.
* A method that dereferences a `NULL` queue pointer has no defined result; such
  methods return an `Option`, with `none` for that case.
* `unsigned` counters are natural numbers; the one increment in the code
  (`readers++`) wraps at `2 ^ 32`.
* `float` samples and gains are rationals (exact arithmetic).
-/

namespace LiveMediaStreamer

/-! ## Frames and the frame queue -/

/-- A frame: payload bytes, the length set by the writer, and the presentation time. -/
structure Frame where
  data : List Nat
  length : Nat
  presentationTime : Nat
deriving DecidableEq, Repr

/-- Modelled from the spec: the `FrameQueue` class, whose header and implementations are not
among the sources.  The spec describes it as a ring of `N` preallocated frame slots with two
cursors, `rear` (next write slot) and `front` (next read slot), and a `connected` flag.  The
cursors are kept here as running counts of commits; the slot a cursor designates is the cursor
modulo `N`, and the number of committed, not yet retired frames is `rear - front`. -/
structure FrameQueue where
  frames : List Frame
  front : Nat
  rear : Nat
  connected : Bool
deriving DecidableEq, Repr

namespace FrameQueue

/-- Number of slots of the ring. -/
def max (q : FrameQueue) : Nat := q.frames.length

/-- Number of committed frames that have not been retired (`pending_frames` in the spec). -/
def elements (q : FrameQueue) : Nat := q.rear - q.front

/-- The frame stored in the slot designated by cursor value `c`. -/
def slot (q : FrameQueue) (c : Nat) : Option Frame := q.frames[c % q.max]?

def isConnected (q : FrameQueue) : Bool := q.connected

def setConnected (q : FrameQueue) (c : Bool) : FrameQueue := { q with connected := c }

/-- Modelled from the spec: "`getRear()` returns the next writable slot or nil if full". -/
def getRear (q : FrameQueue) : Option Frame :=
  if q.elements < q.max then q.slot q.rear else none

/-- Modelled from the spec: "`getFront()` returns the next readable slot or nil if empty". -/
def getFront (q : FrameQueue) : Option Frame :=
  if q.front < q.rear then q.slot q.front else none

/-- Modelled from the spec: "`addFrame()` commits the rear".  The spec does not say which
integer the call hands back; the model hands back the new rear cursor. -/
def addFrame (q : FrameQueue) : FrameQueue × Int :=
  ({ q with rear := q.rear + 1 }, ((q.rear + 1 : Nat) : Int))

/-- Modelled from the spec: "`removeFrame()` commits the front".  The spec does not say which
integer the call hands back; the model hands back the new front cursor. -/
def removeFrame (q : FrameQueue) : FrameQueue × Int :=
  ({ q with front := q.front + 1 }, ((q.front + 1 : Nat) : Int))

/-- Modelled from the spec: "`forceGetFront` on an empty queue returns the most recently retired
frame (or nil if none exists), and never advances the front cursor past the rear".  On a queue
that is not empty it is the front frame. -/
def forceGetFront (q : FrameQueue) : Option Frame :=
  if q.front < q.rear then q.slot q.front
  else if 0 < q.front then q.slot (q.front - 1) else none

/-- Modelled from the spec: `forceGetRear` is "invoked by a writer that has no empty slot and is
willing to overwrite the oldest unconsumed frame": on a full queue the oldest frame is dropped and
its slot handed out. -/
def forceGetRear (q : FrameQueue) : Option Frame × FrameQueue :=
  if q.elements < q.max then (q.slot q.rear, q)
  else (q.slot q.rear, { q with front := q.front + 1 })

end FrameQueue

/-- The queue objects of the program, by address.  `deleted p` counts how many times
`delete` has been applied to the queue at address `p`; the fields of a destroyed queue stay
readable in the model, so that an access after destruction can be observed. -/
structure Heap where
  queue : Nat → FrameQueue
  deleted : Nat → Nat

namespace Heap

/-- Store `q` at address `p`. -/
def set (h : Heap) (p : Nat) (q : FrameQueue) : Heap :=
  { h with queue := fun a => if a = p then q else h.queue a }

/-- The call `queue->setConnected(c)` on the queue at address `p`. -/
def setConnected (h : Heap) (p : Nat) (c : Bool) : Heap :=
  h.set p ((h.queue p).setConnected c)

/-- The statement `delete queue` for the queue at address `p`. -/
def delete (h : Heap) (p : Nat) : Heap :=
  { h with deleted := fun a => if a = p then h.deleted p + 1 else h.deleted a }

end Heap

/-! ## `Reader` (IOInterface.cpp) -/

/-- The `unsigned` counters of a `Reader` live modulo this number. -/
def UINT_RANGE : Nat := 2 ^ 32

/-- A `Reader`: the queue pointer, the number of logical consumers sharing the reader and the
number of acknowledgements still awaited in the current cycle. -/
structure Reader where
  queue : Option Nat
  readers : Nat
  pending : Nat
deriving DecidableEq, Repr

namespace Reader

/-- The constructor `Reader::Reader()`: `readers(0), pending(0)`, `queue = NULL`. -/
def init : Reader := { queue := none, readers := 0, pending := 0 }

/-- Method `Reader::setQueue`. -/
def setQueue (r : Reader) (queue : Option Nat) : Reader :=
  { r with queue := queue, readers := 1 }

/-- Method `Reader::addReader`: `if (readers >= 1 && queue->isConnected()) readers++`.  The queue is
only dereferenced when `readers >= 1`. -/
def addReader (r : Reader) (h : Heap) : Option Reader :=
  if 1 ≤ r.readers then
    match r.queue with
    | none => none
    | some p =>
      if (h.queue p).isConnected then some { r with readers := (r.readers + 1) % UINT_RANGE }
      else some r
  else some r

/-- Method `Reader::setConnection`: only the queue pointer is assigned. -/
def setConnection (r : Reader) (queue : Option Nat) : Reader :=
  { r with queue := queue }

/-- Method `Reader::disconnect`. -/
def disconnect (r : Reader) (h : Heap) : Bool × Reader × Heap :=
  if 1 < r.readers then (true, { r with readers := r.readers - 1 }, h)
  else
    match r.queue with
    | none => (false, r, h)
    | some p =>
      if (h.queue p).isConnected then (true, { r with queue := none }, h.setConnected p false)
      else (true, { r with queue := none }, h.delete p)

/-- Method `Reader::removeReader`. -/
def removeReader (r : Reader) (h : Heap) : Reader × Heap :=
  if 0 < r.readers then
    let r1 := { r with readers := r.readers - 1 }
    if r1.readers = 0 then
      let res := r1.disconnect h
      (res.2.1, res.2.2)
    else (r1, h)
  else (r, h)

/-- Method `Reader::getFrame(bool force)`.  The result is the frame handed out (`none` for `NULL`), the
reader and the heap after the call; the whole result is `none` when `queue` is `NULL`. -/
def getFrame (r : Reader) (h : Heap) (force : Bool) : Option (Option Frame × Reader × Heap) :=
  match r.queue with
  | none => none
  | some p =>
    if !(h.queue p).isConnected then some (none, r, h)
    else
      let r1 := if r.pending = 0 then { r with pending := r.readers } else r
      let frame := (h.queue p).getFront
      let frame := if force && frame.isNone then (h.queue p).forceGetFront else frame
      some (frame, r1, h)

/-- Method `Reader::removeFrame`.  With `pending == 0` the call is forwarded to the queue, which is
dereferenced only then. -/
def removeFrame (r : Reader) (h : Heap) : Option (Int × Reader × Heap) :=
  if r.pending = 0 then
    match r.queue with
    | none => none
    | some p =>
      let res := (h.queue p).removeFrame
      some (res.2, r, h.set p res.1)
  else some (-1, { r with pending := r.pending - 1 }, h)

/-- Method `Reader::isConnected`. -/
def isConnected (r : Reader) (h : Heap) : Bool :=
  match r.queue with
  | none => false
  | some p => (h.queue p).isConnected

end Reader

/-! ## `Writer` (IOInterface.cpp) -/

/-- A `Writer`: the queue pointer. -/
structure Writer where
  queue : Option Nat
deriving DecidableEq, Repr

namespace Writer

/-- The constructor `Writer::Writer()`. -/
def init : Writer := { queue := none }

/-- Method `Writer::setQueue`. -/
def setQueue (_w : Writer) (queue : Option Nat) : Writer := { queue := queue }

/-- Method `Writer::connect(Reader *reader)`. -/
def connect (w : Writer) (reader : Reader) (h : Heap) : Bool × Reader × Heap :=
  match w.queue with
  | none => (false, reader, h)
  | some p => (true, reader.setConnection (some p), h.setConnected p true)

/-- Method `Writer::disconnect()`. -/
def disconnect (w : Writer) (h : Heap) : Bool × Writer × Heap :=
  match w.queue with
  | none => (false, w, h)
  | some p =>
    if (h.queue p).isConnected then (true, { w with queue := none }, h.setConnected p false)
    else (true, { w with queue := none }, h.delete p)

/-- Method `Writer::disconnect(Reader *reader)`. -/
def disconnectReader (w : Writer) (reader : Reader) (h : Heap) : Bool × Writer × Reader × Heap :=
  let res := reader.disconnect h
  if res.1 then
    let res2 := w.disconnect res.2.2
    (res2.1, res2.2.1, res.2.1, res2.2.2)
  else (false, w, res.2.1, res.2.2)

/-- Method `Writer::isConnected`. -/
def isConnected (w : Writer) (h : Heap) : Bool :=
  match w.queue with
  | none => false
  | some p => (h.queue p).isConnected

/-- Method `Writer::getFrame(bool force)`. -/
def getFrame (w : Writer) (h : Heap) (force : Bool) : Option (Option Frame × Heap) :=
  match w.queue with
  | none => none
  | some p =>
    if !(h.queue p).isConnected then some (none, h)
    else
      let frame := (h.queue p).getRear
      if frame.isNone && force then
        let res := (h.queue p).forceGetRear
        some (res.1, h.set p res.2)
      else some (frame, h)

/-- Method `Writer::addFrame`. -/
def addFrame (w : Writer) (h : Heap) : Option (Int × Heap) :=
  match w.queue with
  | none => none
  | some p =>
    let res := (h.queue p).addFrame
    some (res.2, h.set p res.1)

end Writer

/-! ## Call sequences on the endpoints -/

namespace Reader

/-- The front cursor of the queue a reader points at (`0` for a reader without queue). -/
def front (r : Reader) (h : Heap) : Nat :=
  match r.queue with
  | none => 0
  | some p => (h.queue p).front

/-- One logical consumer taking its turn: `getFrame(force)` followed by `removeFrame()`.  The
result carries the frame the consumer was handed. -/
def consume (r : Reader) (h : Heap) (force : Bool) : Option (Option Frame × Reader × Heap) :=
  match r.getFrame h force with
  | none => none
  | some (frame, r1, h1) =>
    match r1.removeFrame h1 with
    | none => none
    | some (_, r2, h2) => some (frame, r2, h2)

/-- The turns of `n` logical consumers one after the other, with the frames they were handed. -/
def consumeN : Nat → Reader → Heap → Bool → Option (List (Option Frame) × Reader × Heap)
  | 0, r, h, _ => some ([], r, h)
  | n + 1, r, h, force =>
    match r.consume h force with
    | none => none
    | some (frame, r1, h1) =>
      match consumeN n r1 h1 force with
      | none => none
      | some (frames, r2, h2) => some (frame :: frames, r2, h2)

/-- Repeated `getFrame` calls, one per entry of `forces`, with the frames handed out. -/
def getFrames : List Bool → Reader → Heap → Option (List (Option Frame) × Reader × Heap)
  | [], r, h => some ([], r, h)
  | force :: forces, r, h =>
    match r.getFrame h force with
    | none => none
    | some (frame, r1, h1) =>
      match getFrames forces r1 h1 with
      | none => none
      | some (frames, r2, h2) => some (frame :: frames, r2, h2)

end Reader

/-- A call made on a reader by one of its consumers. -/
inductive Call where
  | getFrame (force : Bool)
  | removeFrame
deriving DecidableEq, Repr

/-- What can be observed of one call: the value of `pending` the call found, and for
`removeFrame` the front cursor of the queue before and after the call and the returned integer. -/
inductive Observation where
  | got (pendingBefore : Nat) (frame : Option Frame)
  | removed (pendingBefore frontBefore frontAfter : Nat) (ret : Int)
deriving DecidableEq, Repr

namespace Observation

/-- A `removeFrame` call that moved the front cursor of the queue. -/
def advanced : Observation → Bool
  | got _ _ => false
  | removed _ fb fa _ => decide (fa ≠ fb)

/-- A `removeFrame` call that left the front cursor where it was. -/
def acknowledged : Observation → Bool
  | got _ _ => false
  | removed _ fb fa _ => decide (fa = fb)

/-- A `getFrame` call that found `pending == 0`, i.e. the first `getFrame` of a cycle. -/
def startedCycle : Observation → Bool
  | got pb _ => decide (pb = 0)
  | removed _ _ _ _ => false

end Observation

namespace Reader

/-- Run one call and record what can be observed of it. -/
def observe (r : Reader) (h : Heap) : Call → Option (Observation × Reader × Heap)
  | Call.getFrame force =>
    match r.getFrame h force with
    | none => none
    | some (frame, r1, h1) => some (Observation.got r.pending frame, r1, h1)
  | Call.removeFrame =>
    match r.removeFrame h with
    | none => none
    | some (ret, r1, h1) =>
      some (Observation.removed r.pending (r.front h) (r1.front h1) ret, r1, h1)

/-- Run a sequence of calls, collecting the observations in call order. -/
def run : List Call → Reader → Heap → Option (List Observation × Reader × Heap)
  | [], r, h => some ([], r, h)
  | c :: cs, r, h =>
    match r.observe h c with
    | none => none
    | some (o, r1, h1) =>
      match run cs r1 h1 with
      | none => none
      | some (os, r2, h2) => some (o :: os, r2, h2)

end Reader

/-- For every advancing `removeFrame` of a log, in order: the number of non-advancing
`removeFrame` calls and the number of cycle-starting `getFrame` calls made since the previous
advance (or since the start of the log).  `acks` and `cycles` are the counts accumulated so far. -/
def advanceGaps (acks cycles : Nat) : List Observation → List (Nat × Nat)
  | [] => []
  | o :: os =>
    if o.advanced then (acks, cycles) :: advanceGaps 0 0 os
    else if o.acknowledged then advanceGaps (acks + 1) cycles os
    else if o.startedCycle then advanceGaps acks (cycles + 1) os
    else advanceGaps acks cycles os

/-! ### One writer and several reader endpoints -/

/-- One `Writer`, the `Reader` endpoints of the program (by index) and the heap.  `fault` is set
once a call has dereferenced a `NULL` queue pointer; the program does not run past that point. -/
structure Net where
  writer : Writer
  readers : List Reader
  heap : Heap
  fault : Bool

/-- The calls of the connection life cycle; `i` is the index of the reader endpoint. -/
inductive NetCall where
  | connect (i : Nat)
  | writerDisconnect
  | readerDisconnect (i : Nat)
  | writerDisconnectReader (i : Nat)
  | addReader (i : Nat)
  | removeReader (i : Nat)
deriving DecidableEq, Repr

namespace Net

/-- Run one call.  A call naming a reader endpoint that does not exist does nothing. -/
def step (n : Net) (c : NetCall) : Net :=
  if n.fault then n
  else
    match c with
    | NetCall.connect i =>
      match n.readers[i]? with
      | none => n
      | some r =>
        let res := n.writer.connect r n.heap
        { n with readers := n.readers.set i res.2.1, heap := res.2.2 }
    | NetCall.writerDisconnect =>
      let res := n.writer.disconnect n.heap
      { n with writer := res.2.1, heap := res.2.2 }
    | NetCall.readerDisconnect i =>
      match n.readers[i]? with
      | none => n
      | some r =>
        let res := r.disconnect n.heap
        { n with readers := n.readers.set i res.2.1, heap := res.2.2 }
    | NetCall.writerDisconnectReader i =>
      match n.readers[i]? with
      | none => n
      | some r =>
        let res := n.writer.disconnectReader r n.heap
        { n with writer := res.2.1, readers := n.readers.set i res.2.2.1, heap := res.2.2.2 }
    | NetCall.addReader i =>
      match n.readers[i]? with
      | none => n
      | some r =>
        match r.addReader n.heap with
        | none => { n with fault := true }
        | some r1 => { n with readers := n.readers.set i r1 }
    | NetCall.removeReader i =>
      match n.readers[i]? with
      | none => n
      | some r =>
        let res := r.removeReader n.heap
        { n with readers := n.readers.set i res.1, heap := res.2 }

/-- Run a sequence of calls. -/
def run (n : Net) (cs : List NetCall) : Net := cs.foldl step n

/-- No endpoint references a destroyed queue. -/
def noDanglingReference (n : Net) : Prop :=
  (∀ p, n.writer.queue = some p → n.heap.deleted p = 0) ∧
  ∀ r ∈ n.readers, ∀ p, r.queue = some p → n.heap.deleted p = 0

/-- No queue has been destroyed more than once. -/
def noDoubleDestruction (n : Net) : Prop := ∀ p, n.heap.deleted p ≤ 1

end Net

/-! ## Filters: the reader map -/

/-- A `std::map<int, T>` as an association list; each key occurs at most once in a list built
with `assign` from the empty map. -/
abbrev IntMap (α : Type) := List (Int × α)

namespace IntMap

/-- The method `count`: `1` when the key is present, `0` otherwise. -/
def count {α : Type} (m : IntMap α) (k : Int) : Nat :=
  if m.any (fun e => decide (e.1 = k)) then 1 else 0

/-- The method `size`. -/
def size {α : Type} (m : IntMap α) : Nat := m.length

/-- The value bound to `k`, if any. -/
def find? {α : Type} : IntMap α → Int → Option α
  | [], _ => none
  | e :: m, k => if e.1 = k then some e.2 else find? m k

/-- The assignment `m[k] = v`: the binding of `k` is replaced, or added when `k` is new. -/
def assign {α : Type} : IntMap α → Int → α → IntMap α
  | [], k, v => [(k, v)]
  | e :: m, k, v => if e.1 = k then (k, v) :: m else e :: assign m k v

end IntMap

/-! ## `AudioEncoderLibav` (modules/audioEncoder/AudioEncoderLibav.cpp) -/

/-- The codec enumeration `ACodecType` (its header is not among the sources): the four
enumerators named in `configure`, and `other` for any value that falls to `default:`. -/
inductive ACodecType where
  | PCMU | OPUS | AAC | MP3
  | other (tag : Nat)
deriving DecidableEq, Repr

/-- The sample format enumeration `SampleFmt` (its header is not among the sources): the six
enumerators named in `checkInputParams`, and `other` for any value that falls to `default:`. -/
inductive SampleFmt where
  | U8 | S16 | FLT | U8P | S16P | FLTP
  | other (tag : Nat)
deriving DecidableEq, Repr

/-- The values of libav's `AVCodecID` that the encoder uses. -/
inductive AVCodecID where
  | AV_CODEC_ID_PCM_MULAW | AV_CODEC_ID_OPUS | AV_CODEC_ID_AAC | AV_CODEC_ID_MP3
  | AV_CODEC_ID_NONE
deriving DecidableEq, Repr

/-- The values of libav's `AVSampleFormat` that the encoder uses. -/
inductive AVSampleFormat where
  | AV_SAMPLE_FMT_U8 | AV_SAMPLE_FMT_S16 | AV_SAMPLE_FMT_FLT
  | AV_SAMPLE_FMT_U8P | AV_SAMPLE_FMT_S16P | AV_SAMPLE_FMT_FLTP
  | AV_SAMPLE_FMT_NONE
deriving DecidableEq, Repr

/-- The fields of libav's `AVCodec` read by the encoder.  Each array is given by its entries
before the terminator; `none` is a `NULL` array. -/
structure AVCodec where
  sample_fmts : List AVSampleFormat
  supported_samplerates : Option (List Int)
  channel_layouts : Option (List Nat)
deriving DecidableEq, Repr

/-- The fields of libav's `AVCodecContext` used by the encoder. -/
structure AVCodecContext where
  channels : Int
  channel_layout : Nat
  sample_rate : Int
  sample_fmt : AVSampleFormat
  frame_size : Int
deriving DecidableEq, Repr

/-- A resample context: the options it was allocated with and whether it is initialised. -/
structure SwrContext where
  out_ch_layout : Nat
  out_sample_fmt : AVSampleFormat
  out_sample_rate : Int
  in_ch_layout : Nat
  in_sample_fmt : AVSampleFormat
  in_sample_rate : Int
  initialized : Bool
deriving DecidableEq, Repr

/-- The fields of libav's `AVFrame` written by the encoder. -/
structure AVFrame where
  nb_samples : Int
  format : AVSampleFormat
  channel_layout : Nat
deriving DecidableEq, Repr

/-- The library functions called by the encoder, and the helpers of this program that are not
among the sources (`AudioFrame::getDefaultSamples`, `utils::getCodecFromString`), as
parameters.  A function with an `int` status returns that status. -/
structure Libav where
  avcodec_find_encoder : AVCodecID → Option AVCodec
  avcodec_alloc_context3 : AVCodec → Option AVCodecContext
  av_get_default_channel_layout : Int → Nat
  avcodec_open2 : AVCodecContext → AVCodec → Int × AVCodecContext
  swr_alloc_set_opts :
    Option SwrContext → Nat → AVSampleFormat → Int → Nat → AVSampleFormat → Int → Option SwrContext
  swr_init : SwrContext → Int × SwrContext
  av_samples_get_buffer_size : Int → Int → AVSampleFormat → Int
  avcodec_fill_audio_frame : AVFrame → Int → AVSampleFormat → Int → Int
  getDefaultSamples : Int → Int
  getCodecFromString : String → ACodecType

/-- The two reconfiguration routines of the encoder, for the record of calls. -/
inductive EncoderCall where
  | config
  | inputConfig
deriving DecidableEq, Repr

/-- The input queue of the encoder as `setReader` uses it: the object obtained from
`dynamic_cast<AudioCircularBuffer*>(queue)`, of which only `setOutputFrameSamples` is called. -/
structure AudioCircularBuffer where
  outputFrameSamples : Int
deriving DecidableEq, Repr

/-- The state of an `AudioEncoderLibav`.  `readers` and `maxReaders` are the reader map and the
bound `getMaxReaders()` of the filter base class; `calls` records, in order, every run of
`config()` and `inputConfig()`. -/
structure AudioEncoderLibav where
  readers : IntMap Reader
  maxReaders : Nat
  fCodec : ACodecType
  codecID : AVCodecID
  internalChannels : Int
  internalSampleRate : Int
  internalSampleFmt : SampleFmt
  internalLibavSampleFormat : AVSampleFormat
  channels : Int
  sampleRate : Int
  sampleFmt : SampleFmt
  libavSampleFmt : AVSampleFormat
  samplesPerFrame : Int
  codec : Option AVCodec
  codecCtx : Option AVCodecContext
  resampleCtx : Option SwrContext
  libavFrame : AVFrame
  internalBufferSize : Int
  internalBuffer : Option Int
  calls : List EncoderCall
deriving DecidableEq, Repr

/-- Function `checkSampleFormat`: scan `codec->sample_fmts` up to `AV_SAMPLE_FMT_NONE`. -/
def checkSampleFormat (codec : AVCodec) (sampleFmt : AVSampleFormat) : Bool :=
  let rec scan : List AVSampleFormat → Bool
    | [] => false
    | p :: ps =>
      if p = AVSampleFormat.AV_SAMPLE_FMT_NONE then false
      else if p = sampleFmt then true
      else scan ps
  scan codec.sample_fmts

/-- Function `checkSampleRateSupport`: `false` for a `NULL` array, else scan up to the entry `0`. -/
def checkSampleRateSupport (codec : AVCodec) (sampleRate : Int) : Bool :=
  let rec scan : List Int → Bool
    | [] => false
    | p :: ps =>
      if p = 0 then false
      else if p = sampleRate then true
      else scan ps
  match codec.supported_samplerates with
  | none => false
  | some rates => scan rates

/-- Function `checkChannelLayoutSupport`: `false` for a `NULL` array, else scan up to the entry `0`. -/
def checkChannelLayoutSupport (codec : AVCodec) (channelLayout : Nat) : Bool :=
  let rec scan : List Nat → Bool
    | [] => false
    | p :: ps =>
      if p = 0 then false
      else if p = channelLayout then true
      else scan ps
  match codec.channel_layouts with
  | none => false
  | some layouts => scan layouts

namespace AudioEncoderLibav

/-- Method `AudioEncoderLibav::setReader`.  The result is the returned pointer (`none` for `NULL`), the
encoder and the queue after the call. -/
def setReader (s : AudioEncoderLibav) (readerID : Int) (queue : AudioCircularBuffer) :
    Option Reader × AudioEncoderLibav × AudioCircularBuffer :=
  if s.readers.size ≥ s.maxReaders || s.readers.count readerID > 0 then (none, s, queue)
  else
    let r := Reader.init
    (some r, { s with readers := s.readers.assign readerID r },
      { queue with outputFrameSamples := s.samplesPerFrame })

/-- The call of `swr_alloc_set_opts` shared by `config` and `inputConfig`. -/
def allocResampleCtx (av : Libav) (s : AudioEncoderLibav) : Option SwrContext :=
  av.swr_alloc_set_opts s.resampleCtx
    (av.av_get_default_channel_layout s.internalChannels) s.internalLibavSampleFormat
    s.internalSampleRate
    (av.av_get_default_channel_layout s.channels) s.libavSampleFmt s.sampleRate

/-- The tail of `config()` once the resample context is allocated and initialised: frame
set-up and the sample buffer. -/
def configFrame (av : Libav) (s : AudioEncoderLibav) (ctx : AVCodecContext) :
    Bool × AudioEncoderLibav :=
  let nb := if ctx.frame_size ≠ 0 then ctx.frame_size else av.getDefaultSamples s.sampleRate
  let frame : AVFrame :=
    { nb_samples := nb, format := ctx.sample_fmt, channel_layout := ctx.channel_layout }
  let size := av.av_samples_get_buffer_size ctx.channels nb ctx.sample_fmt
  let s := { s with libavFrame := frame, samplesPerFrame := nb, internalBufferSize := size }
  if size < 0 then (false, s)
  else
    let s := { s with internalBuffer := some size }
    let ret := av.avcodec_fill_audio_frame frame ctx.channels ctx.sample_fmt size
    if ret < 0 then (false, s) else (true, s)

/-- Method `AudioEncoderLibav::config()`: the returned flag and the encoder after the call. -/
def config (av : Libav) (s0 : AudioEncoderLibav) : Bool × AudioEncoderLibav :=
  let s := { s0 with calls := s0.calls ++ [EncoderCall.config] }
  match av.avcodec_find_encoder s.codecID with
  | none => (false, { s with codec := none })
  | some codec =>
    match av.avcodec_alloc_context3 codec with
    | none => (false, { s with codec := some codec, codecCtx := none })
    | some ctx0 =>
      let s := { s with codec := some codec, codecCtx := some ctx0 }
      if !checkSampleFormat codec s.internalLibavSampleFormat then (false, s)
      else if !checkSampleRateSupport codec s.internalSampleRate then (false, s)
      else if !checkChannelLayoutSupport codec
          (av.av_get_default_channel_layout s.internalChannels) then (false, s)
      else
        let ctx1 : AVCodecContext :=
          { ctx0 with
            channels := s.internalChannels
            channel_layout := av.av_get_default_channel_layout s.internalChannels
            sample_rate := s.internalSampleRate
            sample_fmt := s.internalLibavSampleFormat }
        let opened := av.avcodec_open2 ctx1 codec
        let s := { s with codecCtx := some opened.2 }
        if opened.1 < 0 then (false, s)
        else
          let s := { s with resampleCtx := allocResampleCtx av s }
          match s.resampleCtx with
          | none => (false, s)
          | some swr =>
            if swr.initialized then configFrame av s opened.2
            else
              let inited := av.swr_init swr
              let s := { s with resampleCtx := some inited.2 }
              if inited.1 < 0 then (false, s) else configFrame av s opened.2

/-- Method `AudioEncoderLibav::inputConfig()`. -/
def inputConfig (av : Libav) (s0 : AudioEncoderLibav) : Bool × AudioEncoderLibav :=
  let s := { s0 with calls := s0.calls ++ [EncoderCall.inputConfig] }
  let s := { s with resampleCtx := allocResampleCtx av s }
  match s.resampleCtx with
  | none => (false, s)
  | some swr =>
    if swr.initialized then (true, s)
    else
      let inited := av.swr_init swr
      let s := { s with resampleCtx := some inited.2 }
      if inited.1 < 0 then (false, s) else (true, s)

/-- The assignments of `AudioEncoderLibav::configure` that come before its call of `config()`:
the three parameters are stored and the `switch` on the codec is run. -/
def configureFields (s : AudioEncoderLibav) (codec : ACodecType)
    (internalChannels internalSampleRate : Int) : AudioEncoderLibav :=
  let s := { s with
    fCodec := codec, internalChannels := internalChannels,
    internalSampleRate := internalSampleRate }
  match s.fCodec with
  | ACodecType.PCMU =>
    { s with codecID := AVCodecID.AV_CODEC_ID_PCM_MULAW,
             internalLibavSampleFormat := AVSampleFormat.AV_SAMPLE_FMT_S16,
             internalSampleFmt := SampleFmt.S16 }
  | ACodecType.OPUS =>
    { s with codecID := AVCodecID.AV_CODEC_ID_OPUS,
             internalLibavSampleFormat := AVSampleFormat.AV_SAMPLE_FMT_S16,
             internalSampleFmt := SampleFmt.S16 }
  | ACodecType.AAC =>
    { s with codecID := AVCodecID.AV_CODEC_ID_AAC,
             internalLibavSampleFormat := AVSampleFormat.AV_SAMPLE_FMT_S16,
             internalSampleFmt := SampleFmt.S16 }
  | ACodecType.MP3 =>
    { s with codecID := AVCodecID.AV_CODEC_ID_MP3,
             internalLibavSampleFormat := AVSampleFormat.AV_SAMPLE_FMT_S16P,
             internalSampleFmt := SampleFmt.S16P }
  | ACodecType.other _ => { s with codecID := AVCodecID.AV_CODEC_ID_NONE }

/-- Method `AudioEncoderLibav::configure`: the assignments, then `config()`, whose result is dropped. -/
def configure (av : Libav) (s : AudioEncoderLibav) (codec : ACodecType)
    (internalChannels internalSampleRate : Int) : AudioEncoderLibav :=
  (config av (configureFields s codec internalChannels internalSampleRate)).2

/-- The members of the `params` node that `configEvent` looks at. -/
structure ConfigParams where
  codec : Option String
  sampleRate : Option Int
  channels : Option Int
deriving DecidableEq, Repr

/-- Method `AudioEncoderLibav::configEvent`.  `params` is `none` for a `NULL` node.  The local `newCodec`
has no initial value in the source; `uninit` is the value it happens to hold when `params` has
no `"codec"` member. -/
def configEvent (av : Libav) (uninit : ACodecType) (s : AudioEncoderLibav)
    (params : Option ConfigParams) : AudioEncoderLibav :=
  match params with
  | none => s
  | some ps =>
    let newCodec := match ps.codec with
      | some name => av.getCodecFromString name
      | none => uninit
    let newSampleRate := match ps.sampleRate with
      | some v => v
      | none => s.internalSampleRate
    let newChannels := match ps.channels with
      | some v => v
      | none => s.internalChannels
    configure av s newCodec newChannels newSampleRate

/-- The `switch` of `checkInputParams` from `SampleFmt` to libav's sample format. -/
def toLibavSampleFmt : SampleFmt → AVSampleFormat
  | SampleFmt.U8 => AVSampleFormat.AV_SAMPLE_FMT_U8
  | SampleFmt.S16 => AVSampleFormat.AV_SAMPLE_FMT_S16
  | SampleFmt.FLT => AVSampleFormat.AV_SAMPLE_FMT_FLT
  | SampleFmt.U8P => AVSampleFormat.AV_SAMPLE_FMT_U8P
  | SampleFmt.S16P => AVSampleFormat.AV_SAMPLE_FMT_S16P
  | SampleFmt.FLTP => AVSampleFormat.AV_SAMPLE_FMT_FLTP
  | SampleFmt.other _ => AVSampleFormat.AV_SAMPLE_FMT_NONE

/-- Method `AudioEncoderLibav::checkInputParams`. -/
def checkInputParams (av : Libav) (s : AudioEncoderLibav) (sampleFormat : SampleFmt)
    (channels sampleRate : Int) : AudioEncoderLibav :=
  if s.sampleFmt = sampleFormat ∧ s.channels = channels ∧ s.sampleRate = sampleRate then s
  else
    let s := { s with sampleFmt := sampleFormat, channels := channels, sampleRate := sampleRate }
    let s := { s with libavSampleFmt := toLibavSampleFmt s.sampleFmt }
    if channels ≠ s.internalChannels ∨ sampleRate ≠ s.internalSampleRate then
      (config av { s with internalChannels := channels, internalSampleRate := sampleRate }).2
    else (inputConfig av s).2

end AudioEncoderLibav

/-! ## `AudioMixer` (modules/audioMixer/AudioMixer.cpp) -/

/-- The mix algorithm selector `mAlg`: the two enumerators named in `applyMixAlgorithm`, and
`other` for any value that falls to `default:`. -/
inductive MixAlgorithm where
  | LA | LDRC
  | other (tag : Nat)
deriving DecidableEq, Repr

/-- The constants and the helper `AudioFrame::getMaxSamples` that the mixer takes from headers
that are not among the sources. -/
structure MixerDefaults where
  DEFAULT_CHANNELS : Int
  DEFAULT_SAMPLE_RATE : Int
  DEFAULT_CHANNEL_GAIN : ℚ
  DEFAULT_MASTER_GAIN : ℚ
  COMPRESSION_THRESHOLD : ℚ
  getMaxSamples : Int → Nat

/-- The state of an `AudioMixer`.  `readers` and `maxReaders` are the reader map and the bound
`getMaxReaders()` of the filter base class. -/
structure AudioMixer where
  readers : IntMap Reader
  maxReaders : Nat
  gains : IntMap ℚ
  frameChannels : Int
  sampleRate : Int
  sampleFormat : SampleFmt
  samples : List ℚ
  mixedSamples : List ℚ
  masterGain : ℚ
  th : ℚ
  mAlg : MixAlgorithm
deriving DecidableEq, Repr

namespace AudioMixer

/-- The constructor `AudioMixer::AudioMixer(int inputChannels)`.  Modelled from the spec: the
base constructor `ManyToOneFilter(inputChannels)` is not among the sources; the spec gives an
N→1 filter `maxReaders = N` and empty maps. -/
def init (d : MixerDefaults) (inputChannels : Nat) : AudioMixer :=
  { readers := []
    maxReaders := inputChannels
    gains := []
    frameChannels := d.DEFAULT_CHANNELS
    sampleRate := d.DEFAULT_SAMPLE_RATE
    sampleFormat := SampleFmt.S16P
    samples := List.replicate (d.getMaxSamples d.DEFAULT_SAMPLE_RATE) 0
    mixedSamples := List.replicate (d.getMaxSamples d.DEFAULT_SAMPLE_RATE) 0
    masterGain := d.DEFAULT_MASTER_GAIN
    th := d.COMPRESSION_THRESHOLD
    mAlg := MixAlgorithm.LDRC }

/-- Method `AudioMixer::setReader`; the `queue` pointer is not used by the body.  The result is the
returned pointer (`none` for `NULL`) and the mixer after the call. -/
def setReader (d : MixerDefaults) (m : AudioMixer) (readerID : Int) (_queue : Option Nat) :
    Option Reader × AudioMixer :=
  if m.readers.count readerID > 0 then (none, m)
  else
    let r := Reader.init
    (some r, { m with readers := m.readers.assign readerID r,
                      gains := m.gains.assign readerID d.DEFAULT_CHANNEL_GAIN })

/-- A sequence of `setReader` calls, given by their reader ids; the returned pointers are
collected in call order. -/
def setReaders (d : MixerDefaults) :
    AudioMixer → List Int → List (Option Reader) × AudioMixer
  | m, [] => ([], m)
  | m, readerID :: ids =>
    let res := setReader d m readerID none
    let rest := setReaders d res.2 ids
    (res.1 :: rest.1, rest.2)

/-- A range-based loop `for (auto x : v) { body }` over a vector of samples: each iteration
copies the element at the current position into the local `x`, runs `body` on that local, and
drops the local; the loop state is the vector. -/
def forEachCopy (v : List ℚ) (body : ℚ → ℚ) : List ℚ :=
  (List.range v.length).foldl
    (fun vec i =>
      let x := vec.getD i 0
      let _x := body x
      vec)
    v

/-- A range-based loop `for (float& x : v) { body }`: each iteration runs `body` on the element
itself. -/
def forEachRef (v : List ℚ) (body : ℚ → ℚ) : List ℚ :=
  (List.range v.length).foldl (fun vec i => vec.set i (body (vec.getD i 0))) v

/-- Method `AudioMixer::LAMixAlgorithm`: `for (auto sample : fSamples) sample *= (1.0/frameNumber)`. -/
def LAMixAlgorithm (_m : AudioMixer) (fSamples : List ℚ) (frameNumber : Int) : List ℚ :=
  forEachCopy fSamples (fun sample => sample * (1 / (frameNumber : ℚ)))

/-- Method `AudioMixer::LDRCMixAlgorithm`: the loop over `auto s : fSamples` with the compression
formula assigned to `s` when `abs(s) > th`. -/
def LDRCMixAlgorithm (m : AudioMixer) (fSamples : List ℚ) (frameNumber : Int) : List ℚ :=
  forEachCopy fSamples (fun s =>
    if |s| > m.th then
      (s / |s|) * (m.th + ((1 - m.th) / ((frameNumber : ℚ) - m.th)) * (|s| - m.th))
    else s)

/-- Method `AudioMixer::applyMixAlgorithm`: the vector `fSamples` after the call. -/
def applyMixAlgorithm (m : AudioMixer) (fSamples : List ℚ) (frameNumber : Int) : List ℚ :=
  match m.mAlg with
  | MixAlgorithm.LA => LAMixAlgorithm m fSamples frameNumber
  | MixAlgorithm.LDRC => LDRCMixAlgorithm m fSamples frameNumber
  | MixAlgorithm.other _ => LAMixAlgorithm m fSamples frameNumber

/-- Method `AudioMixer::applyGainToChannel`: `for (float& sample : fSamples) sample *= gain`. -/
def applyGainToChannel (fSamples : List ℚ) (gain : ℚ) : List ℚ :=
  forEachRef fSamples (fun sample => sample * gain)

end AudioMixer

/-! ## Concrete objects used to run the code -/

namespace Sample

/-- A committed frame. -/
def frame : Frame := { data := [1], length := 1, presentationTime := 7 }

/-- An unused preallocated slot. -/
def blank : Frame := { data := [], length := 0, presentationTime := 0 }

/-- A connected queue of four slots holding exactly one committed frame, `frame`. -/
def queue : FrameQueue :=
  { frames := [frame, blank, blank, blank], front := 0, rear := 1, connected := true }

/-- A heap in which nothing has been destroyed and address `0` holds `queue`. -/
def heap : Heap := { queue := fun _ => queue, deleted := fun _ => 0 }

/-- A reader on the queue at address `0`, shared by `r` logical consumers, at the beginning of
a cycle. -/
def reader (r : Nat) : Reader := { queue := some 0, readers := r, pending := 0 }

/-- A writer holding the queue at address `0`. -/
def writer : Writer := { queue := some 0 }

end Sample

/-- The life-cycle invariant of one writer `w` and one reader endpoint `r` around the queue at
address `p`: no other queue has been destroyed; the endpoints point at `p` or at nothing; the
queue has not been destroyed, or it has been destroyed once and neither endpoint points at it;
and while both endpoints point at it, it is connected. -/
def Net.Core (p : Nat) (w : Writer) (r : Reader) (h : Heap) : Prop :=
  (∀ a, a ≠ p → h.deleted a = 0) ∧ (w.queue = none ∨ w.queue = some p) ∧
  (r.queue = none ∨ r.queue = some p) ∧
  (h.deleted p = 0 ∨ (h.deleted p = 1 ∧ w.queue = none ∧ r.queue = none)) ∧
  (w.queue = some p → r.queue = some p → (h.queue p).connected = true)

/-- The invariant `Core` for a net with exactly one reader endpoint. -/
def Net.Inv (p : Nat) (n : Net) : Prop :=
  ∃ r, n.readers = [r] ∧ Net.Core p n.writer r n.heap

/-- A net of one writer and two fresh reader endpoints around the sample queue. -/
def Sample.twoReaders : Net :=
  { writer := Sample.writer, readers := [Reader.init, Reader.init], heap := Sample.heap,
    fault := false }

/-- A reader on the queue at address `0` whose count is the largest `unsigned` value. -/
def Sample.sharedReaderAtMax : Reader :=
  { queue := some 0, readers := UINT_RANGE - 1, pending := 0 }

/-- A library in which no encoder can be found: `avcodec_find_encoder` returns `NULL` for every
codec id, so that `config()` fails. -/
def Sample.libavWithoutEncoders : Libav :=
  { avcodec_find_encoder := fun _ => none
    avcodec_alloc_context3 := fun _ => none
    av_get_default_channel_layout := fun n => n.toNat
    avcodec_open2 := fun ctx _ => (0, ctx)
    swr_alloc_set_opts := fun ctx _ _ _ _ _ _ => ctx
    swr_init := fun ctx => (0, ctx)
    av_samples_get_buffer_size := fun _ _ _ => 0
    avcodec_fill_audio_frame := fun _ _ _ _ => 0
    getDefaultSamples := fun _ => 0
    getCodecFromString := fun _ => ACodecType.other 0 }

/-- An encoder without readers (bounded by one, as for a one-to-one filter) that holds the
configuration PCMU, one channel, 8000 Hz. -/
def Sample.encoder : AudioEncoderLibav :=
  { readers := []
    maxReaders := 1
    fCodec := ACodecType.PCMU
    codecID := AVCodecID.AV_CODEC_ID_PCM_MULAW
    internalChannels := 1
    internalSampleRate := 8000
    internalSampleFmt := SampleFmt.S16
    internalLibavSampleFormat := AVSampleFormat.AV_SAMPLE_FMT_S16
    channels := 2
    sampleRate := 48000
    sampleFmt := SampleFmt.S16P
    libavSampleFmt := AVSampleFormat.AV_SAMPLE_FMT_S16P
    samplesPerFrame := 160
    codec := none
    codecCtx := none
    resampleCtx := none
    libavFrame :=
      { nb_samples := 160, format := AVSampleFormat.AV_SAMPLE_FMT_S16, channel_layout := 4 }
    internalBufferSize := 320
    internalBuffer := some 320
    calls := [] }

/-- The libav codec id that the `switch` of `configure` assigns for a codec. -/
def AudioEncoderLibav.codecIDOf : ACodecType → AVCodecID
  | ACodecType.PCMU => AVCodecID.AV_CODEC_ID_PCM_MULAW
  | ACodecType.OPUS => AVCodecID.AV_CODEC_ID_OPUS
  | ACodecType.AAC => AVCodecID.AV_CODEC_ID_AAC
  | ACodecType.MP3 => AVCodecID.AV_CODEC_ID_MP3
  | ACodecType.other _ => AVCodecID.AV_CODEC_ID_NONE

/-- The internal sample format that the `switch` of `configure` leaves behind for a codec, given
the format held before: the `default:` branch assigns none. -/
def AudioEncoderLibav.sampleFmtOf (previous : SampleFmt) : ACodecType → SampleFmt
  | ACodecType.PCMU => SampleFmt.S16
  | ACodecType.OPUS => SampleFmt.S16
  | ACodecType.AAC => SampleFmt.S16
  | ACodecType.MP3 => SampleFmt.S16P
  | ACodecType.other _ => previous

/-! ## Events of the audio mixer -/

/-- The members of the `params` node that the event handlers of the mixer look at.  A member
is `none` when `params->Has(name)` is false; otherwise it holds what `ToInt()` (for `"id"`) or
`ToFloat()` (for `"volume"`) gives for it. -/
structure MixerParams where
  id : Option Int
  volume : Option ℚ
deriving DecidableEq, Repr

namespace AudioMixer

/-- Method `AudioMixer::changeChannelVolumeEvent`; `params` is `none` for a `NULL` node. -/
def changeChannelVolumeEvent (m : AudioMixer) (params : Option MixerParams) : AudioMixer :=
  match params with
  | none => m
  | some ps =>
    match ps.id, ps.volume with
    | some id, some volume =>
      if m.gains.count id ≤ 0 then m
      else { m with gains := m.gains.assign id volume }
    | _, _ => m

/-- Method `AudioMixer::muteChannelEvent`. -/
def muteChannelEvent (m : AudioMixer) (params : Option MixerParams) : AudioMixer :=
  match params with
  | none => m
  | some ps =>
    match ps.id with
    | none => m
    | some id =>
      if m.gains.count id ≤ 0 then m
      else { m with gains := m.gains.assign id 0 }

/-- Method `AudioMixer::soloChannelEvent`: the loop `for (auto &it : gains)` rewrites the value
of every entry in place. -/
def soloChannelEvent (d : MixerDefaults) (m : AudioMixer) (params : Option MixerParams) :
    AudioMixer :=
  match params with
  | none => m
  | some ps =>
    match ps.id with
    | none => m
    | some id =>
      if m.gains.count id ≤ 0 then m
      else
        { m with gains := m.gains.map (fun it =>
            if it.1 = id then (it.1, d.DEFAULT_CHANNEL_GAIN) else (it.1, 0)) }

/-- Method `AudioMixer::changeMasterVolumeEvent`. -/
def changeMasterVolumeEvent (m : AudioMixer) (params : Option MixerParams) : AudioMixer :=
  match params with
  | none => m
  | some ps =>
    match ps.volume with
    | none => m
    | some volume => { m with masterGain := volume }

/-- Method `AudioMixer::muteMasterEvent`: `params` is not looked at. -/
def muteMasterEvent (m : AudioMixer) (_params : Option MixerParams) : AudioMixer :=
  { m with masterGain := 0 }

end AudioMixer

/-- The calls that register readers with the mixer or reach its event map. -/
inductive MixerCall where
  | setReader (readerID : Int)
  | changeChannelVolume (params : Option MixerParams)
  | muteChannel (params : Option MixerParams)
  | soloChannel (params : Option MixerParams)
  | changeMasterVolume (params : Option MixerParams)
  | muteMaster (params : Option MixerParams)
deriving DecidableEq, Repr

namespace AudioMixer

/-- Run one call on the mixer. -/
def call (d : MixerDefaults) (m : AudioMixer) : MixerCall → AudioMixer
  | MixerCall.setReader readerID => (setReader d m readerID none).2
  | MixerCall.changeChannelVolume params => changeChannelVolumeEvent m params
  | MixerCall.muteChannel params => muteChannelEvent m params
  | MixerCall.soloChannel params => soloChannelEvent d m params
  | MixerCall.changeMasterVolume params => changeMasterVolumeEvent m params
  | MixerCall.muteMaster params => muteMasterEvent m params

/-- Run a sequence of calls on the mixer. -/
def calls (d : MixerDefaults) (m : AudioMixer) (cs : List MixerCall) : AudioMixer :=
  cs.foldl (call d) m

end AudioMixer

/-- Sample constants for the mixer: two channels at 48 kHz, unit gains, buffers of four
samples. -/
def Sample.mixerDefaults : MixerDefaults :=
  { DEFAULT_CHANNELS := 2
    DEFAULT_SAMPLE_RATE := 48000
    DEFAULT_CHANNEL_GAIN := 1
    DEFAULT_MASTER_GAIN := 1
    COMPRESSION_THRESHOLD := 1
    getMaxSamples := fun _ => 4 }

/-- A mixer for three inputs with the readers `0`, `1` and `2` registered. -/
def Sample.mixer : AudioMixer :=
  (AudioMixer.setReaders Sample.mixerDefaults (AudioMixer.init Sample.mixerDefaults 3)
    [0, 1, 2]).2

/-! ## Frame processing of the audio mixer -/

/-- Modelled from the spec: the `AudioFrame` class, whose header and implementation are not among
the sources.  The spec describes a frame as a payload with a format descriptor (for audio:
channel count and samples per frame) and a length set by the writer.  Of the payload the model
keeps, for every channel, the samples as the mixer sees them through
`getChannelFloatSamples` and `fillBufferWithFloatSamples`, in exact arithmetic; the conversion
between these values and the 16-bit samples of the buffer is not part of the model. -/
structure AudioFrame where
  floatSamples : Int → List ℚ
  samples : Int
  length : Int

namespace AudioFrame

/-- Modelled from the spec: `getChannelFloatSamples(samples, ch)` leaves the samples of channel
`ch` in the vector it is handed and returns their number; the result is that vector and that
number. -/
def getChannelFloatSamples (f : AudioFrame) (ch : Int) : List ℚ × Int :=
  (f.floatSamples ch, ((f.floatSamples ch).length : Int))

/-- Modelled from the spec: `setSamples` stores the samples per frame. -/
def setSamples (f : AudioFrame) (n : Int) : AudioFrame := { f with samples := n }

/-- Modelled from the spec: `setLength` stores the length of the payload. -/
def setLength (f : AudioFrame) (n : Int) : AudioFrame := { f with length := n }

/-- Modelled from the spec: `fillBufferWithFloatSamples(v, ch)` writes the vector `v` as the
samples of channel `ch`. -/
def fillBufferWithFloatSamples (f : AudioFrame) (v : List ℚ) (ch : Int) : AudioFrame :=
  { f with floatSamples := fun c => if c = ch then v else f.floatSamples c }

end AudioFrame

/-- The macro `BPS` of AudioMixer.cpp: bytes per sample. -/
def BPS : Int := 2

/-- The call `m[k]` on a `std::map<int, T>`: the value bound to `k`, a binding to the value
`dflt` being added first when `k` is new.  The result is the value and the map after the
call. -/
def IntMap.index {α : Type} (dflt : α) (m : IntMap α) (k : Int) : α × IntMap α :=
  match m.find? k with
  | some v => (v, m)
  | none => (dflt, m.assign k dflt)

namespace AudioMixer

/-- The call `v.resize(n)` on a vector of samples: the first `n` elements are kept and zeros
are added up to the length `n`. -/
def resize (v : List ℚ) (n : Nat) : List ℚ := v.take n ++ List.replicate (n - v.length) 0

/-- Method `AudioMixer::sumValues`: the loop over `float& mixedSample : mixedSamples` adds
`fSamples[i]` to the element at position `i`.  A read past the end of `fSamples` has no defined
value in the source and reads `0` here. -/
def sumValues (fSamples : List ℚ) (mixedSamples : List ℚ) : List ℚ :=
  (List.range mixedSamples.length).foldl
    (fun vec i => vec.set i (vec.getD i 0 + fSamples.getD i 0)) mixedSamples

/-- The loop `for (auto id : filledFramesIds)` of `mixNonEmptyFrames` for the channel `ch`.  The
state is the mixer (its vectors `samples` and `mixedSamples` and its gain map, which `gains[id]`
may extend) and the local `nOfSamples`.  An id to which `orgFrames` binds no frame or a `NULL`
frame makes the loop dereference a `NULL` pointer: the result is `none`. -/
def mixChannelInputs (orgFrames : IntMap (Option AudioFrame)) (ch : Int) :
    List Int → AudioMixer × Int → Option (AudioMixer × Int)
  | [], st => some st
  | id :: ids, st =>
    match orgFrames.find? id with
    | some (some frame) =>
      let got := frame.getChannelFloatSamples ch
      let nOfSamples := got.2
      let mixedSamples :=
        if (st.1.mixedSamples.length : Int) ≠ nOfSamples then
          resize st.1.mixedSamples nOfSamples.toNat
        else st.1.mixedSamples
      let gain := st.1.gains.index 0 id
      let samples := applyGainToChannel got.1 gain.1
      let mixedSamples := sumValues samples mixedSamples
      mixChannelInputs orgFrames ch ids
        ({ st.1 with samples := samples, mixedSamples := mixedSamples, gains := gain.2 },
          nOfSamples)
    | _ => none

/-- One iteration of the loop `for (int ch = 0; ch < frameChannels; ch++)` of
`mixNonEmptyFrames`.  The state is the mixer, the destination frame and the local
`nOfSamples`. -/
def mixChannel (orgFrames : IntMap (Option AudioFrame)) (filledFramesIds : List Int)
    (totalFrames : Int) (st : AudioMixer × AudioFrame × Int) (ch : Int) :
    Option (AudioMixer × AudioFrame × Int) :=
  match mixChannelInputs orgFrames ch filledFramesIds (st.1, st.2.2) with
  | none => none
  | some (m, nOfSamples) =>
    let mixedSamples := m.applyMixAlgorithm m.mixedSamples totalFrames
    let mixedSamples := applyGainToChannel mixedSamples m.masterGain
    let aDst := st.2.1.setSamples nOfSamples
    let aDst := aDst.setLength (nOfSamples * BPS)
    let aDst := aDst.fillBufferWithFloatSamples mixedSamples ch
    let mixedSamples := mixedSamples.map (fun _ => 0)
    some ({ m with mixedSamples := mixedSamples }, aDst, nOfSamples)

/-- The loop over the channels, for the channels listed. -/
def mixChannels (orgFrames : IntMap (Option AudioFrame)) (filledFramesIds : List Int)
    (totalFrames : Int) :
    List Int → AudioMixer × AudioFrame × Int → Option (AudioMixer × AudioFrame × Int)
  | [], st => some st
  | ch :: chs, st =>
    match mixChannel orgFrames filledFramesIds totalFrames st ch with
    | none => none
    | some st1 => mixChannels orgFrames filledFramesIds totalFrames chs st1

/-- The values that `ch` takes in `for (int ch = 0; ch < frameChannels; ch++)`. -/
def channelRange (frameChannels : Int) : List Int :=
  (List.range frameChannels.toNat).map Int.ofNat

/-- Method `AudioMixer::mixNonEmptyFrames`: the mixer and the destination frame after the call,
`none` when a `NULL` frame is dereferenced. -/
def mixNonEmptyFrames (m : AudioMixer) (orgFrames : IntMap (Option AudioFrame))
    (filledFramesIds : List Int) (dst : AudioFrame) (totalFrames : Int) :
    Option (AudioMixer × AudioFrame) :=
  match mixChannels orgFrames filledFramesIds totalFrames (channelRange m.frameChannels)
      (m, dst, 0) with
  | none => none
  | some st => some (st.1, st.2.1)

/-- The first loop of `doProcessFrame`: the ids of the entries that hold a frame, in the order
of the map. -/
def collectFilledFramesIds (orgFrames : IntMap (Option AudioFrame)) : List Int :=
  orgFrames.foldl (fun ids frame => if frame.2.isSome then ids ++ [frame.1] else ids) []

/-- Method `AudioMixer::doProcessFrame`: the returned flag, the mixer and the destination frame
after the call. -/
def doProcessFrame (m : AudioMixer) (orgFrames : IntMap (Option AudioFrame))
    (dst : AudioFrame) : Option (Bool × AudioMixer × AudioFrame) :=
  let filledFramesIds := collectFilledFramesIds orgFrames
  if filledFramesIds.isEmpty then some (false, m, dst)
  else
    match mixNonEmptyFrames m orgFrames filledFramesIds dst (orgFrames.size : Int) with
    | none => none
    | some res => some (true, res.1, res.2)

end AudioMixer

/-- An audio frame of two channels with three samples each; `a` is the first sample of the
first channel. -/
def Sample.audioFrame (a : ℚ) : AudioFrame :=
  { floatSamples := fun ch => if ch = 0 then [a, 1, 2] else if ch = 1 then [3, 4, 5] else []
    samples := 3
    length := 6 }

/-- A destination frame that has not been written. -/
def Sample.emptyAudioFrame : AudioFrame :=
  { floatSamples := fun _ => [], samples := 0, length := 0 }

/-- The frames handed to the mixer by the readers `0`, `1` and `2`, of which reader `1` has
none. -/
def Sample.orgFrames : IntMap (Option AudioFrame) :=
  [(0, some (Sample.audioFrame 10)), (1, none), (2, some (Sample.audioFrame 20))]

namespace AudioMixer

/-- The value that `gains[id]` yields: the gain bound to `id`, and `0` for an id without gain. -/
def gainOf (gains : IntMap ℚ) (id : Int) : ℚ := (gains.find? id).getD 0

/-- The sample at position `j` of channel `ch` of the frame that `orgFrames` binds to `id` (`0`
when there is no such frame or no such position). -/
def inputSample (orgFrames : IntMap (Option AudioFrame)) (id ch : Int) (j : Nat) : ℚ :=
  match orgFrames.find? id with
  | some (some frame) => (frame.floatSamples ch).getD j 0
  | _ => 0

/-- The mix of the inputs `ids` at position `j` of channel `ch`: the master gain times the sum
of the samples of the inputs, each weighted by the gain of its id. -/
def mixedSample (m : AudioMixer) (orgFrames : IntMap (Option AudioFrame)) (ids : List Int)
    (ch : Int) (j : Nat) : ℚ :=
  m.masterGain * (ids.map (fun id => gainOf m.gains id * inputSample orgFrames id ch j)).sum

end AudioMixer

/-! ## `H264QueueSource` (modules/liveMediaOutput/H264QueueSource.cpp) -/

/-- The macro `START_CODE`. -/
def START_CODE : Nat := 0x00000001

/-- The macro `SHORT_START_LENGTH`. -/
def SHORT_START_LENGTH : Nat := 3

/-- The macro `LONG_START_LENGTH`. -/
def LONG_START_LENGTH : Nat := 4

/-- The value of an integer as an `unsigned` (32 bits). -/
def toUInt32 (x : Int) : Nat := (x % 2 ^ 32).toNat

/-- The value of an integer as an `int` (32 bits, two's complement). -/
def toInt32 (x : Int) : Int := (x + 2 ^ 31) % 2 ^ 32 - 2 ^ 31

/-- Function `startOffset`.  The buffer is the list of its bytes (`ptr[i]` is entry `i`, read as
`0` past the end of the list); each of the two words is put together with shifts and `|` and
stored in a `u_int32_t`. -/
def startOffset (ptr : List Nat) : Nat :=
  let bytes := (((0 ||| (ptr.getD 0 0 <<< 16)) ||| (ptr.getD 1 0 <<< 8)) ||| ptr.getD 2 0) % 2 ^ 32
  if bytes = START_CODE then SHORT_START_LENGTH
  else
    let bytes :=
      ((((ptr.getD 0 0 <<< 24) ||| (ptr.getD 1 0 <<< 16)) ||| (ptr.getD 2 0 <<< 8))
        ||| ptr.getD 3 0) % 2 ^ 32
    if bytes = START_CODE then LONG_START_LENGTH
    else 0

/-- The state of an `H264QueueSource`: its reader, the members `frame`, `fMaxSize`,
`fFrameSize`, `fNumTruncatedBytes` and `fPresentationTime`, and the contents of the sink buffer
`fTo`.  Three fields record what the source does to its collaborators: the calls made on the
reader, the number of delayed tasks scheduled and the number of `afterGetting` calls. -/
structure H264QueueSource where
  fReader : Reader
  frame : Option Frame
  fTo : List Nat
  fMaxSize : Nat
  fFrameSize : Nat
  fNumTruncatedBytes : Nat
  fPresentationTime : Nat
  readerCalls : List Call
  scheduledTasks : Nat
  afterGettingCalls : Nat
deriving DecidableEq, Repr

namespace H264QueueSource

/-- The call `memcpy(fTo, buff, size)`: the first `size` bytes of `fTo` are replaced by the first
`size` bytes of `buff`. -/
def memcpy (fTo buff : List Nat) (size : Nat) : List Nat :=
  buff.take size ++ fTo.drop size

/-- Method `H264QueueSource::doGetNextFrame`.  `force` is the default argument of
`Reader::getFrame`, which is declared in a header that is not among the sources.  The length of
the frame is stored in the `int size`, the comparison `fMaxSize < size` and the difference
`size - fMaxSize` are made on `unsigned` values.  The result is `none` when the reader has no
queue. -/
def doGetNextFrame (force : Bool) (s : H264QueueSource) (h : Heap) :
    Option (H264QueueSource × Heap) :=
  match s.fReader.getFrame h force with
  | none => none
  | some (none, r1, h1) =>
    some ({ s with
      fReader := r1, frame := none
      readerCalls := s.readerCalls ++ [Call.getFrame force]
      scheduledTasks := s.scheduledTasks + 1 }, h1)
  | some (some frame, r1, h1) =>
    let size : Int := toInt32 frame.length
    let offset : Nat := startOffset frame.data
    let buff := frame.data.drop offset
    let size : Int := toInt32 (size - offset)
    let fFrameSize : Nat := if s.fMaxSize < toUInt32 size then s.fMaxSize else toUInt32 size
    let fNumTruncatedBytes : Nat :=
      if s.fMaxSize < toUInt32 size then toUInt32 (size - s.fMaxSize) else 0
    match r1.removeFrame h1 with
    | none => none
    | some (_, r2, h2) =>
      some ({ s with
        fReader := r2, frame := some frame
        fPresentationTime := frame.presentationTime
        fFrameSize := fFrameSize
        fNumTruncatedBytes := fNumTruncatedBytes
        fTo := memcpy s.fTo buff fFrameSize
        readerCalls := s.readerCalls ++ [Call.getFrame force, Call.removeFrame]
        afterGettingCalls := s.afterGettingCalls + 1 }, h2)

end H264QueueSource

/-- A frame of ten bytes that starts with the four-byte start code. -/
def Sample.nalFrame : Frame :=
  { data := [0, 0, 0, 1, 101, 1, 2, 3, 4, 5], length := 10, presentationTime := 40 }

/-- A heap whose queue at address `0` is connected and holds `nalFrame` as its only committed
frame. -/
def Sample.nalHeap : Heap :=
  { queue := fun _ =>
      { frames := [Sample.nalFrame, Sample.blank], front := 0, rear := 1, connected := true }
    deleted := fun _ => 0 }

/-- A source reading the queue at address `0` through a reader fresh from `Writer::connect`
(`readers = 0`), with a sink of `fMaxSize` bytes. -/
def Sample.h264Source (fMaxSize : Nat) : H264QueueSource :=
  { fReader := { queue := some 0, readers := 0, pending := 0 }
    frame := none
    fTo := List.replicate fMaxSize 255
    fMaxSize := fMaxSize
    fFrameSize := 0
    fNumTruncatedBytes := 0
    fPresentationTime := 0
    readerCalls := []
    scheduledTasks := 0
    afterGettingCalls := 0 }

/-! ## Properties of the endpoints -/

theorem Heap.set_queue_same (h : Heap) (p : Nat) (q : FrameQueue) : (h.set p q).queue p = q := by
  simp [Heap.set]

theorem Heap.setConnected_connected (h : Heap) (p : Nat) (c : Bool) :
    ((h.setConnected p c).queue p).connected = c := by
  simp [Heap.setConnected, Heap.set, FrameQueue.setConnected]

theorem Heap.delete_deleted_same (h : Heap) (p : Nat) :
    (h.delete p).deleted p = h.deleted p + 1 := by
  simp [Heap.delete]

/-- On a connected queue, a turn of a consumer that finds `pending = j + 1` hands out the front
frame, leaves `pending = j` and does not touch the heap. -/
theorem Reader.consume_pending_pos (r : Reader) (h : Heap) (p j : Nat) (force : Bool)
    (f : Frame) (hq : r.queue = some p) (hc : (h.queue p).connected = true)
    (hf : (h.queue p).getFront = some f) (hp : r.pending = j + 1) :
    r.consume h force = some (some f, { r with pending := j }, h) := by
  have hne : ¬ (j + 1 = 0) := by omega
  simp [Reader.consume, Reader.getFrame, Reader.removeFrame, FrameQueue.isConnected, hq, hc,
    hf, hp, hne]

/-- On a connected queue, `n` turns that start with `pending = j + n` all hand out the front
frame, leave `pending = j` and do not touch the heap. -/
theorem Reader.consumeN_pending (n : Nat) : ∀ (r : Reader) (h : Heap) (p j : Nat) (force : Bool)
    (f : Frame), r.queue = some p → (h.queue p).connected = true →
    (h.queue p).getFront = some f → r.pending = j + n →
    r.consumeN n h force = some (List.replicate n (some f), { r with pending := j }, h) := by
  induction n with
  | zero =>
    intro r h p j force f _ _ _ hp
    have : r = { r with pending := j } := by
      cases r; simp at hp; simp [hp]
    simp only [Reader.consumeN, List.replicate]
    rw [← this]
  | succ n ih =>
    intro r h p j force f hq hc hf hp
    have h1 := Reader.consume_pending_pos r h p (j + n) force f hq hc hf (by omega)
    have h2 := ih { r with pending := j + n } h p j force f hq hc hf rfl
    simp [Reader.consumeN, h1, h2, List.replicate]

/-- On a connected queue whose front frame is `f`, the turns of all `r.readers ≥ 1` consumers of
a cycle hand out `f` each, and leave the reader at `pending = 0` and the heap as it was: the
front cursor has not moved, and the next `getFrame` hands out `f` again. -/
theorem Reader.consumeN_readers_keeps_front (r : Reader) (h : Heap) (p : Nat) (force : Bool)
    (f : Frame) (hq : r.queue = some p) (hc : (h.queue p).connected = true)
    (hf : (h.queue p).getFront = some f) (hp : r.pending = 0) (hr : 1 ≤ r.readers) :
    r.consumeN r.readers h force = some (List.replicate r.readers (some f), r, h) ∧
      r.getFrame h force = some (some f, { r with pending := r.readers }, h) := by
  obtain ⟨k, hk⟩ : ∃ k, r.readers = k + 1 := ⟨r.readers - 1, by omega⟩
  have hget : r.getFrame h force = some (some f, { r with pending := r.readers }, h) := by
    simp [Reader.getFrame, FrameQueue.isConnected, hq, hc, hf, hp]
  refine ⟨?_, hget⟩
  have hfirst : r.consume h force = some (some f, { r with pending := k }, h) := by
    have hne : ¬ (k + 1 = 0) := by omega
    simp [Reader.consume, hget, Reader.removeFrame, hk, hne]
  have hrest := Reader.consumeN_pending k { r with pending := k } h p 0 force f hq hc hf
    (by simp)
  have hr0 : ({ r with pending := 0 } : Reader) = r := by
    cases r; simp at hp; simp [hp]
  rw [hk]
  simp [Reader.consumeN, hfirst, hrest, List.replicate, hr0]

/-- C1, run on the code at scenario S4 of the spec: a reader with `readers = 3` and
`pending = 0` on a connected queue holding exactly one committed frame.  The three consumers
each call `getFrame()` and then `removeFrame()` and each is handed the frame; the `getFrame()`
issued after the third `removeFrame()` is handed the same frame again, not nil, and the front
cursor of the queue is still at its initial position `0`. -/
theorem shared_reader_getFrame_after_last_removeFrame :
    ((Sample.reader 3).consumeN 3 Sample.heap false).map (fun x => x.1)
        = some [some Sample.frame, some Sample.frame, some Sample.frame] ∧
      (((Sample.reader 3).consumeN 3 Sample.heap false).bind
          (fun x => x.2.1.getFrame x.2.2 false)).map (fun x => (x.1, (x.2.2.queue 0).front))
        = some (some Sample.frame, 0) := by
  constructor <;> rfl

/-- A `removeFrame()` that finds `pending > 0` only decrements `pending`, returns `-1` and
leaves the heap, hence the queue cursors, as they were. -/
theorem Reader.removeFrame_pending_pos (r : Reader) (h : Heap) (hp : 0 < r.pending) :
    r.removeFrame h = some (-1, { r with pending := r.pending - 1 }, h) := by
  have hne : ¬ (r.pending = 0) := by omega
  simp [Reader.removeFrame, hne]

/-- What `getFrame` does and shows on a reader whose queue is connected. -/
theorem Reader.observe_getFrame (r : Reader) (h : Heap) (p : Nat) (force : Bool)
    (hq : r.queue = some p) (hc : (h.queue p).connected = true) :
    ∃ frame, r.observe h (Call.getFrame force) =
      some (Observation.got r.pending frame,
        if r.pending = 0 then { r with pending := r.readers } else r, h) := by
  refine ⟨if (force && (h.queue p).getFront.isNone) = true then (h.queue p).forceGetFront
    else (h.queue p).getFront, ?_⟩
  simp [Reader.observe, Reader.getFrame, hq, hc, FrameQueue.isConnected]

/-- What `removeFrame` does and shows when it finds `pending = 0`: the front cursor of the
queue moves by one, the reader is as before. -/
theorem Reader.observe_removeFrame_zero (r : Reader) (h : Heap) (p : Nat)
    (hq : r.queue = some p) (hp : r.pending = 0) :
    r.observe h Call.removeFrame =
      some (Observation.removed 0 (h.queue p).front ((h.queue p).front + 1)
        (((h.queue p).front + 1 : Nat) : Int), r, h.set p (h.queue p).removeFrame.1) := by
  simp [Reader.observe, Reader.removeFrame, Reader.front, hq, hp, Heap.set,
    FrameQueue.removeFrame]

/-- What `removeFrame` does and shows when it finds `pending > 0`: `pending` drops by one, the
result is `-1`, the heap is as before. -/
theorem Reader.observe_removeFrame_pos (r : Reader) (h : Heap) (p : Nat)
    (hq : r.queue = some p) (hp : r.pending ≠ 0) :
    r.observe h Call.removeFrame =
      some (Observation.removed r.pending (h.queue p).front (h.queue p).front (-1),
        { r with pending := r.pending - 1 }, h) := by
  simp [Reader.observe, Reader.removeFrame, Reader.front, hq, hp]

/-- The count of calls between advances on the code, for a run that starts anywhere in a cycle:
if `acks` non-advancing `removeFrame()` calls and `cycles` cycle-starting `getFrame()` calls have
been made since the last advance and `acks + pending = readers * cycles`, then every later
advance is preceded by `readers` non-advancing calls per cycle started. -/
theorem Reader.run_gaps (calls : List Call) : ∀ (r : Reader) (h : Heap) (p acks cycles : Nat),
    r.queue = some p → (h.queue p).connected = true →
    acks + r.pending = r.readers * cycles →
    ∃ log r1 h1, r.run calls h = some (log, r1, h1) ∧
      ∀ g ∈ advanceGaps acks cycles log, g.1 = r.readers * g.2 := by
  induction calls with
  | nil =>
    intro r h p acks cycles _ _ _
    exact ⟨[], r, h, rfl, by simp [advanceGaps]⟩
  | cons c cs ih =>
    intro r h p acks cycles hq hc hinv
    cases c with
    | getFrame force =>
      obtain ⟨frame, hobs⟩ := Reader.observe_getFrame r h p force hq hc
      by_cases hp : r.pending = 0
      · obtain ⟨log, r1, h1, hrun, hg⟩ := ih { r with pending := r.readers } h p acks
          (cycles + 1) hq hc (by simp only; rw [hp] at hinv; rw [Nat.mul_add]; omega)
        simp only [hp, if_true] at hobs
        refine ⟨Observation.got 0 frame :: log, r1, h1, ?_, ?_⟩
        · simp [Reader.run, hobs, hrun]
        · simpa [advanceGaps, Observation.advanced, Observation.acknowledged,
            Observation.startedCycle] using hg
      · obtain ⟨log, r1, h1, hrun, hg⟩ := ih r h p acks cycles hq hc hinv
        simp only [hp, if_false] at hobs
        refine ⟨Observation.got r.pending frame :: log, r1, h1, ?_, ?_⟩
        · simp [Reader.run, hobs, hrun]
        · simpa [advanceGaps, Observation.advanced, Observation.acknowledged,
            Observation.startedCycle, hp] using hg
    | removeFrame =>
      by_cases hp : r.pending = 0
      · have hobs := Reader.observe_removeFrame_zero r h p hq hp
        obtain ⟨log, r1, h1, hrun, hg⟩ := ih r (h.set p (h.queue p).removeFrame.1) p 0 0 hq
          (by simpa [Heap.set, FrameQueue.removeFrame] using hc) (by simp [hp])
        refine ⟨Observation.removed 0 (h.queue p).front ((h.queue p).front + 1)
          (((h.queue p).front + 1 : Nat) : Int) :: log, r1, h1, ?_, ?_⟩
        · simp only [Reader.run, hobs, hrun]
        intro g hmem
        simp [advanceGaps, Observation.advanced] at hmem
        rcases hmem with rfl | hmem
        · simp only; rw [hp] at hinv; omega
        · exact hg g hmem
      · have hobs := Reader.observe_removeFrame_pos r h p hq hp
        obtain ⟨log, r1, h1, hrun, hg⟩ := ih { r with pending := r.pending - 1 } h p
          (acks + 1) cycles hq hc (by simp only; omega)
        refine ⟨Observation.removed r.pending (h.queue p).front (h.queue p).front (-1) :: log,
          r1, h1, ?_, ?_⟩
        · simp only [Reader.run, hobs, hrun]
        simpa [advanceGaps, Observation.advanced, Observation.acknowledged] using hg

/-- On a reader whose queue is not connected every `getFrame(force)` hands out nil and leaves
the reader and the heap as they were, whatever `force` is and however often it is called. -/
theorem Reader.getFrames_not_connected (forces : List Bool) (r : Reader) (h : Heap) (p : Nat)
    (hq : r.queue = some p) (hc : (h.queue p).connected = false) :
    r.getFrames forces h = some (forces.map (fun _ => none), r, h) := by
  induction forces with
  | nil => rfl
  | cons force forces ih =>
    have hget : r.getFrame h force = some (none, r, h) := by
      simp [Reader.getFrame, FrameQueue.isConnected, hq, hc]
    simp [Reader.getFrames, hget, ih]

/-- C3: for a writer that holds a queue (at address `p`) and any reader, `W.connect(R)` returns
true and leaves `R` pointing at the writer's queue, which is connected; the following
`W.disconnect()` returns true and leaves `R.isConnected() = false`; and every sequence of
subsequent `R.getFrame(force)` calls, for any values of `force`, hands out nil each time and
leaves the reader (its `pending` and `readers` count, which are those `R` had before the
connection) and the heap (hence the queue cursors) unchanged. -/
theorem getFrame_nil_after_writer_disconnect (w : Writer) (r : Reader) (h : Heap) (p : Nat)
    (hw : w.queue = some p) :
    w.connect r h = (true, { r with queue := w.queue }, h.setConnected p true) ∧
      Reader.isConnected { r with queue := w.queue } (h.setConnected p true) = true ∧
      w.disconnect (h.setConnected p true)
        = (true, { queue := none }, (h.setConnected p true).setConnected p false) ∧
      Reader.isConnected { r with queue := w.queue }
        ((h.setConnected p true).setConnected p false) = false ∧
      ∀ forces : List Bool,
        Reader.getFrames forces { r with queue := w.queue }
            ((h.setConnected p true).setConnected p false)
          = some (forces.map (fun _ => none), { r with queue := w.queue },
              (h.setConnected p true).setConnected p false) := by
  refine ⟨?_, ?_, ?_, ?_, ?_⟩
  · simp [Writer.connect, hw, Reader.setConnection]
  · simp [Reader.isConnected, hw, FrameQueue.isConnected, Heap.setConnected_connected]
  · simp [Writer.disconnect, hw, FrameQueue.isConnected, Heap.setConnected_connected]
  · simp [Reader.isConnected, hw, FrameQueue.isConnected, Heap.setConnected_connected]
  · intro forces
    exact Reader.getFrames_not_connected forces _ _ p (by simp [hw])
      (Heap.setConnected_connected _ p false)

/-- C3 at a fresh reader and a writer holding the sample queue. -/
theorem getFrame_nil_after_writer_disconnect_witness :
    Sample.writer.queue = some 0 ∧
    (Sample.writer.connect Reader.init Sample.heap
        = (true, { Reader.init with queue := Sample.writer.queue },
            Sample.heap.setConnected 0 true) ∧
      Reader.isConnected { Reader.init with queue := Sample.writer.queue }
        (Sample.heap.setConnected 0 true) = true ∧
      Sample.writer.disconnect (Sample.heap.setConnected 0 true)
        = (true, { queue := none }, (Sample.heap.setConnected 0 true).setConnected 0 false) ∧
      Reader.isConnected { Reader.init with queue := Sample.writer.queue }
        ((Sample.heap.setConnected 0 true).setConnected 0 false) = false ∧
      ∀ forces : List Bool,
        Reader.getFrames forces { Reader.init with queue := Sample.writer.queue }
            ((Sample.heap.setConnected 0 true).setConnected 0 false)
          = some (forces.map (fun _ => none), { Reader.init with queue := Sample.writer.queue },
              (Sample.heap.setConnected 0 true).setConnected 0 false)) :=
  ⟨rfl, getFrame_nil_after_writer_disconnect Sample.writer Reader.init Sample.heap 0 rfl⟩

/-- Method `Writer::disconnect()` on a writer without queue returns false and changes nothing. -/
theorem writer_disconnect_no_queue (h : Heap) :
    Writer.disconnect { queue := none } h = (false, { queue := none }, h) := rfl

/-- Method `Reader::disconnect()` on a non-shared reader without queue returns false and changes
nothing. -/
theorem reader_disconnect_no_queue (r : Reader) (h : Heap) (hr : r.readers ≤ 1) :
    Reader.disconnect { r with queue := none } h = (false, { r with queue := none }, h) := by
  have hne : ¬ (1 < r.readers) := by omega
  simp [Reader.disconnect, hne]

/-- C4: for a writer holding the queue at address `p` and a non-shared reader
(`readers ≤ 1`) joined by `W.connect(R)`: whichever endpoint calls `disconnect()` first only
sets `connected = false` and drops its own pointer, the destruction counters being untouched;
the `disconnect()` of the other endpoint then applies `delete` to the queue, once; both calls
return true and afterwards both endpoints hold no queue; any further `disconnect()` on either
endpoint returns false and changes nothing; and `W.disconnect(R)` returns true, leaves both
endpoints without queue and destroys the queue exactly once. -/
theorem two_step_teardown (w : Writer) (r : Reader) (h : Heap) (p : Nat)
    (hw : w.queue = some p) (hr : r.readers ≤ 1) :
    w.connect r h = (true, { r with queue := some p }, h.setConnected p true) ∧
      (w.disconnect (h.setConnected p true)
          = (true, { queue := none }, (h.setConnected p true).setConnected p false) ∧
        Reader.disconnect { r with queue := some p }
            ((h.setConnected p true).setConnected p false)
          = (true, { r with queue := none },
              ((h.setConnected p true).setConnected p false).delete p)) ∧
      (Reader.disconnect { r with queue := some p } (h.setConnected p true)
          = (true, { r with queue := none }, (h.setConnected p true).setConnected p false) ∧
        w.disconnect ((h.setConnected p true).setConnected p false)
          = (true, { queue := none },
              ((h.setConnected p true).setConnected p false).delete p)) ∧
      (((h.setConnected p true).setConnected p false).deleted = h.deleted ∧
        (((h.setConnected p true).setConnected p false).queue p).connected = false ∧
        (((h.setConnected p true).setConnected p false).delete p).deleted p = h.deleted p + 1 ∧
        ∀ a, a ≠ p →
          (((h.setConnected p true).setConnected p false).delete p).deleted a = h.deleted a) ∧
      ((∀ h1 : Heap, Writer.disconnect { queue := none } h1 = (false, { queue := none }, h1)) ∧
        ∀ h1 : Heap,
          Reader.disconnect { r with queue := none } h1 = (false, { r with queue := none }, h1)) ∧
      w.disconnectReader { r with queue := some p } (h.setConnected p true)
        = (true, { queue := none }, { r with queue := none },
            ((h.setConnected p true).setConnected p false).delete p) := by
  have hne : ¬ (1 < r.readers) := by omega
  have hRfirst : Reader.disconnect { r with queue := some p } (h.setConnected p true)
      = (true, { r with queue := none }, (h.setConnected p true).setConnected p false) := by
    simp [Reader.disconnect, hne, FrameQueue.isConnected, Heap.setConnected_connected]
  have hWsecond : w.disconnect ((h.setConnected p true).setConnected p false)
      = (true, { queue := none },
          ((h.setConnected p true).setConnected p false).delete p) := by
    simp [Writer.disconnect, hw, FrameQueue.isConnected, Heap.setConnected_connected]
  refine ⟨?_, ⟨?_, ?_⟩, ⟨hRfirst, hWsecond⟩, ⟨rfl, ?_, ?_, ?_⟩, ⟨?_, ?_⟩, ?_⟩
  · simp [Writer.connect, hw, Reader.setConnection]
  · simp [Writer.disconnect, hw, FrameQueue.isConnected, Heap.setConnected_connected]
  · simp [Reader.disconnect, hne, FrameQueue.isConnected, Heap.setConnected_connected]
  · exact Heap.setConnected_connected _ p false
  · simp [Heap.delete, Heap.setConnected, Heap.set]
  · intro a ha
    simp [Heap.delete, Heap.setConnected, Heap.set, ha]
  · exact fun h1 => writer_disconnect_no_queue h1
  · exact fun h1 => reader_disconnect_no_queue r h1 hr
  · simp [Writer.disconnectReader, hRfirst, hWsecond]

/-- C4 at a fresh reader and a writer holding the sample queue. -/
theorem two_step_teardown_witness :
    (Sample.writer.queue = some 0 ∧ Reader.init.readers ≤ 1) ∧
    (Sample.writer.connect Reader.init Sample.heap
        = (true, { Reader.init with queue := some 0 }, Sample.heap.setConnected 0 true) ∧
      (Sample.writer.disconnect (Sample.heap.setConnected 0 true)
          = (true, { queue := none },
              (Sample.heap.setConnected 0 true).setConnected 0 false) ∧
        Reader.disconnect { Reader.init with queue := some 0 }
            ((Sample.heap.setConnected 0 true).setConnected 0 false)
          = (true, { Reader.init with queue := none },
              ((Sample.heap.setConnected 0 true).setConnected 0 false).delete 0)) ∧
      (Reader.disconnect { Reader.init with queue := some 0 }
            (Sample.heap.setConnected 0 true)
          = (true, { Reader.init with queue := none },
              (Sample.heap.setConnected 0 true).setConnected 0 false) ∧
        Sample.writer.disconnect ((Sample.heap.setConnected 0 true).setConnected 0 false)
          = (true, { queue := none },
              ((Sample.heap.setConnected 0 true).setConnected 0 false).delete 0)) ∧
      (((Sample.heap.setConnected 0 true).setConnected 0 false).deleted
          = Sample.heap.deleted ∧
        (((Sample.heap.setConnected 0 true).setConnected 0 false).queue 0).connected
          = false ∧
        (((Sample.heap.setConnected 0 true).setConnected 0 false).delete 0).deleted 0
          = Sample.heap.deleted 0 + 1 ∧
        ∀ a, a ≠ 0 →
          (((Sample.heap.setConnected 0 true).setConnected 0 false).delete 0).deleted a
            = Sample.heap.deleted a) ∧
      ((∀ h1 : Heap,
          Writer.disconnect { queue := none } h1 = (false, { queue := none }, h1)) ∧
        ∀ h1 : Heap,
          Reader.disconnect { Reader.init with queue := none } h1
            = (false, { Reader.init with queue := none }, h1)) ∧
      Sample.writer.disconnectReader { Reader.init with queue := some 0 }
          (Sample.heap.setConnected 0 true)
        = (true, { queue := none }, { Reader.init with queue := none },
            ((Sample.heap.setConnected 0 true).setConnected 0 false).delete 0)) :=
  ⟨⟨rfl, by decide⟩,
    two_step_teardown Sample.writer Reader.init Sample.heap 0 rfl (by decide)⟩

/-! ## The life cycle of a queue -/

theorem core_reader_disconnect {p : Nat} {w : Writer} {r : Reader} {h : Heap}
    (hc : Net.Core p w r h) : Net.Core p w (r.disconnect h).2.1 (r.disconnect h).2.2 := by
  obtain ⟨h1, h2, h3, h4, h5⟩ := hc
  unfold Reader.disconnect
  split_ifs with hr
  · exact ⟨h1, h2, h3, h4, h5⟩
  · rcases h3 with h3 | h3
    · simp only [h3]
      exact ⟨h1, h2, Or.inl h3, h4, h5⟩
    · simp only [h3]
      split_ifs with hcon
      · refine ⟨h1, h2, Or.inl rfl, ?_, ?_⟩
        · rcases h4 with h4 | ⟨_, _, h4⟩
          · exact Or.inl h4
          · simp [h3] at h4
        · simp
      · refine ⟨?_, h2, Or.inl rfl, ?_, ?_⟩
        · intro a ha
          simp [Heap.delete, ha, h1 a ha]
        · rcases h4 with h4 | ⟨_, _, h4⟩
          · right
            refine ⟨by simp [Heap.delete, h4], ?_, rfl⟩
            rcases h2 with h2 | h2
            · exact h2
            · exact absurd (h5 h2 h3) (by simpa [FrameQueue.isConnected] using hcon)
          · simp [h3] at h4
        · simp

theorem core_writer_disconnect {p : Nat} {w : Writer} {r : Reader} {h : Heap}
    (hc : Net.Core p w r h) : Net.Core p (w.disconnect h).2.1 r (w.disconnect h).2.2 := by
  obtain ⟨h1, h2, h3, h4, h5⟩ := hc
  unfold Writer.disconnect
  rcases h2 with h2 | h2
  · simp only [h2]
    exact ⟨h1, Or.inl h2, h3, h4, h5⟩
  · simp only [h2]
    split_ifs with hcon
    · refine ⟨h1, Or.inl rfl, h3, ?_, ?_⟩
      · rcases h4 with h4 | ⟨_, h4, _⟩
        · exact Or.inl h4
        · simp [h2] at h4
      · simp
    · refine ⟨?_, Or.inl rfl, h3, ?_, ?_⟩
      · intro a ha
        simp [Heap.delete, ha, h1 a ha]
      · rcases h4 with h4 | ⟨_, h4, _⟩
        · right
          refine ⟨by simp [Heap.delete, h4], rfl, ?_⟩
          rcases h3 with h3 | h3
          · exact h3
          · exact absurd (h5 h2 h3) (by simpa [FrameQueue.isConnected] using hcon)
        · simp [h2] at h4
      · simp

theorem core_connect {p : Nat} {w : Writer} {r : Reader} {h : Heap}
    (hc : Net.Core p w r h) : Net.Core p w (w.connect r h).2.1 (w.connect r h).2.2 := by
  obtain ⟨h1, h2, h3, h4, h5⟩ := hc
  unfold Writer.connect
  rcases h2 with h2 | h2
  · simp only [h2]
    exact ⟨h1, Or.inl h2, h3, h4, by simp [h2]⟩
  · simp only [h2]
    refine ⟨h1, Or.inr h2, Or.inr rfl, ?_, ?_⟩
    · rcases h4 with h4 | ⟨_, h4, _⟩
      · exact Or.inl h4
      · simp [h2] at h4
    · intro _ _
      exact Heap.setConnected_connected h p true

theorem core_addReader {p : Nat} {w : Writer} {r r1 : Reader} {h : Heap}
    (hc : Net.Core p w r h) (ha : r.addReader h = some r1) : Net.Core p w r1 h := by
  have hq : r1.queue = r.queue := by
    unfold Reader.addReader at ha
    split_ifs at ha with hr
    · cases hrq : r.queue with
      | none => simp [hrq] at ha
      | some q =>
        simp only [hrq] at ha
        split_ifs at ha <;> simp at ha <;> simp [← ha, hrq]
    · simp at ha
      simp [← ha]
  obtain ⟨h1, h2, h3, h4, h5⟩ := hc
  exact ⟨h1, h2, hq ▸ h3, hq ▸ h4, hq ▸ h5⟩

theorem core_removeReader {p : Nat} {w : Writer} {r : Reader} {h : Heap}
    (hc : Net.Core p w r h) : Net.Core p w (r.removeReader h).1 (r.removeReader h).2 := by
  simp only [Reader.removeReader]
  split_ifs with hr h0
  · have hc1 : Net.Core p w { r with readers := r.readers - 1 } h := hc
    exact core_reader_disconnect hc1
  · exact hc
  · exact hc

theorem core_disconnectReader {p : Nat} {w : Writer} {r : Reader} {h : Heap}
    (hc : Net.Core p w r h) :
    Net.Core p (w.disconnectReader r h).2.1 (w.disconnectReader r h).2.2.1
      (w.disconnectReader r h).2.2.2 := by
  simp only [Writer.disconnectReader]
  have hr := core_reader_disconnect hc
  split_ifs with hres
  · exact core_writer_disconnect hr
  · exact hr


theorem inv_step {p : Nat} {n : Net} (c : NetCall) (hn : Net.Inv p n) :
    Net.Inv p (n.step c) := by
  obtain ⟨r, hrs, hc⟩ := hn
  unfold Net.step
  split_ifs with hf
  · exact ⟨r, hrs, hc⟩
  · cases c with
    | connect i =>
      cases i with
      | zero => simpa [hrs, Net.Inv] using core_connect hc
      | succ i => simpa [hrs, Net.Inv] using hc
    | writerDisconnect => exact ⟨r, hrs, core_writer_disconnect hc⟩
    | readerDisconnect i =>
      cases i with
      | zero => simpa [hrs, Net.Inv] using core_reader_disconnect hc
      | succ i => simpa [hrs, Net.Inv] using hc
    | writerDisconnectReader i =>
      cases i with
      | zero => simpa [hrs, Net.Inv] using core_disconnectReader hc
      | succ i => simpa [hrs, Net.Inv] using hc
    | addReader i =>
      cases i with
      | zero =>
        cases ha : r.addReader n.heap with
        | none => simpa [hrs, Net.Inv, ha] using hc
        | some r1 => simpa [hrs, Net.Inv, ha] using core_addReader hc ha
      | succ i => simpa [hrs, Net.Inv] using hc
    | removeReader i =>
      cases i with
      | zero => simpa [hrs, Net.Inv] using core_removeReader hc
      | succ i => simpa [hrs, Net.Inv] using hc

theorem inv_run {p : Nat} (cs : List NetCall) : ∀ n : Net, Net.Inv p n → Net.Inv p (n.run cs) := by
  induction cs with
  | nil => exact fun n hn => hn
  | cons c cs ih => exact fun n hn => ih (n.step c) (inv_step c hn)

theorem inv_safe {p : Nat} {n : Net} (hn : Net.Inv p n) :
    n.noDanglingReference ∧ n.noDoubleDestruction := by
  obtain ⟨r, hrs, h1, h2, h3, h4, h5⟩ := hn
  have hdel : ∀ a, n.heap.deleted a ≤ 1 := by
    intro a
    by_cases ha : a = p
    · subst ha
      rcases h4 with h4 | ⟨h4, _, _⟩ <;> omega
    · rw [h1 a ha]; omega
  have hlive : ∀ q a, (q = none ∨ q = some p) → (n.heap.deleted p = 0 ∨ q = none) →
      q = some a → n.heap.deleted a = 0 := by
    intro q a hq hd hqa
    rcases hq with hq | hq
    · rw [hq] at hqa; cases hqa
    · rw [hq] at hqa
      cases hqa
      rcases hd with hd | hd
      · exact hd
      · rw [hq] at hd; cases hd
  refine ⟨⟨fun a ha => hlive _ a h2 ?_ ha, fun r0 hr0 a ha => ?_⟩, hdel⟩
  · rcases h4 with h4 | ⟨_, h4, _⟩
    · exact Or.inl h4
    · exact Or.inr h4
  · rw [hrs] at hr0
    simp at hr0
    subst hr0
    refine hlive _ a h3 ?_ ha
    rcases h4 with h4 | ⟨_, _, h4⟩
    · exact Or.inl h4
    · exact Or.inr h4

/-- C5, as amended: for one writer and one reader endpoint (shared by any number `readers` of
logical consumers) around a queue, in a heap where nothing has been destroyed yet, after every
sequence of `connect`, `disconnect` (of either endpoint, and `W.disconnect(R)`), `addReader`
and `removeReader` calls no endpoint references a destroyed queue and no queue has been
destroyed more than once.  The reader starts without queue or already attached to the connected
queue of the writer.  A run ends at the first call that dereferences a `NULL` queue pointer
(`addReader()` on a reader with `readers ≥ 1` that has dropped its queue); the statement then
holds of the state in which the run ended. -/
theorem queue_lifetime_one_reader (w : Writer) (r : Reader) (h : Heap) (p : Nat)
    (calls : List NetCall) (hw : w.queue = some p)
    (hr : r.queue = none ∨ (r.queue = some p ∧ (h.queue p).connected = true))
    (hd : ∀ a, h.deleted a = 0) :
    (Net.run { writer := w, readers := [r], heap := h, fault := false } calls).noDanglingReference ∧
      (Net.run { writer := w, readers := [r], heap := h, fault := false }
        calls).noDoubleDestruction := by
  apply inv_safe (p := p)
  apply inv_run
  refine ⟨r, rfl, fun a _ => hd a, Or.inr hw, ?_, Or.inl (hd p), ?_⟩
  · rcases hr with hr | ⟨hr, _⟩
    · exact Or.inl hr
    · exact Or.inr hr
  · intro _ hrq
    rcases hr with hr | ⟨_, hr⟩
    · rw [hr] at hrq; cases hrq
    · exact hr

/-- The amended C5 at a fresh reader and the sample writer, for a sequence that connects,
tears the connection down from both sides and tries once more. -/
theorem queue_lifetime_one_reader_witness :
    (Sample.writer.queue = some 0 ∧
      (Reader.init.queue = none ∨
        (Reader.init.queue = some 0 ∧ (Sample.heap.queue 0).connected = true)) ∧
      ∀ a, Sample.heap.deleted a = 0) ∧
    ((Net.run
          { writer := Sample.writer, readers := [Reader.init], heap := Sample.heap,
            fault := false }
          [NetCall.connect 0, NetCall.addReader 0, NetCall.readerDisconnect 0,
            NetCall.writerDisconnect, NetCall.writerDisconnect]).noDanglingReference ∧
      (Net.run
          { writer := Sample.writer, readers := [Reader.init], heap := Sample.heap,
            fault := false }
          [NetCall.connect 0, NetCall.addReader 0, NetCall.readerDisconnect 0,
            NetCall.writerDisconnect, NetCall.writerDisconnect]).noDoubleDestruction) :=
  ⟨⟨rfl, Or.inl rfl, fun _ => rfl⟩,
    queue_lifetime_one_reader Sample.writer Reader.init Sample.heap 0
      [NetCall.connect 0, NetCall.addReader 0, NetCall.readerDisconnect 0,
        NetCall.writerDisconnect, NetCall.writerDisconnect] rfl (Or.inl rfl) (fun _ => rfl)⟩

/-- C5 as stated fails for more than one reader endpoint.  With one writer holding the queue at
address `0` and two fresh readers: after `W.connect(R0)`, `W.connect(R1)`, `R0.disconnect()`,
`R1.disconnect()` the queue has been destroyed (once) while the writer still points at it, and
the following `W.disconnect()` destroys it a second time. -/
theorem queue_lifetime_two_readers_violated :
    (¬ ∀ (w : Writer) (rs : List Reader) (h : Heap) (p : Nat) (calls : List NetCall),
        w.queue = some p → (∀ r ∈ rs, r.queue = none) → rs ≠ [] → (∀ a, h.deleted a = 0) →
        (Net.run { writer := w, readers := rs, heap := h, fault := false }
            calls).noDanglingReference ∧
          (Net.run { writer := w, readers := rs, heap := h, fault := false }
            calls).noDoubleDestruction) ∧
      (Sample.twoReaders.run [NetCall.connect 0, NetCall.connect 1, NetCall.readerDisconnect 0,
          NetCall.readerDisconnect 1]).writer.queue = some 0 ∧
      (Sample.twoReaders.run [NetCall.connect 0, NetCall.connect 1, NetCall.readerDisconnect 0,
          NetCall.readerDisconnect 1]).heap.deleted 0 = 1 ∧
      (Sample.twoReaders.run [NetCall.connect 0, NetCall.connect 1, NetCall.readerDisconnect 0,
          NetCall.readerDisconnect 1, NetCall.writerDisconnect]).heap.deleted 0 = 2 := by
  refine ⟨fun hall => ?_, rfl, rfl, rfl⟩
  have h1 := (hall Sample.writer [Reader.init, Reader.init] Sample.heap 0
    [NetCall.connect 0, NetCall.connect 1, NetCall.readerDisconnect 0,
      NetCall.readerDisconnect 1] rfl (by simp [Reader.init]) (by simp) (fun _ => rfl)).1.1 0 rfl
  exact absurd h1 (by decide)


/-! ## Sharing count -/

/-- C9, as amended: for every reader whose queue is connected, an `addReader()` call made with
`1 ≤ readers` (and `readers` below the largest `unsigned` value) increases `readers` by exactly
one, and a `removeReader()` call made with `readers ≥ 2` decreases `readers` by exactly one,
touches nothing else and leaves the queue connected. -/
theorem readers_count_tracks_sharing (r : Reader) (h : Heap) (p : Nat)
    (hq : r.queue = some p) (hc : (h.queue p).connected = true) :
    (1 ≤ r.readers → r.readers + 1 < UINT_RANGE →
        r.addReader h = some { r with readers := r.readers + 1 }) ∧
      (2 ≤ r.readers →
        r.removeReader h = ({ r with readers := r.readers - 1 }, h) ∧
          (((r.removeReader h).2).queue p).connected = true) := by
  constructor
  · intro h1 h2
    simp [Reader.addReader, h1, hq, hc, FrameQueue.isConnected, Nat.mod_eq_of_lt h2]
  · intro h2
    have h0 : 0 < r.readers := by omega
    have h1 : ¬ (r.readers - 1 = 0) := by omega
    simp [Reader.removeReader, h0, h1, hc]

/-- The amended C9 at a reader shared by two consumers on the sample queue. -/
theorem readers_count_tracks_sharing_witness :
    ((Sample.reader 2).queue = some 0 ∧ (Sample.heap.queue 0).connected = true) ∧
    ((1 ≤ (Sample.reader 2).readers → (Sample.reader 2).readers + 1 < UINT_RANGE →
        (Sample.reader 2).addReader Sample.heap
          = some { Sample.reader 2 with readers := (Sample.reader 2).readers + 1 }) ∧
      (2 ≤ (Sample.reader 2).readers →
        (Sample.reader 2).removeReader Sample.heap
            = ({ Sample.reader 2 with readers := (Sample.reader 2).readers - 1 }, Sample.heap) ∧
          ((((Sample.reader 2).removeReader Sample.heap).2).queue 0).connected = true)) :=
  ⟨⟨rfl, rfl⟩, readers_count_tracks_sharing (Sample.reader 2) Sample.heap 0 rfl rfl⟩

/-- C9 as stated fails.  A fresh reader attached by `Writer.connect` has `readers = 0`, and
`addReader()` leaves the count at `0`; and at the largest `unsigned` value the increment wraps
to `0`. -/
theorem addReader_after_connect_keeps_zero :
    (¬ ∀ (w : Writer) (r : Reader) (h : Heap) (p : Nat), w.queue = some p →
        ((w.connect r h).2.1.addReader (w.connect r h).2.2).map (fun r1 => r1.readers)
          = some (r.readers + 1)) ∧
      ((Sample.writer.connect Reader.init Sample.heap).2.1.addReader
          (Sample.writer.connect Reader.init Sample.heap).2.2).map (fun r1 => r1.readers)
        = some 0 ∧
      (Sample.sharedReaderAtMax.addReader Sample.heap).map (fun r1 => r1.readers) = some 0 := by
  refine ⟨fun hall => ?_, rfl, by decide⟩
  have h1 := hall Sample.writer Reader.init Sample.heap 0 rfl
  exact absurd h1 (by decide)


/-! ## Reader registration in the filters -/

theorem intmap_count_eq_zero_iff {α : Type} (m : IntMap α) (k : Int) :
    m.count k = 0 ↔ m.find? k = none := by
  induction m with
  | nil => simp [IntMap.count, IntMap.find?]
  | cons e m ih =>
    by_cases he : e.1 = k
    · simp [IntMap.count, IntMap.find?, he]
    · have : (IntMap.count m k = 0) ↔ ¬ (List.any m (fun e => decide (e.1 = k)) = true) := by
        simp [IntMap.count]
      simp only [IntMap.find?, he, if_false, ← ih, this]
      simp [IntMap.count, he]

theorem intmap_find_assign {α : Type} (m : IntMap α) (k k1 : Int) (v : α) :
    (m.assign k v).find? k1 = if k1 = k then some v else m.find? k1 := by
  induction m with
  | nil =>
    by_cases hk : k1 = k
    · simp [IntMap.assign, IntMap.find?, hk]
    · have hk2 : ¬ (k = k1) := fun h => hk h.symm
      simp [IntMap.assign, IntMap.find?, hk, hk2]
  | cons e m ih =>
    by_cases he : e.1 = k
    · by_cases hk : k1 = k
      · simp [IntMap.assign, IntMap.find?, he, hk]
      · have hk2 : ¬ (k = k1) := fun h => hk h.symm
        simp [IntMap.assign, IntMap.find?, he, hk, hk2]
    · by_cases hk : k1 = k
      · subst hk
        simp [IntMap.assign, IntMap.find?, he, ih]
      · by_cases he1 : e.1 = k1
        · simp [IntMap.assign, IntMap.find?, he, he1, hk]
        · simp [IntMap.assign, IntMap.find?, he, hk, he1, ih]

theorem intmap_size_assign_new {α : Type} (m : IntMap α) (k : Int) (v : α)
    (hk : m.find? k = none) : (m.assign k v).size = m.size + 1 := by
  induction m with
  | nil => simp [IntMap.assign, IntMap.size]
  | cons e m ih =>
    by_cases he : e.1 = k
    · simp [IntMap.find?, he] at hk
    · simp only [IntMap.find?, he, if_false] at hk
      have := ih hk
      simp only [IntMap.size] at this
      simp [IntMap.assign, IntMap.size, he, this]

/-- Without the bound on the map: `setReader` of the encoder returns `NULL` exactly when the map
holds at least `maxReaders` entries or the id is already a key. -/
theorem encoder_setReader_none_iff (s : AudioEncoderLibav) (readerID : Int)
    (queue : AudioCircularBuffer) :
    (s.setReader readerID queue).1 = none ↔
      (s.maxReaders ≤ s.readers.size ∨ (s.readers.find? readerID).isSome) := by
  have hcount : (0 < s.readers.count readerID) ↔ (s.readers.find? readerID).isSome := by
    rw [Option.isSome_iff_ne_none, Ne, ← intmap_count_eq_zero_iff]
    omega
  unfold AudioEncoderLibav.setReader
  split_ifs with hcond
  · simp only [true_iff]
    simpa [hcount] using hcond
  · simp only [false_iff, reduceCtorEq]
    simpa [hcount] using hcond

/-- C6: for an encoder whose reader map respects its bound, `setReader(readerID, queue)`
returns nil exactly when `readerID` is already a key of the reader map or the map already holds
`maxReaders` entries, and then the encoder (its reader map included) and the queue are
unchanged; in every other case it returns a new `Reader`, and the reader map afterwards is
the old map plus the single key `readerID` bound to that reader: every other key is bound as
before and the size has grown by one. -/
theorem encoder_setReader_contract (s : AudioEncoderLibav) (readerID : Int)
    (queue : AudioCircularBuffer) (hb : s.readers.size ≤ s.maxReaders) :
    ((s.setReader readerID queue).1 = none ↔
        ((s.readers.find? readerID).isSome ∨ s.readers.size = s.maxReaders)) ∧
      ((s.setReader readerID queue).1 = none →
        (s.setReader readerID queue).2.1 = s ∧ (s.setReader readerID queue).2.2 = queue) ∧
      ((s.setReader readerID queue).1 ≠ none →
        (s.setReader readerID queue).1 = some Reader.init ∧
          (∀ k, (s.setReader readerID queue).2.1.readers.find? k
              = if k = readerID then some Reader.init else s.readers.find? k) ∧
          (s.setReader readerID queue).2.1.readers.size = s.readers.size + 1) := by
  have hiff := encoder_setReader_none_iff s readerID queue
  refine ⟨?_, ?_, ?_⟩
  · rw [hiff]
    constructor
    · rintro (h1 | h1)
      · exact Or.inr (Nat.le_antisymm hb h1)
      · exact Or.inl h1
    · rintro (h1 | h1)
      · exact Or.inr h1
      · exact Or.inl (Nat.le_of_eq h1.symm)
  · intro _
    unfold AudioEncoderLibav.setReader
    split_ifs <;> simp_all [AudioEncoderLibav.setReader]
  · intro hne
    have hnot : ¬ (s.maxReaders ≤ s.readers.size ∨ (s.readers.find? readerID).isSome) :=
      fun h => hne (hiff.mpr h)
    have hfind : s.readers.find? readerID = none := by
      cases hf : s.readers.find? readerID with
      | none => rfl
      | some v => exact absurd (Or.inr (by simp [hf])) hnot
    have hcond : ¬ ((decide (s.readers.size ≥ s.maxReaders) ||
        decide (s.readers.count readerID > 0)) = true) := by
      have hc0 := (intmap_count_eq_zero_iff s.readers readerID).mpr hfind
      have hlt : ¬ (s.maxReaders ≤ s.readers.size) := fun h => hnot (Or.inl h)
      simp [hc0, hlt]
    simp only [AudioEncoderLibav.setReader, hcond, if_false]
    exact ⟨rfl, fun k => intmap_find_assign s.readers readerID k Reader.init,
      intmap_size_assign_new s.readers readerID Reader.init hfind⟩

/-- C6 at an encoder without readers bounded by one reader. -/
theorem encoder_setReader_contract_witness :
    Sample.encoder.readers.size ≤ Sample.encoder.maxReaders ∧
    (((Sample.encoder.setReader 5 { outputFrameSamples := 0 }).1 = none ↔
        ((Sample.encoder.readers.find? 5).isSome ∨
          Sample.encoder.readers.size = Sample.encoder.maxReaders)) ∧
      ((Sample.encoder.setReader 5 { outputFrameSamples := 0 }).1 = none →
        (Sample.encoder.setReader 5 { outputFrameSamples := 0 }).2.1 = Sample.encoder ∧
          (Sample.encoder.setReader 5 { outputFrameSamples := 0 }).2.2
            = { outputFrameSamples := 0 }) ∧
      ((Sample.encoder.setReader 5 { outputFrameSamples := 0 }).1 ≠ none →
        (Sample.encoder.setReader 5 { outputFrameSamples := 0 }).1 = some Reader.init ∧
          (∀ k, (Sample.encoder.setReader 5 { outputFrameSamples := 0 }).2.1.readers.find? k
              = if k = 5 then some Reader.init else Sample.encoder.readers.find? k) ∧
          (Sample.encoder.setReader 5 { outputFrameSamples := 0 }).2.1.readers.size
            = Sample.encoder.readers.size + 1)) :=
  ⟨by decide, encoder_setReader_contract Sample.encoder 5 { outputFrameSamples := 0 } (by decide)⟩

/-- C7, run on the code: a mixer constructed with one input channel (`maxReaders = 1`) accepts
two `setReader` calls with the distinct ids `0` and `1`; both return a new `Reader` and the
mixer ends with two registered readers, whatever the default constants are. -/
theorem mixer_setReader_exceeds_maxReaders (d : MixerDefaults) :
    (AudioMixer.init d 1).maxReaders = 1 ∧
      ((AudioMixer.init d 1).setReaders d [0, 1]).1 = [some Reader.init, some Reader.init] ∧
      ((AudioMixer.init d 1).setReaders d [0, 1]).2.readers.size = 2 :=
  ⟨rfl, rfl, rfl⟩


/-! ## Configuration of the audio encoder -/

/-- The tail of `config()` does not write the configuration fields. -/
theorem configFrame_keeps_configuration (av : Libav) (s : AudioEncoderLibav)
    (ctx : AVCodecContext) :
    (AudioEncoderLibav.configFrame av s ctx).2.fCodec = s.fCodec ∧
      (AudioEncoderLibav.configFrame av s ctx).2.codecID = s.codecID ∧
      (AudioEncoderLibav.configFrame av s ctx).2.internalChannels = s.internalChannels ∧
      (AudioEncoderLibav.configFrame av s ctx).2.internalSampleRate = s.internalSampleRate ∧
      (AudioEncoderLibav.configFrame av s ctx).2.internalSampleFmt = s.internalSampleFmt := by
  simp only [AudioEncoderLibav.configFrame]
  split_ifs <;> exact ⟨rfl, rfl, rfl, rfl, rfl⟩

/-- The routine `config()` does not write the configuration fields, whatever it returns. -/
theorem config_keeps_configuration (av : Libav) (s : AudioEncoderLibav) :
    (AudioEncoderLibav.config av s).2.fCodec = s.fCodec ∧
      (AudioEncoderLibav.config av s).2.codecID = s.codecID ∧
      (AudioEncoderLibav.config av s).2.internalChannels = s.internalChannels ∧
      (AudioEncoderLibav.config av s).2.internalSampleRate = s.internalSampleRate ∧
      (AudioEncoderLibav.config av s).2.internalSampleFmt = s.internalSampleFmt := by
  simp only [AudioEncoderLibav.config]
  split
  · exact ⟨rfl, rfl, rfl, rfl, rfl⟩
  · split
    · exact ⟨rfl, rfl, rfl, rfl, rfl⟩
    · split_ifs
      · exact ⟨rfl, rfl, rfl, rfl, rfl⟩
      · exact ⟨rfl, rfl, rfl, rfl, rfl⟩
      · exact ⟨rfl, rfl, rfl, rfl, rfl⟩
      · exact ⟨rfl, rfl, rfl, rfl, rfl⟩
      · split
        · exact ⟨rfl, rfl, rfl, rfl, rfl⟩
        · split_ifs
          · exact configFrame_keeps_configuration av _ _
          · exact ⟨rfl, rfl, rfl, rfl, rfl⟩
          · exact configFrame_keeps_configuration av _ _

/-- The assignments of `configure` store the request. -/
theorem configureFields_stores_request (s : AudioEncoderLibav) (codec : ACodecType)
    (channels sampleRate : Int) :
    (s.configureFields codec channels sampleRate).fCodec = codec ∧
      (s.configureFields codec channels sampleRate).codecID
        = AudioEncoderLibav.codecIDOf codec ∧
      (s.configureFields codec channels sampleRate).internalChannels = channels ∧
      (s.configureFields codec channels sampleRate).internalSampleRate = sampleRate ∧
      (s.configureFields codec channels sampleRate).internalSampleFmt
        = AudioEncoderLibav.sampleFmtOf s.internalSampleFmt codec := by
  cases codec <;> exact ⟨rfl, rfl, rfl, rfl, rfl⟩

/-- C8, as amended: `configure(codec, channels, sampleRate)` stores the request before it runs
`config()`, and `config()` never writes these fields, so that after the call, whether
`config()` failed or succeeded, `fCodec = codec`, `internalChannels = channels`,
`internalSampleRate = sampleRate`, `codecID` is the libav id of `codec` and `internalSampleFmt`
is the format that goes with `codec` (the previous one for a codec that the `switch` does not
name).  A configure event without params leaves the encoder as it is; one with params does the
same as `configure` with the channels and the sample rate it names, the current ones standing in
for those it does not name. -/
theorem configure_stores_request (av : Libav) (uninit : ACodecType) (s : AudioEncoderLibav)
    (codec : ACodecType) (channels sampleRate : Int) :
    ((AudioEncoderLibav.configure av s codec channels sampleRate).fCodec = codec ∧
        (AudioEncoderLibav.configure av s codec channels sampleRate).codecID
          = AudioEncoderLibav.codecIDOf codec ∧
        (AudioEncoderLibav.configure av s codec channels sampleRate).internalChannels
          = channels ∧
        (AudioEncoderLibav.configure av s codec channels sampleRate).internalSampleRate
          = sampleRate ∧
        (AudioEncoderLibav.configure av s codec channels sampleRate).internalSampleFmt
          = AudioEncoderLibav.sampleFmtOf s.internalSampleFmt codec) ∧
      ((AudioEncoderLibav.config av s).2.fCodec = s.fCodec ∧
        (AudioEncoderLibav.config av s).2.codecID = s.codecID ∧
        (AudioEncoderLibav.config av s).2.internalChannels = s.internalChannels ∧
        (AudioEncoderLibav.config av s).2.internalSampleRate = s.internalSampleRate ∧
        (AudioEncoderLibav.config av s).2.internalSampleFmt = s.internalSampleFmt) ∧
      AudioEncoderLibav.configEvent av uninit s none = s ∧
      ∀ ps : AudioEncoderLibav.ConfigParams,
        (AudioEncoderLibav.configEvent av uninit s (some ps)).internalChannels
            = ps.channels.getD s.internalChannels ∧
          (AudioEncoderLibav.configEvent av uninit s (some ps)).internalSampleRate
            = ps.sampleRate.getD s.internalSampleRate ∧
          (AudioEncoderLibav.configEvent av uninit s (some ps)).fCodec
            = (ps.codec.map av.getCodecFromString).getD uninit := by
  have hcfg : ∀ (c : ACodecType) (ch sr : Int),
      (AudioEncoderLibav.configure av s c ch sr).fCodec = c ∧
        (AudioEncoderLibav.configure av s c ch sr).codecID = AudioEncoderLibav.codecIDOf c ∧
        (AudioEncoderLibav.configure av s c ch sr).internalChannels = ch ∧
        (AudioEncoderLibav.configure av s c ch sr).internalSampleRate = sr ∧
        (AudioEncoderLibav.configure av s c ch sr).internalSampleFmt
          = AudioEncoderLibav.sampleFmtOf s.internalSampleFmt c := by
    intro c ch sr
    obtain ⟨k1, k2, k3, k4, k5⟩ := config_keeps_configuration av (s.configureFields c ch sr)
    obtain ⟨f1, f2, f3, f4, f5⟩ := configureFields_stores_request s c ch sr
    simp only [AudioEncoderLibav.configure]
    exact ⟨k1.trans f1, k2.trans f2, k3.trans f3, k4.trans f4, k5.trans f5⟩
  refine ⟨hcfg codec channels sampleRate, config_keeps_configuration av s, rfl, fun ps => ?_⟩
  obtain ⟨codec?, sampleRate?, channels?⟩ := ps
  simp only [AudioEncoderLibav.configEvent]
  refine ⟨?_, ?_, ?_⟩
  · rw [(hcfg _ _ _).2.2.1]
    cases channels? <;> rfl
  · rw [(hcfg _ _ _).2.2.2.1]
    cases sampleRate? <;> rfl
  · rw [(hcfg _ _ _).1]
    cases codec? <;> rfl

/-- C8 as stated fails: a failed `config()` does not leave the configuration fields as they
were.  With a library that finds no encoder, `configure(MP3, 2, 44100)` on an encoder holding
PCMU, one channel, 8000 Hz fails in `config()` and leaves MP3, two channels, 44100 Hz. -/
theorem configure_failure_not_atomic :
    (¬ ∀ (av : Libav) (s : AudioEncoderLibav) (codec : ACodecType) (channels sampleRate : Int),
        (AudioEncoderLibav.config av (s.configureFields codec channels sampleRate)).1 = false →
        (AudioEncoderLibav.configure av s codec channels sampleRate).fCodec = s.fCodec ∧
          (AudioEncoderLibav.configure av s codec channels sampleRate).codecID = s.codecID ∧
          (AudioEncoderLibav.configure av s codec channels sampleRate).internalChannels
            = s.internalChannels ∧
          (AudioEncoderLibav.configure av s codec channels sampleRate).internalSampleRate
            = s.internalSampleRate ∧
          (AudioEncoderLibav.configure av s codec channels sampleRate).internalSampleFmt
            = s.internalSampleFmt) ∧
      (AudioEncoderLibav.config Sample.libavWithoutEncoders
          (Sample.encoder.configureFields ACodecType.MP3 2 44100)).1 = false ∧
      Sample.encoder.fCodec = ACodecType.PCMU ∧
      (AudioEncoderLibav.configure Sample.libavWithoutEncoders Sample.encoder
          ACodecType.MP3 2 44100).fCodec = ACodecType.MP3 ∧
      Sample.encoder.internalSampleRate = 8000 ∧
      (AudioEncoderLibav.configure Sample.libavWithoutEncoders Sample.encoder
          ACodecType.MP3 2 44100).internalSampleRate = 44100 := by
  refine ⟨fun hall => ?_, rfl, rfl, rfl, rfl, rfl⟩
  have h1 := (hall Sample.libavWithoutEncoders Sample.encoder ACodecType.MP3 2 44100 rfl).1
  exact absurd h1 (by decide)

/-! ## The mix algorithms -/

/-- A loop over copies of the elements leaves the vector as it was. -/
theorem forEachCopy_keeps_vector (v : List ℚ) (body : ℚ → ℚ) :
    AudioMixer.forEachCopy v body = v := by
  unfold AudioMixer.forEachCopy
  generalize List.range v.length = idx
  induction idx with
  | nil => rfl
  | cons i idx ih => simp [List.foldl, ih]

/-- C10: for every sample vector, every frame count and every selected algorithm (LA, LDRC or
any other value of the selector), `applyMixAlgorithm` leaves the vector as it was: its length
and every element are unchanged. -/
theorem applyMixAlgorithm_keeps_samples (m : AudioMixer) (fSamples : List ℚ)
    (frameNumber : Int) :
    m.applyMixAlgorithm fSamples frameNumber = fSamples ∧
      (m.applyMixAlgorithm fSamples frameNumber).length = fSamples.length ∧
      ∀ i : Nat, (m.applyMixAlgorithm fSamples frameNumber)[i]? = fSamples[i]? := by
  have h : m.applyMixAlgorithm fSamples frameNumber = fSamples := by
    unfold AudioMixer.applyMixAlgorithm
    cases m.mAlg <;>
      simp [AudioMixer.LAMixAlgorithm, AudioMixer.LDRCMixAlgorithm, forEachCopy_keeps_vector]
  exact ⟨h, by rw [h], fun i => by rw [h]⟩


/-! ## Events of the audio mixer -/

theorem intmap_count_pos_iff {α : Type} (m : IntMap α) (k : Int) :
    ¬ (m.count k ≤ 0) ↔ (m.find? k).isSome := by
  rw [Option.isSome_iff_ne_none, Ne, ← intmap_count_eq_zero_iff]
  omega

theorem intmap_keys_assign_present {α : Type} (m : IntMap α) (k : Int) (v : α)
    (hk : (m.find? k).isSome) : (m.assign k v).map Prod.fst = m.map Prod.fst := by
  induction m with
  | nil => simp [IntMap.find?] at hk
  | cons e m ih =>
    by_cases he : e.1 = k
    · simp [IntMap.assign, he]
    · simp only [IntMap.find?, he, if_false] at hk
      simp [IntMap.assign, he, ih hk]

/-- The loop of `soloChannelEvent` keeps the keys and rewrites the value bound to each key. -/
theorem intmap_find_solo (m : IntMap ℚ) (id k : Int) (g : ℚ) :
    IntMap.find? (m.map (fun it => if it.1 = id then (it.1, g) else (it.1, 0))) k
      = (m.find? k).map (fun _ => if k = id then g else 0) := by
  induction m with
  | nil => rfl
  | cons e m ih =>
    by_cases he : e.1 = k
    · by_cases hk : k = id
      · have hei : e.1 = id := he.trans hk
        simp [IntMap.find?, he, hk, hei]
      · have hei : ¬ (e.1 = id) := fun h => hk (he.symm.trans h)
        simp [IntMap.find?, he, hk, hei]
    · by_cases hei : e.1 = id
      · simp only [List.map_cons, hei, if_true, IntMap.find?]
        have hik : ¬ (id = k) := fun h => he (hei.trans h)
        simpa [hik, he] using ih
      · simp only [List.map_cons, hei, if_false, IntMap.find?, he]
        exact ih

theorem intmap_keys_solo (m : IntMap ℚ) (id : Int) (g : ℚ) :
    (m.map (fun it => if it.1 = id then (it.1, g) else (it.1, 0))).map Prod.fst
      = m.map Prod.fst := by
  induction m with
  | nil => rfl
  | cons e m ih =>
    by_cases hei : e.1 = id <;> simp [hei, ih]


/-- C11: for every mixer state and every id, `soloChannel{id}` on a registered channel `id`
sets the gain of `id` to the default channel gain and the gain of every other registered channel
to `0`, keeps the channels of the gain map (same keys, same order), the master gain and every
other field; when `params` is absent, has no `"id"`, or names an id that is not a registered
channel, the whole mixer state is unchanged. -/
theorem soloChannelEvent_effect (d : MixerDefaults) (m : AudioMixer) (id : Int)
    (volume : Option ℚ) :
    ((m.gains.find? id).isSome →
        (m.soloChannelEvent d (some { id := some id, volume := volume })).gains.find? id
            = some d.DEFAULT_CHANNEL_GAIN ∧
          (∀ k, k ≠ id → (m.gains.find? k).isSome →
            (m.soloChannelEvent d (some { id := some id, volume := volume })).gains.find? k
              = some 0) ∧
          (∀ k, m.gains.find? k = none →
            (m.soloChannelEvent d (some { id := some id, volume := volume })).gains.find? k
              = none) ∧
          (m.soloChannelEvent d (some { id := some id, volume := volume })).gains.map Prod.fst
            = m.gains.map Prod.fst ∧
          (m.soloChannelEvent d (some { id := some id, volume := volume })).masterGain
            = m.masterGain ∧
          { m.soloChannelEvent d (some { id := some id, volume := volume }) with
              gains := m.gains } = m) ∧
      (m.gains.find? id = none →
        m.soloChannelEvent d (some { id := some id, volume := volume }) = m) ∧
      m.soloChannelEvent d (some { id := none, volume := volume }) = m ∧
      m.soloChannelEvent d none = m := by
  refine ⟨fun hreg => ?_, fun hnot => ?_, rfl, rfl⟩
  · have hc : ¬ (m.gains.count id ≤ 0) := (intmap_count_pos_iff m.gains id).mpr hreg
    have hsolo : m.soloChannelEvent d (some { id := some id, volume := volume })
        = { m with gains := m.gains.map (fun it =>
            if it.1 = id then (it.1, d.DEFAULT_CHANNEL_GAIN) else (it.1, 0)) } := by
      simp only [AudioMixer.soloChannelEvent, hc, if_false]
    rw [hsolo]
    refine ⟨?_, ?_, ?_, intmap_keys_solo m.gains id _, rfl, rfl⟩
    · rw [intmap_find_solo]
      obtain ⟨v, hv⟩ := Option.isSome_iff_exists.mp hreg
      simp [hv]
    · intro k hk hkreg
      rw [intmap_find_solo]
      obtain ⟨v, hv⟩ := Option.isSome_iff_exists.mp hkreg
      simp [hv, hk]
    · intro k hk
      rw [intmap_find_solo, hk]
      rfl
  · have hc : m.gains.count id ≤ 0 :=
      Nat.le_of_eq ((intmap_count_eq_zero_iff m.gains id).mpr hnot)
    simp [AudioMixer.soloChannelEvent, hc]

/-- C11 on the sample mixer with channels `0`, `1`, `2`: solo of channel `1`. -/
theorem soloChannelEvent_effect_witness :
    (Sample.mixer.gains.find? 1).isSome ∧
    (Sample.mixer.soloChannelEvent Sample.mixerDefaults
        (some { id := some 1, volume := none })).gains = [(0, 0), (1, 1), (2, 0)] ∧
    (Sample.mixer.soloChannelEvent Sample.mixerDefaults
        (some { id := some 1, volume := none })).gains.find? 1
      = some Sample.mixerDefaults.DEFAULT_CHANNEL_GAIN :=
  ⟨by decide, by decide,
    ((soloChannelEvent_effect Sample.mixerDefaults Sample.mixer 1 none).1 (by decide)).1⟩


/-- The channels with a gain are the registered reader ids. -/
theorem mixer_call_keeps_channels (d : MixerDefaults) (m : AudioMixer) (c : MixerCall)
    (hm : ∀ k, (m.gains.find? k).isSome = (m.readers.find? k).isSome) :
    ∀ k, ((m.call d c).gains.find? k).isSome = ((m.call d c).readers.find? k).isSome := by
  intro k
  have hassign : ∀ (id : Int) (v : ℚ), ¬ (m.gains.count id ≤ 0) →
      ((m.gains.assign id v).find? k).isSome = (m.readers.find? k).isSome := by
    intro id v hc
    rw [intmap_find_assign, ← hm k]
    by_cases hk : k = id
    · subst hk
      simp [(intmap_count_pos_iff m.gains k).mp hc]
    · simp [hk]
  cases c with
  | setReader readerID =>
    simp only [AudioMixer.call, AudioMixer.setReader]
    split_ifs with hc
    · exact hm k
    · simp only [intmap_find_assign]
      by_cases hk : k = readerID
      · simp [hk]
      · simpa [hk] using hm k
  | changeChannelVolume params =>
    simp only [AudioMixer.call, AudioMixer.changeChannelVolumeEvent]
    split
    · exact hm k
    · split
      · split_ifs with hc
        · exact hm k
        · exact hassign _ _ hc
      · exact hm k
  | muteChannel params =>
    simp only [AudioMixer.call, AudioMixer.muteChannelEvent]
    split
    · exact hm k
    · split
      · exact hm k
      · split_ifs with hc
        · exact hm k
        · exact hassign _ _ hc
  | soloChannel params =>
    simp only [AudioMixer.call, AudioMixer.soloChannelEvent]
    split
    · exact hm k
    · split
      · exact hm k
      · split_ifs with hc
        · exact hm k
        · simp only [intmap_find_solo, Option.isSome_map']
          exact hm k
  | changeMasterVolume params =>
    simp only [AudioMixer.call, AudioMixer.changeMasterVolumeEvent]
    split
    · exact hm k
    · split <;> exact hm k
  | muteMaster params => exact hm k

theorem mixer_calls_keep_channels (d : MixerDefaults) (cs : List MixerCall) :
    ∀ m : AudioMixer, (∀ k, (m.gains.find? k).isSome = (m.readers.find? k).isSome) →
      ∀ k, ((m.calls d cs).gains.find? k).isSome = ((m.calls d cs).readers.find? k).isSome := by
  induction cs with
  | nil => exact fun m hm => hm
  | cons c cs ih => exact fun m hm => ih (m.call d c) (mixer_call_keeps_channels d m c hm)


/-- C12: for a registered `id`, `changeChannelVolume{id, volume}` binds `id` to `volume` and
`muteChannel{id}` binds `id` to `0` in the gain map, every other binding, the keys of the map,
the master gain and every other field of the mixer being unchanged; for an id that is not
registered, or when `params` or a required member is missing, the mixer is unchanged; and
after every sequence of `setReader` calls and events on a newly constructed mixer a channel has
a gain exactly when its id is a registered reader id. -/
theorem channel_volume_events_effect (d : MixerDefaults) (m : AudioMixer) (id : Int)
    (volume : ℚ) (other : Option ℚ) :
    ((m.gains.find? id).isSome →
        ((∀ k, (m.changeChannelVolumeEvent
              (some { id := some id, volume := some volume })).gains.find? k
            = if k = id then some volume else m.gains.find? k) ∧
          (m.changeChannelVolumeEvent
              (some { id := some id, volume := some volume })).gains.map Prod.fst
            = m.gains.map Prod.fst ∧
          { m.changeChannelVolumeEvent (some { id := some id, volume := some volume }) with
              gains := m.gains } = m) ∧
        ((∀ k, (m.muteChannelEvent (some { id := some id, volume := other })).gains.find? k
            = if k = id then some 0 else m.gains.find? k) ∧
          (m.muteChannelEvent (some { id := some id, volume := other })).gains.map Prod.fst
            = m.gains.map Prod.fst ∧
          { m.muteChannelEvent (some { id := some id, volume := other }) with
              gains := m.gains } = m)) ∧
      (m.gains.find? id = none →
        m.changeChannelVolumeEvent (some { id := some id, volume := some volume }) = m ∧
          m.muteChannelEvent (some { id := some id, volume := other }) = m) ∧
      (m.changeChannelVolumeEvent (some { id := none, volume := other }) = m ∧
        m.changeChannelVolumeEvent (some { id := some id, volume := none }) = m ∧
        m.changeChannelVolumeEvent none = m ∧
        m.muteChannelEvent (some { id := none, volume := other }) = m ∧
        m.muteChannelEvent none = m) ∧
      ∀ (inputChannels : Nat) (cs : List MixerCall) (k : Int),
        (((AudioMixer.init d inputChannels).calls d cs).gains.find? k).isSome
          = (((AudioMixer.init d inputChannels).calls d cs).readers.find? k).isSome := by
  refine ⟨fun hreg => ?_, fun hnot => ?_, ⟨?_, rfl, rfl, rfl, rfl⟩, ?_⟩
  · have hc : ¬ (m.gains.count id ≤ 0) := (intmap_count_pos_iff m.gains id).mpr hreg
    have hchange : m.changeChannelVolumeEvent (some { id := some id, volume := some volume })
        = { m with gains := m.gains.assign id volume } := by
      simp only [AudioMixer.changeChannelVolumeEvent, hc, if_false]
    have hmute : m.muteChannelEvent (some { id := some id, volume := other })
        = { m with gains := m.gains.assign id 0 } := by
      simp only [AudioMixer.muteChannelEvent, hc, if_false]
    rw [hchange, hmute]
    exact ⟨⟨fun k => intmap_find_assign m.gains id k volume,
        intmap_keys_assign_present m.gains id volume hreg, rfl⟩,
      ⟨fun k => intmap_find_assign m.gains id k 0,
        intmap_keys_assign_present m.gains id 0 hreg, rfl⟩⟩
  · have hc : m.gains.count id ≤ 0 :=
      Nat.le_of_eq ((intmap_count_eq_zero_iff m.gains id).mpr hnot)
    constructor
    · simp [AudioMixer.changeChannelVolumeEvent, hc]
    · simp [AudioMixer.muteChannelEvent, hc]
  · cases other <;> rfl
  · intro inputChannels cs k
    exact mixer_calls_keep_channels d cs (AudioMixer.init d inputChannels) (fun _ => rfl) k

/-- C12 on the sample mixer with channels `0`, `1`, `2`: volume `5` for channel `1`, and mute
of channel `2`. -/
theorem channel_volume_events_effect_witness :
    (Sample.mixer.gains.find? 1).isSome ∧
    (Sample.mixer.changeChannelVolumeEvent (some { id := some 1, volume := some 5 })).gains
      = [(0, 1), (1, 5), (2, 1)] ∧
    (Sample.mixer.muteChannelEvent (some { id := some 2, volume := none })).gains
      = [(0, 1), (1, 1), (2, 0)] ∧
    ∀ k, (Sample.mixer.changeChannelVolumeEvent
          (some { id := some 1, volume := some 5 })).gains.find? k
        = if k = 1 then some 5 else Sample.mixer.gains.find? k :=
  ⟨by decide, by decide, by decide,
    ((channel_volume_events_effect Sample.mixerDefaults Sample.mixer 1 5 none).1
      (by decide)).1.1⟩


/-! ## Frame processing of the audio mixer -/

/-- A loop that rewrites the elements of a vector in place, position by position: the element
at each position `j` below the bound is replaced by `g j` of it. -/
theorem foldl_set_range (g : Nat → ℚ → ℚ) (v : List ℚ) (n : Nat) :
    ((List.range n).foldl (fun vec i => vec.set i (g i (vec.getD i 0))) v).length = v.length ∧
      ∀ j : Nat, ((List.range n).foldl (fun vec i => vec.set i (g i (vec.getD i 0))) v)[j]?
        = if j < n then (v[j]?).map (g j) else v[j]? := by
  induction n with
  | zero => simp
  | succ n ih =>
    obtain ⟨hlen, hget⟩ := ih
    rw [List.range_succ, List.foldl_append]
    simp only [List.foldl_cons, List.foldl_nil, List.length_set]
    refine ⟨hlen, fun j => ?_⟩
    rw [List.getElem?_set, hlen]
    by_cases hnj : n = j
    · subst hnj
      have hn := hget n
      simp only [Nat.lt_irrefl, if_false] at hn
      rw [if_pos rfl, if_pos (Nat.lt_succ_self n), List.getD_eq_getElem?_getD, hn]
      by_cases hlt : n < v.length
      · rw [if_pos hlt, List.getElem?_eq_getElem hlt]
        rfl
      · rw [if_neg hlt, List.getElem?_eq_none (Nat.le_of_not_lt hlt)]
        rfl
    · simp only [hnj, if_false, hget j]
      by_cases hjn : j < n
      · have : j < n + 1 := Nat.lt_succ_of_lt hjn
        simp [hjn, this]
      · have : ¬ (j < n + 1) := by omega
        simp [hjn, this]

theorem forEachRef_eq_map (v : List ℚ) (body : ℚ → ℚ) :
    AudioMixer.forEachRef v body = v.map body := by
  apply List.ext_getElem?
  intro j
  have h := (foldl_set_range (fun _ x => body x) v v.length).2 j
  simp only [AudioMixer.forEachRef]
  rw [h, List.getElem?_map]
  by_cases hj : j < v.length
  · simp [hj]
  · simp [hj, List.getElem?_eq_none (Nat.le_of_not_lt hj)]

theorem applyGainToChannel_eq_map (v : List ℚ) (gain : ℚ) :
    AudioMixer.applyGainToChannel v gain = v.map (fun x => x * gain) :=
  forEachRef_eq_map v _

theorem sumValues_length (fSamples mixedSamples : List ℚ) :
    (AudioMixer.sumValues fSamples mixedSamples).length = mixedSamples.length :=
  (foldl_set_range (fun i x => x + fSamples.getD i 0) mixedSamples mixedSamples.length).1

theorem sumValues_getD (fSamples mixedSamples : List ℚ) (j : Nat)
    (hj : j < mixedSamples.length) :
    (AudioMixer.sumValues fSamples mixedSamples).getD j 0
      = mixedSamples.getD j 0 + fSamples.getD j 0 := by
  have h := (foldl_set_range (fun i x => x + fSamples.getD i 0) mixedSamples
    mixedSamples.length).2 j
  simp only [AudioMixer.sumValues, List.getD_eq_getElem?_getD] at h ⊢
  rw [h]
  simp [hj, List.getElem?_eq_getElem hj]

theorem applyMixAlgorithm_unchanged (m : AudioMixer) (fSamples : List ℚ) (frameNumber : Int) :
    m.applyMixAlgorithm fSamples frameNumber = fSamples := by
  unfold AudioMixer.applyMixAlgorithm
  cases m.mAlg <;>
    simp [AudioMixer.LAMixAlgorithm, AudioMixer.LDRCMixAlgorithm, forEachCopy_keeps_vector]

theorem resize_zeros (v : List ℚ) (n : Nat) (hv : ∀ x ∈ v, x = 0) :
    AudioMixer.resize v n = List.replicate n 0 := by
  have hrep : v = List.replicate v.length 0 := List.eq_replicate_iff.mpr ⟨rfl, hv⟩
  unfold AudioMixer.resize
  rw [hrep]
  simp only [List.take_replicate, List.length_replicate, List.append_replicate_replicate]
  congr 1
  omega


theorem index_value (gains : IntMap ℚ) (id : Int) :
    (IntMap.index 0 gains id).1 = AudioMixer.gainOf gains id := by
  unfold IntMap.index AudioMixer.gainOf
  cases gains.find? id <;> rfl

theorem index_keeps_gainOf (gains : IntMap ℚ) (id k : Int) :
    AudioMixer.gainOf (IntMap.index 0 gains id).2 k = AudioMixer.gainOf gains k := by
  unfold IntMap.index AudioMixer.gainOf
  cases hf : gains.find? id with
  | some v => rfl
  | none =>
    simp only [intmap_find_assign]
    by_cases hk : k = id
    · subst hk
      simp [hf]
    · simp [hk]

/-- The inner loop of `mixNonEmptyFrames`, started with an accumulator of the length `n` of the
input frames: the accumulator gains, at every position, the weighted samples of the inputs. -/
theorem mixChannelInputs_sum (orgFrames : IntMap (Option AudioFrame)) (ch : Int) (n : Nat)
    (ids : List Int) :
    ∀ st : AudioMixer × Int, st.1.mixedSamples.length = n →
      (∀ id ∈ ids, ∃ f, orgFrames.find? id = some (some f) ∧
        (f.floatSamples ch).length = n) →
      ∃ m1, AudioMixer.mixChannelInputs orgFrames ch ids st
          = some (m1, if ids = [] then st.2 else (n : Int)) ∧
        m1.mixedSamples.length = n ∧
        (∀ j, j < n → m1.mixedSamples.getD j 0 = st.1.mixedSamples.getD j 0 +
          (ids.map (fun id =>
            AudioMixer.gainOf st.1.gains id * AudioMixer.inputSample orgFrames id ch j)).sum) ∧
        (∀ k, AudioMixer.gainOf m1.gains k = AudioMixer.gainOf st.1.gains k) ∧
        m1.masterGain = st.1.masterGain := by
  induction ids with
  | nil =>
    intro st hlen _
    exact ⟨st.1, rfl, hlen, fun j _ => by simp, fun _ => rfl, rfl⟩
  | cons id ids ih =>
    intro st hlen hin
    obtain ⟨f, hfind, hfn⟩ := hin id (List.mem_cons_self id ids)
    have hnores : ¬ ((st.1.mixedSamples.length : Int) ≠ ((f.floatSamples ch).length : Int)) := by
      rw [hlen, hfn]
      simp
    have hstep : ∃ st2 : AudioMixer × Int,
        AudioMixer.mixChannelInputs orgFrames ch (id :: ids) st
          = AudioMixer.mixChannelInputs orgFrames ch ids st2 ∧
        st2.1.mixedSamples = AudioMixer.sumValues
          (AudioMixer.applyGainToChannel (f.floatSamples ch) (IntMap.index 0 st.1.gains id).1)
          st.1.mixedSamples ∧
        st2.1.gains = (IntMap.index 0 st.1.gains id).2 ∧
        st2.1.masterGain = st.1.masterGain ∧ st2.2 = (n : Int) := by
      refine ⟨({ st.1 with
          samples := AudioMixer.applyGainToChannel (f.floatSamples ch)
            (IntMap.index 0 st.1.gains id).1
          mixedSamples := AudioMixer.sumValues
            (AudioMixer.applyGainToChannel (f.floatSamples ch)
              (IntMap.index 0 st.1.gains id).1) st.1.mixedSamples
          gains := (IntMap.index 0 st.1.gains id).2 },
        ((f.floatSamples ch).length : Int)), ?_, rfl, rfl, rfl, by rw [hfn]⟩
      rw [AudioMixer.mixChannelInputs]
      simp only [hfind, AudioFrame.getChannelFloatSamples, hnores, if_false]
    obtain ⟨st2, hstep, hmix2, hgains2, hmaster2, hn2⟩ := hstep
    obtain ⟨m1, hrun, hlen1, hsum, hgain, hmaster⟩ := ih st2
      (by rw [hmix2, sumValues_length]; exact hlen)
      (fun i hi => hin i (List.mem_cons_of_mem id hi))
    refine ⟨m1, ?_, hlen1, ?_, ?_, hmaster.trans hmaster2⟩
    · rw [hstep, hrun]
      by_cases hids : ids = []
      · simp [hids, hn2]
      · simp [hids]
    · intro j hj
      rw [hsum j hj, hmix2, hgains2]
      rw [sumValues_getD _ _ j (by rw [hlen]; exact hj), applyGainToChannel_eq_map,
        index_value]
      have hin1 : AudioMixer.inputSample orgFrames id ch j = (f.floatSamples ch).getD j 0 := by
        simp [AudioMixer.inputSample, hfind]
      have hmap : (List.map (fun x => x * AudioMixer.gainOf st.1.gains id)
          (f.floatSamples ch)).getD j 0
          = (f.floatSamples ch).getD j 0 * AudioMixer.gainOf st.1.gains id := by
        simp only [List.getD_eq_getElem?_getD, List.getElem?_map]
        cases (f.floatSamples ch)[j]? <;> simp
      rw [hmap, List.map_cons, List.sum_cons, hin1]
      have hrest : ∀ i, AudioMixer.gainOf (IntMap.index 0 st.1.gains id).2 i
          = AudioMixer.gainOf st.1.gains i := fun i => index_keeps_gainOf _ _ _
      simp only [hrest]
      ring
    · intro k
      rw [hgain k, hgains2]
      exact index_keeps_gainOf _ _ _


/-- The first pass of the inner loop resizes an accumulator of zeros to zeros of the length of
the input: the loop runs as from an accumulator of `n` zeros. -/
theorem mixChannelInputs_from_zeros (orgFrames : IntMap (Option AudioFrame)) (ch : Int)
    (n : Nat) (id : Int) (ids : List Int) (st : AudioMixer × Int) (f : AudioFrame)
    (hfind : orgFrames.find? id = some (some f)) (hfn : (f.floatSamples ch).length = n)
    (hzero : ∀ x ∈ st.1.mixedSamples, x = 0) :
    AudioMixer.mixChannelInputs orgFrames ch (id :: ids) st
      = AudioMixer.mixChannelInputs orgFrames ch (id :: ids)
          ({ st.1 with mixedSamples := List.replicate n 0 }, st.2) := by
  have hacc : (if (st.1.mixedSamples.length : Int) ≠ ((f.floatSamples ch).length : Int) then
        AudioMixer.resize st.1.mixedSamples ((f.floatSamples ch).length : Int).toNat
      else st.1.mixedSamples) = List.replicate n 0 := by
    split_ifs with h
    · rw [hfn, Int.toNat_ofNat]
      exact resize_zeros _ _ hzero
    · have hlen : st.1.mixedSamples.length = n := by
        rw [← hfn]
        exact_mod_cast not_not.mp h
      rw [← hlen]
      exact List.eq_replicate_iff.mpr ⟨rfl, hzero⟩
  have hrep : (if ((List.replicate n (0 : ℚ)).length : Int) ≠ ((f.floatSamples ch).length : Int)
      then AudioMixer.resize (List.replicate n (0 : ℚ)) ((f.floatSamples ch).length : Int).toNat
      else List.replicate n (0 : ℚ)) = List.replicate n 0 := by
    rw [if_neg]
    rw [List.length_replicate, hfn]
    simp
  rw [AudioMixer.mixChannelInputs, AudioMixer.mixChannelInputs]
  simp only [hfind, AudioFrame.getChannelFloatSamples, hacc, hrep]


/-- One channel of `mixNonEmptyFrames`, started with an accumulator of zeros and at least one
input whose frames carry `n` samples in this channel: the channel of the destination receives
the mix, the destination's sample count and length are set, and the accumulator is left at
zeros. -/
theorem mixChannel_formula (orgFrames : IntMap (Option AudioFrame)) (ids : List Int)
    (totalFrames : Int) (n : Nat) (ch : Int) (st : AudioMixer × AudioFrame × Int)
    (hids : ids ≠ []) (hzero : ∀ x ∈ st.1.mixedSamples, x = 0)
    (hin : ∀ id ∈ ids, ∃ f, orgFrames.find? id = some (some f) ∧
      (f.floatSamples ch).length = n) :
    ∃ m1 dst1, AudioMixer.mixChannel orgFrames ids totalFrames st ch
        = some (m1, dst1, (n : Int)) ∧
      (∀ x ∈ m1.mixedSamples, x = 0) ∧
      (dst1.floatSamples ch).length = n ∧
      (∀ j, j < n → (dst1.floatSamples ch).getD j 0
        = AudioMixer.mixedSample st.1 orgFrames ids ch j) ∧
      (∀ c, c ≠ ch → dst1.floatSamples c = st.2.1.floatSamples c) ∧
      dst1.samples = (n : Int) ∧ dst1.length = 2 * (n : Int) ∧
      (∀ k, AudioMixer.gainOf m1.gains k = AudioMixer.gainOf st.1.gains k) ∧
      m1.masterGain = st.1.masterGain := by
  obtain ⟨id, rest, rfl⟩ := List.exists_cons_of_ne_nil hids
  obtain ⟨f, hfind, hfn⟩ := hin id (List.mem_cons_self id rest)
  have hnorm := mixChannelInputs_from_zeros orgFrames ch n id rest (st.1, st.2.2) f hfind hfn
    hzero
  obtain ⟨m0, hrun, hlen0, hsum, hgain, hmaster⟩ := mixChannelInputs_sum orgFrames ch n
    (id :: rest) ({ st.1 with mixedSamples := List.replicate n 0 }, st.2.2)
    (List.length_replicate n 0) hin
  rw [if_neg (List.cons_ne_nil id rest)] at hrun
  have hres : AudioMixer.mixChannel orgFrames (id :: rest) totalFrames st ch
      = some ({ m0 with mixedSamples :=
            (m0.mixedSamples.map (fun x => x * m0.masterGain)).map (fun _ => 0) },
          { floatSamples := fun c =>
              if c = ch then m0.mixedSamples.map (fun x => x * m0.masterGain)
              else st.2.1.floatSamples c
            samples := (n : Int)
            length := (n : Int) * BPS },
          (n : Int)) := by
    simp only [AudioMixer.mixChannel, hnorm, hrun, applyMixAlgorithm_unchanged,
      applyGainToChannel_eq_map, AudioFrame.setSamples, AudioFrame.setLength,
      AudioFrame.fillBufferWithFloatSamples]
  refine ⟨_, _, hres, ?_, ?_, ?_, ?_, rfl, ?_, hgain, hmaster⟩
  · intro x hx
    simp only [List.map_map, List.mem_map] at hx
    obtain ⟨_, _, hx⟩ := hx
    exact hx.symm
  · simp [hlen0]
  · intro j hj
    have hj0 := hsum j hj
    simp only [List.getD_eq_getElem?_getD, List.getElem?_replicate, hj, if_true,
      Option.getD_some, zero_add] at hj0
    simp only [if_true, List.getD_eq_getElem?_getD, List.getElem?_map,
      AudioMixer.mixedSample]
    have hlt : j < m0.mixedSamples.length := by rw [hlen0]; exact hj
    rw [List.getElem?_eq_getElem hlt] at hj0 ⊢
    simp only [Option.map_some', Option.getD_some] at hj0 ⊢
    rw [hj0, hmaster]
    ring
  · intro c hc
    simp [hc]
  · simp only [BPS]
    ring


theorem mixedSample_congr (m m1 : AudioMixer) (orgFrames : IntMap (Option AudioFrame))
    (ids : List Int) (ch : Int) (j : Nat)
    (hgain : ∀ k, AudioMixer.gainOf m1.gains k = AudioMixer.gainOf m.gains k)
    (hmaster : m1.masterGain = m.masterGain) :
    AudioMixer.mixedSample m1 orgFrames ids ch j = AudioMixer.mixedSample m orgFrames ids ch j := by
  simp only [AudioMixer.mixedSample, hgain, hmaster]

theorem mem_channelRange (frameChannels ch : Int) :
    ch ∈ AudioMixer.channelRange frameChannels ↔ 0 ≤ ch ∧ ch < frameChannels := by
  unfold AudioMixer.channelRange
  rw [List.mem_map]
  constructor
  · rintro ⟨c, hc, rfl⟩
    rw [List.mem_range] at hc
    exact ⟨Int.ofNat_nonneg c, Int.lt_toNat.mp hc⟩
  · rintro ⟨h0, h1⟩
    refine ⟨ch.toNat, List.mem_range.mpr (Int.lt_toNat.mpr ?_), Int.toNat_of_nonneg h0⟩
    rw [Int.toNat_of_nonneg h0]
    exact h1

/-- The loop over the channels of `mixNonEmptyFrames`, started with an accumulator of zeros. -/
theorem mixChannels_formula (orgFrames : IntMap (Option AudioFrame)) (ids : List Int)
    (totalFrames : Int) (n : Nat) (hids : ids ≠ []) (chs : List Int) :
    ∀ st : AudioMixer × AudioFrame × Int, (∀ x ∈ st.1.mixedSamples, x = 0) →
      (∀ id ∈ ids, ∃ f, orgFrames.find? id = some (some f) ∧
        ∀ ch ∈ chs, (f.floatSamples ch).length = n) →
      ∃ st1, AudioMixer.mixChannels orgFrames ids totalFrames chs st = some st1 ∧
        (∀ x ∈ st1.1.mixedSamples, x = 0) ∧
        (∀ ch ∈ chs, (st1.2.1.floatSamples ch).length = n ∧
          ∀ j, j < n → (st1.2.1.floatSamples ch).getD j 0
            = AudioMixer.mixedSample st.1 orgFrames ids ch j) ∧
        (chs ≠ [] → st1.2.1.samples = (n : Int) ∧ st1.2.1.length = 2 * (n : Int)) ∧
        (∀ c, c ∉ chs → st1.2.1.floatSamples c = st.2.1.floatSamples c) ∧
        (∀ k, AudioMixer.gainOf st1.1.gains k = AudioMixer.gainOf st.1.gains k) ∧
        st1.1.masterGain = st.1.masterGain := by
  induction chs with
  | nil =>
    intro st hzero _
    exact ⟨st, rfl, hzero, fun _ h => absurd h (List.not_mem_nil _), fun h => absurd rfl h,
      fun _ _ => rfl, fun _ => rfl, rfl⟩
  | cons ch chs ih =>
    intro st hzero hin
    obtain ⟨m1, dst1, hstep, hz1, hlen1, hval1, hother1, hs1, hl1, hg1, hm1⟩ :=
      mixChannel_formula orgFrames ids totalFrames n ch st hids hzero
        (fun id hid => by
          obtain ⟨f, hf, hfl⟩ := hin id hid
          exact ⟨f, hf, hfl ch (List.mem_cons_self ch chs)⟩)
    obtain ⟨st1, hrun, hz, hvals, hcount, hother, hg, hm⟩ := ih (m1, dst1, (n : Int)) hz1
      (fun id hid => by
        obtain ⟨f, hf, hfl⟩ := hin id hid
        exact ⟨f, hf, fun c hc => hfl c (List.mem_cons_of_mem ch hc)⟩)
    refine ⟨st1, ?_, hz, ?_, ?_, ?_, fun k => (hg k).trans (hg1 k), hm.trans hm1⟩
    · simp only [AudioMixer.mixChannels, hstep, hrun]
    · intro c hc
      by_cases hmem : c ∈ chs
      · obtain ⟨hl, hv⟩ := hvals c hmem
        exact ⟨hl, fun j hj => (hv j hj).trans (mixedSample_congr st.1 m1 orgFrames ids c j hg1 hm1)⟩
      · have hc' : c = ch := by
          rcases List.mem_cons.mp hc with h | h
          · exact h
          · exact absurd h hmem
        subst hc'
        have hsame := hother c hmem
        simp only at hsame
        rw [hsame]
        exact ⟨hlen1, hval1⟩
    · intro _
      by_cases hnil : chs = []
      · subst hnil
        simp only [AudioMixer.mixChannels, Option.some.injEq] at hrun
        rw [← hrun]
        exact ⟨hs1, hl1⟩
      · exact hcount hnil
    · intro c hc
      have hc1 : c ≠ ch := fun h => hc (h ▸ List.mem_cons_self ch chs)
      have hc2 : c ∉ chs := fun h => hc (List.mem_cons_of_mem ch h)
      rw [hother c hc2]
      exact hother1 c hc1


/-- C14: when the accumulator `mixedSamples` holds zeros on entry (as the constructor and every
earlier call leave it) and every input frame named in `filledFramesIds` carries `n` samples in
every channel of the mixer, then for every channel `ch` and every index `j < n` the destination
sample written by `mixNonEmptyFrames` is `masterGain` times the sum over the input ids of
`gains[id]` times sample `j` of channel `ch` of input `id`, whatever the selected mix
algorithm and the total number of inputs are; the destination's sample count is `n` and its
length `2 * n`; and the accumulator holds zeros again at the end, and after each channel. -/
theorem mixNonEmptyFrames_formula (m : AudioMixer) (orgFrames : IntMap (Option AudioFrame))
    (filledFramesIds : List Int) (dst : AudioFrame) (totalFrames : Int) (n : Nat)
    (hids : filledFramesIds ≠ []) (hzero : ∀ x ∈ m.mixedSamples, x = 0)
    (hin : ∀ id ∈ filledFramesIds, ∃ f, orgFrames.find? id = some (some f) ∧
      ∀ ch, 0 ≤ ch → ch < m.frameChannels → (f.floatSamples ch).length = n) :
    (∃ m1 dst1,
        m.mixNonEmptyFrames orgFrames filledFramesIds dst totalFrames = some (m1, dst1) ∧
        (∀ ch, 0 ≤ ch → ch < m.frameChannels →
          (dst1.floatSamples ch).length = n ∧
          (∀ j, j < n → (dst1.floatSamples ch).getD j 0
            = m.masterGain * (filledFramesIds.map (fun id =>
                AudioMixer.gainOf m.gains id
                  * AudioMixer.inputSample orgFrames id ch j)).sum) ∧
          dst1.samples = (n : Int) ∧ dst1.length = 2 * (n : Int)) ∧
        ∀ x ∈ m1.mixedSamples, x = 0) ∧
      ∀ k : Nat, ∃ st,
        AudioMixer.mixChannels orgFrames filledFramesIds totalFrames
            ((AudioMixer.channelRange m.frameChannels).take k) (m, dst, 0) = some st ∧
          ∀ x ∈ st.1.mixedSamples, x = 0 := by
  constructor
  · obtain ⟨st1, hrun, hz, hvals, hcount, _, _, _⟩ :=
      mixChannels_formula orgFrames filledFramesIds totalFrames n hids
        (AudioMixer.channelRange m.frameChannels) (m, dst, 0) hzero
        (fun id hid => by
          obtain ⟨f, hf, hfl⟩ := hin id hid
          exact ⟨f, hf, fun ch hch =>
            hfl ch ((mem_channelRange _ _).mp hch).1 ((mem_channelRange _ _).mp hch).2⟩)
    refine ⟨st1.1, st1.2.1, ?_, ?_, hz⟩
    · simp only [AudioMixer.mixNonEmptyFrames, hrun]
    · intro ch h0 h1
      have hmem : ch ∈ AudioMixer.channelRange m.frameChannels :=
        (mem_channelRange _ _).mpr ⟨h0, h1⟩
      obtain ⟨hl, hv⟩ := hvals ch hmem
      obtain ⟨hs, hlen⟩ := hcount (List.ne_nil_of_mem hmem)
      exact ⟨hl, hv, hs, hlen⟩
  · intro k
    obtain ⟨st1, hrun, hz, _⟩ :=
      mixChannels_formula orgFrames filledFramesIds totalFrames n hids
        ((AudioMixer.channelRange m.frameChannels).take k) (m, dst, 0) hzero
        (fun id hid => by
          obtain ⟨f, hf, hfl⟩ := hin id hid
          refine ⟨f, hf, fun ch hch => ?_⟩
          have hch1 := List.mem_of_mem_take hch
          exact hfl ch ((mem_channelRange _ _).mp hch1).1 ((mem_channelRange _ _).mp hch1).2)
    exact ⟨st1, hrun, hz⟩

theorem sample_frames_carry_three (id : Int) (hid : id ∈ [(0 : Int), 2]) :
    ∃ f, Sample.orgFrames.find? id = some (some f) ∧
      ∀ ch, 0 ≤ ch → ch < Sample.mixer.frameChannels → (f.floatSamples ch).length = 3 := by
  have hch : ∀ a : ℚ, ∀ ch : Int, 0 ≤ ch → ch < Sample.mixer.frameChannels →
      ((Sample.audioFrame a).floatSamples ch).length = 3 := by
    intro a ch h0 h1
    have h2 : ch < 2 := h1
    have hcases : ch = 0 ∨ ch = 1 := by omega
    rcases hcases with rfl | rfl <;> rfl
  simp only [List.mem_cons, List.mem_singleton, List.not_mem_nil, or_false] at hid
  rcases hid with rfl | rfl
  · exact ⟨Sample.audioFrame 10, rfl, hch 10⟩
  · exact ⟨Sample.audioFrame 20, rfl, hch 20⟩

/-- C14 on the sample mixer (two channels, unit gains) with the three-sample frames of the
readers `0` and `2`. -/
theorem mixNonEmptyFrames_formula_witness :
    ([(0 : Int), 2] ≠ [] ∧ (∀ x ∈ Sample.mixer.mixedSamples, x = 0) ∧
      ∀ id ∈ [(0 : Int), 2], ∃ f, Sample.orgFrames.find? id = some (some f) ∧
        ∀ ch, 0 ≤ ch → ch < Sample.mixer.frameChannels → (f.floatSamples ch).length = 3) ∧
    ∃ m1 dst1,
      Sample.mixer.mixNonEmptyFrames Sample.orgFrames [0, 2] Sample.emptyAudioFrame 3
        = some (m1, dst1) ∧
      (∀ ch, 0 ≤ ch → ch < Sample.mixer.frameChannels →
        (dst1.floatSamples ch).length = 3 ∧
        (∀ j, j < 3 → (dst1.floatSamples ch).getD j 0
          = Sample.mixer.masterGain * (([(0 : Int), 2]).map (fun id =>
              AudioMixer.gainOf Sample.mixer.gains id
                * AudioMixer.inputSample Sample.orgFrames id ch j)).sum) ∧
        dst1.samples = ((3 : Nat) : Int) ∧ dst1.length = 2 * ((3 : Nat) : Int)) ∧
      ∀ x ∈ m1.mixedSamples, x = 0 :=
  ⟨⟨by decide, by decide, sample_frames_carry_three⟩,
    (mixNonEmptyFrames_formula Sample.mixer Sample.orgFrames [0, 2] Sample.emptyAudioFrame 3 3
      (by decide) (by decide) sample_frames_carry_three).1⟩


theorem intmap_find_of_mem {α : Type} (m : IntMap α) (k : Int) (v : α)
    (hkeys : (m.map Prod.fst).Nodup) (hmem : (k, v) ∈ m) : m.find? k = some v := by
  induction m with
  | nil => exact absurd hmem (List.not_mem_nil _)
  | cons e m ih =>
    rw [List.map_cons, List.nodup_cons] at hkeys
    rcases List.mem_cons.mp hmem with h | h
    · subst h
      simp [IntMap.find?]
    · have hne : ¬ (e.1 = k) := by
        intro he
        apply hkeys.1
        rw [he]
        exact List.mem_map.mpr ⟨(k, v), h, rfl⟩
      simp only [IntMap.find?, hne, if_false]
      exact ih hkeys.2 h

theorem intmap_mem_of_find {α : Type} (m : IntMap α) (k : Int) (v : α)
    (hfind : m.find? k = some v) : (k, v) ∈ m := by
  induction m with
  | nil => simp [IntMap.find?] at hfind
  | cons e m ih =>
    by_cases he : e.1 = k
    · simp only [IntMap.find?, he, if_true, Option.some.injEq] at hfind
      have : e = (k, v) := Prod.ext he hfind
      rw [this]
      exact List.mem_cons_self _ _
    · simp only [IntMap.find?, he, if_false] at hfind
      exact List.mem_cons_of_mem _ (ih hfind)

/-- The first loop of `doProcessFrame` collects the ids of the entries that hold a frame. -/
theorem collectFilledFramesIds_eq (orgFrames : IntMap (Option AudioFrame)) :
    AudioMixer.collectFilledFramesIds orgFrames
      = orgFrames.filterMap (fun e => e.2.map (fun _ => e.1)) := by
  have hgen : ∀ (l : IntMap (Option AudioFrame)) (acc : List Int),
      l.foldl (fun ids frame => if frame.2.isSome then ids ++ [frame.1] else ids) acc
        = acc ++ l.filterMap (fun e => e.2.map (fun _ => e.1)) := by
    intro l
    induction l with
    | nil => intro acc; simp
    | cons e l ih =>
      intro acc
      rw [List.foldl_cons, ih]
      cases he : e.2 with
      | none => simp [List.filterMap_cons, he]
      | some f => simp [List.filterMap_cons, he]
  simpa [AudioMixer.collectFilledFramesIds] using hgen orgFrames []

theorem mem_filledFramesIds (orgFrames : IntMap (Option AudioFrame)) (id : Int)
    (hkeys : (orgFrames.map Prod.fst).Nodup) :
    id ∈ orgFrames.filterMap (fun e => e.2.map (fun _ => e.1))
      ↔ ∃ f, orgFrames.find? id = some (some f) := by
  rw [List.mem_filterMap]
  constructor
  · rintro ⟨e, he, hid⟩
    cases h2 : e.2 with
    | none => simp [h2] at hid
    | some f =>
      simp only [h2, Option.map_some', Option.some.injEq] at hid
      refine ⟨f, intmap_find_of_mem orgFrames id (some f) hkeys ?_⟩
      have : e = (id, some f) := Prod.ext hid h2
      rw [← this]
      exact he
  · rintro ⟨f, hf⟩
    exact ⟨(id, some f), intmap_mem_of_find orgFrames id (some f) hf, rfl⟩

theorem mixChannelInputs_returns (orgFrames : IntMap (Option AudioFrame)) (ch : Int)
    (ids : List Int) (hin : ∀ id ∈ ids, ∃ f, orgFrames.find? id = some (some f)) :
    ∀ st, ∃ st1, AudioMixer.mixChannelInputs orgFrames ch ids st = some st1 := by
  induction ids with
  | nil => exact fun st => ⟨st, rfl⟩
  | cons id ids ih =>
    intro st
    obtain ⟨f, hf⟩ := hin id (List.mem_cons_self id ids)
    rw [AudioMixer.mixChannelInputs]
    simp only [hf]
    exact ih (fun i hi => hin i (List.mem_cons_of_mem id hi)) _

theorem mixChannels_returns (orgFrames : IntMap (Option AudioFrame)) (ids : List Int)
    (totalFrames : Int) (hin : ∀ id ∈ ids, ∃ f, orgFrames.find? id = some (some f))
    (chs : List Int) :
    ∀ st, ∃ st1, AudioMixer.mixChannels orgFrames ids totalFrames chs st = some st1 := by
  induction chs with
  | nil => exact fun st => ⟨st, rfl⟩
  | cons ch chs ih =>
    intro st
    obtain ⟨st0, h0⟩ := mixChannelInputs_returns orgFrames ch ids hin (st.1, st.2.2)
    have hstep : ∃ st1, AudioMixer.mixChannel orgFrames ids totalFrames st ch = some st1 := by
      simp only [AudioMixer.mixChannel, h0]
      exact ⟨_, rfl⟩
    obtain ⟨st1, h1⟩ := hstep
    obtain ⟨st2, h2⟩ := ih st1
    exact ⟨st2, by simp only [AudioMixer.mixChannels, h1, h2]⟩

theorem mixNonEmptyFrames_returns (m : AudioMixer) (orgFrames : IntMap (Option AudioFrame))
    (ids : List Int) (dst : AudioFrame) (totalFrames : Int)
    (hin : ∀ id ∈ ids, ∃ f, orgFrames.find? id = some (some f)) :
    ∃ res, m.mixNonEmptyFrames orgFrames ids dst totalFrames = some res := by
  obtain ⟨st, hst⟩ := mixChannels_returns orgFrames ids totalFrames hin
    (AudioMixer.channelRange m.frameChannels) (m, dst, 0)
  exact ⟨(st.1, st.2.1), by simp only [AudioMixer.mixNonEmptyFrames, hst]⟩


theorem filledFramesIds_eq_nil_iff (orgFrames : IntMap (Option AudioFrame)) :
    orgFrames.filterMap (fun e => e.2.map (fun _ => e.1)) = []
      ↔ ∀ e ∈ orgFrames, e.2 = none := by
  rw [List.eq_nil_iff_forall_not_mem]
  constructor
  · intro h e he
    cases h2 : e.2 with
    | none => rfl
    | some f =>
      exact absurd (List.mem_filterMap.mpr ⟨e, he, by simp [h2]⟩) (h e.1)
  · intro h id hid
    obtain ⟨e, he, hmap⟩ := List.mem_filterMap.mp hid
    simp [h e he] at hmap

/-- The frames of the sample map carry three samples in each of the two channels of the sample
mixer. -/
theorem sample_entries_carry_three :
    ∀ e ∈ Sample.orgFrames, ∀ f, e.2 = some f →
      ∀ ch, 0 ≤ ch → ch < Sample.mixer.frameChannels → (f.floatSamples ch).length = 3 := by
  have hch : ∀ a : ℚ, ∀ ch : Int, 0 ≤ ch → ch < Sample.mixer.frameChannels →
      ((Sample.audioFrame a).floatSamples ch).length = 3 := by
    intro a ch h0 h1
    have h2 : ch < 2 := h1
    have hcases : ch = 0 ∨ ch = 1 := by omega
    rcases hcases with rfl | rfl <;> rfl
  intro e he f hf
  simp only [Sample.orgFrames, List.mem_cons, List.mem_singleton, List.not_mem_nil,
    or_false] at he
  rcases he with rfl | rfl | rfl
  · simp only [Option.some.injEq] at hf
    rw [← hf]
    exact hch 10
  · simp at hf
  · simp only [Option.some.injEq] at hf
    rw [← hf]
    exact hch 20

/-- The weighted samples of the ids collected by `doProcessFrame`, read through the map, are the
weighted samples of the entries of the map that hold a frame. -/
theorem filledFrames_weighted_samples (orgFrames : IntMap (Option AudioFrame))
    (hkeys : (orgFrames.map Prod.fst).Nodup) (g : Int → ℚ) (ch : Int) (j : Nat) :
    (orgFrames.filterMap (fun e => e.2.map (fun _ => e.1))).map
        (fun id => g id * AudioMixer.inputSample orgFrames id ch j)
      = orgFrames.filterMap
          (fun e => e.2.map (fun f => g e.1 * (f.floatSamples ch).getD j 0)) := by
  rw [List.map_filterMap]
  apply List.filterMap_congr
  intro e he
  cases h2 : e.2 with
  | none => rfl
  | some f =>
    have hfind : orgFrames.find? e.1 = some (some f) :=
      intmap_find_of_mem orgFrames e.1 (some f) hkeys (by rw [← h2]; exact he)
    simp only [Option.map_some', AudioMixer.inputSample, hfind]

/-- C13: for every map from reader id to frame-or-nil (a map: no id occurs twice),
`doProcessFrame` returns false exactly when every entry is nil (the empty map included), and
then leaves the mixer and the destination frame as they were; otherwise it returns true, and
the mixer and the destination frame are those that `mixNonEmptyFrames` yields for the ids of
the entries that are not nil, in the order of the map, which are precisely the ids to which the
map binds a frame.  What it then writes is the mix of precisely the entries that are not nil:
when the accumulator holds zeros on entry and the frames of the map carry `n` samples in every
channel of the mixer, sample `j < n` of every channel `ch` of the mixer in the destination is
the master gain times the sum, over the entries of the map that hold a frame, of the gain of the
entry's id times sample `j` of channel `ch` of the entry's frame; the destination's sample
count is `n` and its length `2 * n` (when the mixer has a channel), and no other channel of the
destination is written. -/
theorem doProcessFrame_emits_iff_input (m : AudioMixer)
    (orgFrames : IntMap (Option AudioFrame)) (dst : AudioFrame)
    (hkeys : (orgFrames.map Prod.fst).Nodup) :
    ((∃ m1 dst1, m.doProcessFrame orgFrames dst = some (false, m1, dst1))
        ↔ ∀ e ∈ orgFrames, e.2 = none) ∧
      ((∀ e ∈ orgFrames, e.2 = none) →
        m.doProcessFrame orgFrames dst = some (false, m, dst)) ∧
      ((∃ e ∈ orgFrames, e.2 ≠ none) →
        ∃ m1 dst1, m.doProcessFrame orgFrames dst = some (true, m1, dst1) ∧
          m.mixNonEmptyFrames orgFrames
              (orgFrames.filterMap (fun e => e.2.map (fun _ => e.1))) dst
              (orgFrames.size : Int) = some (m1, dst1)) ∧
      (∀ id, id ∈ orgFrames.filterMap (fun e => e.2.map (fun _ => e.1))
        ↔ ∃ f, orgFrames.find? id = some (some f)) ∧
      ∀ n : Nat, (∃ e ∈ orgFrames, e.2 ≠ none) → (∀ x ∈ m.mixedSamples, x = 0) →
        (∀ e ∈ orgFrames, ∀ f, e.2 = some f →
          ∀ ch, 0 ≤ ch → ch < m.frameChannels → (f.floatSamples ch).length = n) →
        ∃ m1 dst1, m.doProcessFrame orgFrames dst = some (true, m1, dst1) ∧
          (∀ ch, 0 ≤ ch → ch < m.frameChannels →
            (dst1.floatSamples ch).length = n ∧
            (∀ j, j < n → (dst1.floatSamples ch).getD j 0
              = m.masterGain * (orgFrames.filterMap (fun e => e.2.map (fun f =>
                  AudioMixer.gainOf m.gains e.1 * (f.floatSamples ch).getD j 0))).sum) ∧
            dst1.samples = (n : Int) ∧ dst1.length = 2 * (n : Int)) ∧
          (∀ c, ¬ (0 ≤ c ∧ c < m.frameChannels) → dst1.floatSamples c = dst.floatSamples c) ∧
          ∀ x ∈ m1.mixedSamples, x = 0 := by
  have hfalse : (∀ e ∈ orgFrames, e.2 = none) →
      m.doProcessFrame orgFrames dst = some (false, m, dst) := by
    intro hall
    have hnil := (filledFramesIds_eq_nil_iff orgFrames).mpr hall
    simp [AudioMixer.doProcessFrame, collectFilledFramesIds_eq, hnil]
  have htrue : ¬ (∀ e ∈ orgFrames, e.2 = none) →
      ∃ m1 dst1, m.doProcessFrame orgFrames dst = some (true, m1, dst1) ∧
        m.mixNonEmptyFrames orgFrames
            (orgFrames.filterMap (fun e => e.2.map (fun _ => e.1))) dst
            (orgFrames.size : Int) = some (m1, dst1) := by
    intro hsome
    have hne : orgFrames.filterMap (fun e => e.2.map (fun _ => e.1)) ≠ [] :=
      fun h => hsome ((filledFramesIds_eq_nil_iff orgFrames).mp h)
    obtain ⟨res, hres⟩ := mixNonEmptyFrames_returns m orgFrames
      (orgFrames.filterMap (fun e => e.2.map (fun _ => e.1))) dst (orgFrames.size : Int)
      (fun id hid => (mem_filledFramesIds orgFrames id hkeys).mp hid)
    refine ⟨res.1, res.2, ?_, hres⟩
    simp [AudioMixer.doProcessFrame, collectFilledFramesIds_eq, hne, hres]
  refine ⟨⟨?_, fun hall => ⟨m, dst, hfalse hall⟩⟩, hfalse, ?_,
    fun id => mem_filledFramesIds orgFrames id hkeys, ?_⟩
  · rintro ⟨m1, dst1, hres⟩
    by_contra hsome
    obtain ⟨m2, dst2, htr, _⟩ := htrue hsome
    rw [htr] at hres
    simp at hres
  · rintro ⟨e, he, hne⟩
    exact htrue (fun hall => hne (hall e he))
  · rintro n ⟨e0, he0, hne0⟩ hzero hin
    have hne : orgFrames.filterMap (fun e => e.2.map (fun _ => e.1)) ≠ [] :=
      fun h => hne0 ((filledFramesIds_eq_nil_iff orgFrames).mp h e0 he0)
    obtain ⟨st1, hrun, hz, hvals, hcount, hother, _, _⟩ :=
      mixChannels_formula orgFrames (orgFrames.filterMap (fun e => e.2.map (fun _ => e.1)))
        (orgFrames.size : Int) n hne (AudioMixer.channelRange m.frameChannels) (m, dst, 0)
        hzero
        (fun id hid => by
          obtain ⟨f, hf⟩ := (mem_filledFramesIds orgFrames id hkeys).mp hid
          exact ⟨f, hf, fun ch hch =>
            hin (id, some f) (intmap_mem_of_find orgFrames id (some f) hf) f rfl ch
              ((mem_channelRange _ _).mp hch).1 ((mem_channelRange _ _).mp hch).2⟩)
    refine ⟨st1.1, st1.2.1, ?_, ?_, ?_, hz⟩
    · simp [AudioMixer.doProcessFrame, collectFilledFramesIds_eq, hne,
        AudioMixer.mixNonEmptyFrames, hrun]
    · intro ch h0 h1
      have hmem : ch ∈ AudioMixer.channelRange m.frameChannels :=
        (mem_channelRange _ _).mpr ⟨h0, h1⟩
      obtain ⟨hl, hv⟩ := hvals ch hmem
      obtain ⟨hs, hlen⟩ := hcount (List.ne_nil_of_mem hmem)
      refine ⟨hl, fun j hj => ?_, hs, hlen⟩
      rw [hv j hj, AudioMixer.mixedSample, filledFrames_weighted_samples orgFrames hkeys]
    · intro c hc
      exact hother c (fun hmem => hc ((mem_channelRange _ _).mp hmem))

/-- C13 on the sample mixer (two channels, unit gains): the three-sample frames of the readers
`0` and `2` are mixed into the empty destination frame, reader `1` having none. -/
theorem doProcessFrame_emits_iff_input_witness :
    ((Sample.orgFrames.map Prod.fst).Nodup ∧
      (∃ e ∈ Sample.orgFrames, e.2 ≠ none) ∧ (∀ x ∈ Sample.mixer.mixedSamples, x = 0) ∧
      ∀ e ∈ Sample.orgFrames, ∀ f, e.2 = some f →
        ∀ ch, 0 ≤ ch → ch < Sample.mixer.frameChannels → (f.floatSamples ch).length = 3) ∧
    ∃ m1 dst1,
      Sample.mixer.doProcessFrame Sample.orgFrames Sample.emptyAudioFrame
        = some (true, m1, dst1) ∧
      (∀ ch, 0 ≤ ch → ch < Sample.mixer.frameChannels →
        (dst1.floatSamples ch).length = 3 ∧
        (∀ j, j < 3 → (dst1.floatSamples ch).getD j 0
          = Sample.mixer.masterGain * (Sample.orgFrames.filterMap (fun e => e.2.map (fun f =>
              AudioMixer.gainOf Sample.mixer.gains e.1 * (f.floatSamples ch).getD j 0))).sum) ∧
        dst1.samples = ((3 : Nat) : Int) ∧ dst1.length = 2 * ((3 : Nat) : Int)) ∧
      (∀ c, ¬ (0 ≤ c ∧ c < Sample.mixer.frameChannels) →
        dst1.floatSamples c = Sample.emptyAudioFrame.floatSamples c) ∧
      ∀ x ∈ m1.mixedSamples, x = 0 :=
  ⟨⟨by decide, ⟨(0, some (Sample.audioFrame 10)), by simp [Sample.orgFrames], by simp⟩,
      by decide, sample_entries_carry_three⟩,
    (doProcessFrame_emits_iff_input Sample.mixer Sample.orgFrames Sample.emptyAudioFrame
      (by decide)).2.2.2.2 3
      ⟨(0, some (Sample.audioFrame 10)), by simp [Sample.orgFrames], by simp⟩
      (by decide) sample_entries_carry_three⟩


/-! ## Input format tracking of the audio encoder -/

/-- The tail of `config()` does not write the input format nor the record of calls. -/
theorem configFrame_keeps_input (av : Libav) (s : AudioEncoderLibav) (ctx : AVCodecContext) :
    (AudioEncoderLibav.configFrame av s ctx).2.sampleFmt = s.sampleFmt ∧
      (AudioEncoderLibav.configFrame av s ctx).2.channels = s.channels ∧
      (AudioEncoderLibav.configFrame av s ctx).2.sampleRate = s.sampleRate ∧
      (AudioEncoderLibav.configFrame av s ctx).2.libavSampleFmt = s.libavSampleFmt ∧
      (AudioEncoderLibav.configFrame av s ctx).2.calls = s.calls := by
  simp only [AudioEncoderLibav.configFrame]
  split_ifs <;> exact ⟨rfl, rfl, rfl, rfl, rfl⟩

/-- The routine `config()` does not write the input format, and it is recorded once. -/
theorem config_keeps_input (av : Libav) (s : AudioEncoderLibav) :
    (AudioEncoderLibav.config av s).2.sampleFmt = s.sampleFmt ∧
      (AudioEncoderLibav.config av s).2.channels = s.channels ∧
      (AudioEncoderLibav.config av s).2.sampleRate = s.sampleRate ∧
      (AudioEncoderLibav.config av s).2.libavSampleFmt = s.libavSampleFmt ∧
      (AudioEncoderLibav.config av s).2.calls = s.calls ++ [EncoderCall.config] := by
  simp only [AudioEncoderLibav.config]
  split
  · exact ⟨rfl, rfl, rfl, rfl, rfl⟩
  · split
    · exact ⟨rfl, rfl, rfl, rfl, rfl⟩
    · split_ifs
      · exact ⟨rfl, rfl, rfl, rfl, rfl⟩
      · exact ⟨rfl, rfl, rfl, rfl, rfl⟩
      · exact ⟨rfl, rfl, rfl, rfl, rfl⟩
      · exact ⟨rfl, rfl, rfl, rfl, rfl⟩
      · split
        · exact ⟨rfl, rfl, rfl, rfl, rfl⟩
        · split_ifs
          · exact configFrame_keeps_input av _ _
          · exact ⟨rfl, rfl, rfl, rfl, rfl⟩
          · exact configFrame_keeps_input av _ _

/-- The routine `inputConfig()` writes neither the input format nor the internal channels and
sample rate, and it is recorded once. -/
theorem inputConfig_keeps_formats (av : Libav) (s : AudioEncoderLibav) :
    (AudioEncoderLibav.inputConfig av s).2.sampleFmt = s.sampleFmt ∧
      (AudioEncoderLibav.inputConfig av s).2.channels = s.channels ∧
      (AudioEncoderLibav.inputConfig av s).2.sampleRate = s.sampleRate ∧
      (AudioEncoderLibav.inputConfig av s).2.libavSampleFmt = s.libavSampleFmt ∧
      (AudioEncoderLibav.inputConfig av s).2.internalChannels = s.internalChannels ∧
      (AudioEncoderLibav.inputConfig av s).2.internalSampleRate = s.internalSampleRate ∧
      (AudioEncoderLibav.inputConfig av s).2.calls = s.calls ++ [EncoderCall.inputConfig] := by
  simp only [AudioEncoderLibav.inputConfig]
  split
  · exact ⟨rfl, rfl, rfl, rfl, rfl, rfl, rfl⟩
  · split_ifs <;> exact ⟨rfl, rfl, rfl, rfl, rfl, rfl, rfl⟩

/-- After `checkInputParams(fmt, channels, rate)` the stored input format is the one given. -/
theorem checkInputParams_stores_input (av : Libav) (s : AudioEncoderLibav) (fmt : SampleFmt)
    (channels sampleRate : Int) :
    (AudioEncoderLibav.checkInputParams av s fmt channels sampleRate).sampleFmt = fmt ∧
      (AudioEncoderLibav.checkInputParams av s fmt channels sampleRate).channels = channels ∧
      (AudioEncoderLibav.checkInputParams av s fmt channels sampleRate).sampleRate
        = sampleRate := by
  simp only [AudioEncoderLibav.checkInputParams]
  split_ifs with hsame hdiff
  · exact ⟨hsame.1, hsame.2.1, hsame.2.2⟩
  · obtain ⟨h1, h2, h3, _, _⟩ := config_keeps_input av
      { s with sampleFmt := fmt, channels := channels, sampleRate := sampleRate,
               libavSampleFmt := AudioEncoderLibav.toLibavSampleFmt fmt,
               internalChannels := channels, internalSampleRate := sampleRate }
    exact ⟨h1, h2, h3⟩
  · obtain ⟨h1, h2, h3, _⟩ := inputConfig_keeps_formats av
      { s with sampleFmt := fmt, channels := channels, sampleRate := sampleRate,
               libavSampleFmt := AudioEncoderLibav.toLibavSampleFmt fmt }
    exact ⟨h1, h2, h3⟩


/-- C15: `checkInputParams(fmt, channels, rate)` leaves the whole encoder state unchanged, the
record of reconfigurations included, when `(fmt, channels, rate)` is the stored input format.
Otherwise it stores them as the new input format (with the libav sample format that goes with
`fmt`) and, if `channels` or `rate` differs from `internalChannels` / `internalSampleRate`,
overwrites both with the input's values and runs `config()`, once, and nothing else; else it
runs `inputConfig()`, once, and nothing else, the internal channels and sample rate staying as
they were.  Calling it twice in a row with the same arguments gives the same state as calling
it once. -/
theorem checkInputParams_tracks_input (av : Libav) (s : AudioEncoderLibav) (fmt : SampleFmt)
    (channels sampleRate : Int) :
    ((s.sampleFmt = fmt ∧ s.channels = channels ∧ s.sampleRate = sampleRate) →
        AudioEncoderLibav.checkInputParams av s fmt channels sampleRate = s) ∧
      (¬ (s.sampleFmt = fmt ∧ s.channels = channels ∧ s.sampleRate = sampleRate) →
        ((AudioEncoderLibav.checkInputParams av s fmt channels sampleRate).sampleFmt = fmt ∧
          (AudioEncoderLibav.checkInputParams av s fmt channels sampleRate).channels
            = channels ∧
          (AudioEncoderLibav.checkInputParams av s fmt channels sampleRate).sampleRate
            = sampleRate ∧
          (AudioEncoderLibav.checkInputParams av s fmt channels sampleRate).libavSampleFmt
            = AudioEncoderLibav.toLibavSampleFmt fmt) ∧
        ((channels ≠ s.internalChannels ∨ sampleRate ≠ s.internalSampleRate) →
          AudioEncoderLibav.checkInputParams av s fmt channels sampleRate
              = (AudioEncoderLibav.config av
                  { s with sampleFmt := fmt, channels := channels, sampleRate := sampleRate,
                           libavSampleFmt := AudioEncoderLibav.toLibavSampleFmt fmt,
                           internalChannels := channels,
                           internalSampleRate := sampleRate }).2 ∧
            (AudioEncoderLibav.checkInputParams av s fmt channels sampleRate).internalChannels
              = channels ∧
            (AudioEncoderLibav.checkInputParams av s fmt channels
              sampleRate).internalSampleRate = sampleRate ∧
            (AudioEncoderLibav.checkInputParams av s fmt channels sampleRate).calls
              = s.calls ++ [EncoderCall.config]) ∧
        (¬ (channels ≠ s.internalChannels ∨ sampleRate ≠ s.internalSampleRate) →
          AudioEncoderLibav.checkInputParams av s fmt channels sampleRate
              = (AudioEncoderLibav.inputConfig av
                  { s with sampleFmt := fmt, channels := channels, sampleRate := sampleRate,
                           libavSampleFmt := AudioEncoderLibav.toLibavSampleFmt fmt }).2 ∧
            (AudioEncoderLibav.checkInputParams av s fmt channels sampleRate).internalChannels
              = s.internalChannels ∧
            (AudioEncoderLibav.checkInputParams av s fmt channels
              sampleRate).internalSampleRate = s.internalSampleRate ∧
            (AudioEncoderLibav.checkInputParams av s fmt channels sampleRate).calls
              = s.calls ++ [EncoderCall.inputConfig])) ∧
      AudioEncoderLibav.checkInputParams av
          (AudioEncoderLibav.checkInputParams av s fmt channels sampleRate) fmt channels
          sampleRate
        = AudioEncoderLibav.checkInputParams av s fmt channels sampleRate := by
  have hsame : ∀ s0 : AudioEncoderLibav,
      (s0.sampleFmt = fmt ∧ s0.channels = channels ∧ s0.sampleRate = sampleRate) →
      AudioEncoderLibav.checkInputParams av s0 fmt channels sampleRate = s0 := by
    intro s0 h
    simp only [AudioEncoderLibav.checkInputParams, h, and_self, if_true]
  refine ⟨hsame s, fun hne => ⟨?_, fun hdiff => ?_, fun hdiff => ?_⟩, ?_⟩
  · obtain ⟨h1, h2, h3⟩ := checkInputParams_stores_input av s fmt channels sampleRate
    refine ⟨h1, h2, h3, ?_⟩
    simp only [AudioEncoderLibav.checkInputParams, hne, if_false]
    split_ifs
    · exact (config_keeps_input av _).2.2.2.1
    · exact (inputConfig_keeps_formats av _).2.2.2.1
  · have hres : AudioEncoderLibav.checkInputParams av s fmt channels sampleRate
        = (AudioEncoderLibav.config av
            { s with sampleFmt := fmt, channels := channels, sampleRate := sampleRate,
                     libavSampleFmt := AudioEncoderLibav.toLibavSampleFmt fmt,
                     internalChannels := channels, internalSampleRate := sampleRate }).2 := by
      simp only [AudioEncoderLibav.checkInputParams, hne, hdiff, if_false, if_true]
    rw [hres]
    exact ⟨rfl, (config_keeps_configuration av _).2.2.1,
      (config_keeps_configuration av _).2.2.2.1, (config_keeps_input av _).2.2.2.2⟩
  · have hres : AudioEncoderLibav.checkInputParams av s fmt channels sampleRate
        = (AudioEncoderLibav.inputConfig av
            { s with sampleFmt := fmt, channels := channels, sampleRate := sampleRate,
                     libavSampleFmt := AudioEncoderLibav.toLibavSampleFmt fmt }).2 := by
      simp only [AudioEncoderLibav.checkInputParams, hne, hdiff, if_false]
    rw [hres]
    exact ⟨rfl, (inputConfig_keeps_formats av _).2.2.2.2.1,
      (inputConfig_keeps_formats av _).2.2.2.2.2.1, (inputConfig_keeps_formats av _).2.2.2.2.2.2⟩
  · exact hsame _ (checkInputParams_stores_input av s fmt channels sampleRate)

/-- C15 on the sample encoder (input format S16P, 2 channels, 48000 Hz; internal 1 channel,
8000 Hz): a mono 8000 Hz input in the same sample format runs `inputConfig()` only. -/
theorem checkInputParams_tracks_input_witness :
    ¬ (Sample.encoder.sampleFmt = SampleFmt.S16P ∧ Sample.encoder.channels = 1 ∧
        Sample.encoder.sampleRate = 8000) ∧
    ¬ ((1 : Int) ≠ Sample.encoder.internalChannels ∨
        (8000 : Int) ≠ Sample.encoder.internalSampleRate) ∧
    (AudioEncoderLibav.checkInputParams Sample.libavWithoutEncoders Sample.encoder
        SampleFmt.S16P 1 8000).calls = Sample.encoder.calls ++ [EncoderCall.inputConfig] :=
  ⟨by decide, by decide,
    (((checkInputParams_tracks_input Sample.libavWithoutEncoders Sample.encoder
      SampleFmt.S16P 1 8000).2.1 (by decide)).2.2 (by decide)).2.2.2⟩


/-! ## Start codes and frame delivery of the H.264 source -/

/-- The three-byte word of `startOffset`, for bytes. -/
theorem short_word_eq (b0 b1 b2 : Nat) (h1 : b1 < 256) (h2 : b2 < 256) :
    ((0 ||| (b0 <<< 16)) ||| (b1 <<< 8)) ||| b2 = b0 * 65536 + b1 * 256 + b2 := by
  have p8 : (2 : Nat) ^ 8 = 256 := by norm_num
  have p16 : (2 : Nat) ^ 16 = 65536 := by norm_num
  have s1 : b0 <<< 16 = 2 ^ 16 * b0 := by rw [Nat.shiftLeft_eq, Nat.mul_comm]
  have s2 : b1 <<< 8 = b1 * 256 := by rw [Nat.shiftLeft_eq, p8]
  have o1 := Nat.mul_add_lt_is_or (i := 16) (b := b1 * 256) (by omega) b0
  have o2 := Nat.mul_add_lt_is_or (i := 8) (b := b2) (by omega) (b0 * 256 + b1)
  have hY : 2 ^ 16 * b0 + b1 * 256 = 2 ^ 8 * (b0 * 256 + b1) := by omega
  rw [Nat.zero_or, s1, s2, ← o1, hY, ← o2]
  omega

/-- The four-byte word of `startOffset`, for bytes. -/
theorem long_word_eq (b0 b1 b2 b3 : Nat) (h1 : b1 < 256) (h2 : b2 < 256) (h3 : b3 < 256) :
    (((b0 <<< 24) ||| (b1 <<< 16)) ||| (b2 <<< 8)) ||| b3
      = b0 * 16777216 + b1 * 65536 + b2 * 256 + b3 := by
  have p8 : (2 : Nat) ^ 8 = 256 := by norm_num
  have p16 : (2 : Nat) ^ 16 = 65536 := by norm_num
  have p24 : (2 : Nat) ^ 24 = 16777216 := by norm_num
  have s0 : b0 <<< 24 = 2 ^ 24 * b0 := by rw [Nat.shiftLeft_eq, Nat.mul_comm]
  have s1 : b1 <<< 16 = b1 * 65536 := by rw [Nat.shiftLeft_eq, p16]
  have s2 : b2 <<< 8 = b2 * 256 := by rw [Nat.shiftLeft_eq, p8]
  have o0 := Nat.mul_add_lt_is_or (i := 24) (b := b1 * 65536) (by omega) b0
  have o1 := Nat.mul_add_lt_is_or (i := 16) (b := b2 * 256) (by omega) (b0 * 256 + b1)
  have o2 := Nat.mul_add_lt_is_or (i := 8) (b := b3) (by omega)
    (b0 * 65536 + b1 * 256 + b2)
  have hX : 2 ^ 24 * b0 + b1 * 65536 = 2 ^ 16 * (b0 * 256 + b1) := by omega
  have hY : 2 ^ 16 * (b0 * 256 + b1) + b2 * 256 = 2 ^ 8 * (b0 * 65536 + b1 * 256 + b2) := by
    omega
  rw [s0, s1, s2, ← o0, hX, ← o1, hY, ← o2]
  omega


/-- The function `startOffset` on a buffer that starts with the bytes `b0 b1 b2 b3`. -/
theorem startOffset_four_bytes (b0 b1 b2 b3 : Nat) (rest : List Nat)
    (h0 : b0 < 256) (h1 : b1 < 256) (h2 : b2 < 256) (h3 : b3 < 256) :
    startOffset (b0 :: b1 :: b2 :: b3 :: rest)
      = if b0 = 0 ∧ b1 = 0 ∧ b2 = 1 then 3
        else if b0 = 0 ∧ b1 = 0 ∧ b2 = 0 ∧ b3 = 1 then 4 else 0 := by
  have hs := short_word_eq b0 b1 b2 h1 h2
  have hl := long_word_eq b0 b1 b2 b3 h1 h2 h3
  have hsm : (b0 * 65536 + b1 * 256 + b2) % 2 ^ 32 = b0 * 65536 + b1 * 256 + b2 :=
    Nat.mod_eq_of_lt (by omega)
  have hlm : (b0 * 16777216 + b1 * 65536 + b2 * 256 + b3) % 2 ^ 32
      = b0 * 16777216 + b1 * 65536 + b2 * 256 + b3 := Nat.mod_eq_of_lt (by omega)
  simp only [startOffset, List.getD_cons_zero, List.getD_cons_succ, hs, hl, hsm, hlm,
    START_CODE, SHORT_START_LENGTH, LONG_START_LENGTH]
  by_cases c1 : b0 = 0 ∧ b1 = 0 ∧ b2 = 1
  · have e1 : b0 * 65536 + b1 * 256 + b2 = 1 := by omega
    rw [if_pos e1, if_pos c1]
  · have e1 : ¬ (b0 * 65536 + b1 * 256 + b2 = 1) := by omega
    rw [if_neg e1, if_neg c1]
    by_cases c2 : b0 = 0 ∧ b1 = 0 ∧ b2 = 0 ∧ b3 = 1
    · have e2 : b0 * 16777216 + b1 * 65536 + b2 * 256 + b3 = 1 := by omega
      rw [if_pos e2, if_pos c2]
    · have e2 : ¬ (b0 * 16777216 + b1 * 65536 + b2 * 256 + b3 = 1) := by omega
      rw [if_neg e2, if_neg c2]

/-- C16: for every buffer of at least four bytes, `startOffset` returns 3 if and only if the
first three bytes are `00 00 01`, returns 4 if and only if the first four bytes are
`00 00 00 01`, and returns 0 in every other case; the result is always one of 0, 3, 4. -/
theorem startOffset_detects_start_code (ptr : List Nat) (hlen : 4 ≤ ptr.length)
    (hbytes : ∀ b ∈ ptr, b < 256) :
    (startOffset ptr = 3 ↔ ptr.take 3 = [0, 0, 1]) ∧
      (startOffset ptr = 4 ↔ ptr.take 4 = [0, 0, 0, 1]) ∧
      (ptr.take 3 ≠ [0, 0, 1] → ptr.take 4 ≠ [0, 0, 0, 1] → startOffset ptr = 0) ∧
      (startOffset ptr = 0 ∨ startOffset ptr = 3 ∨ startOffset ptr = 4) := by
  match ptr, hlen, hbytes with
  | b0 :: b1 :: b2 :: b3 :: rest, _, hb =>
    have h0 : b0 < 256 := hb b0 (by simp)
    have h1 : b1 < 256 := hb b1 (by simp)
    have h2 : b2 < 256 := hb b2 (by simp)
    have h3 : b3 < 256 := hb b3 (by simp)
    rw [startOffset_four_bytes b0 b1 b2 b3 rest h0 h1 h2 h3]
    simp only [List.take_succ_cons, List.take_zero, List.cons.injEq, and_true, ne_eq]
    by_cases c1 : b0 = 0 ∧ b1 = 0 ∧ b2 = 1
    · obtain ⟨rfl, rfl, rfl⟩ := c1
      simp
    · rw [if_neg c1]
      by_cases c2 : b0 = 0 ∧ b1 = 0 ∧ b2 = 0 ∧ b3 = 1
      · obtain ⟨rfl, rfl, rfl, rfl⟩ := c2
        simp
      · rw [if_neg c2]
        simp [c1, c2]

/-- C16 on a buffer that starts with the four-byte start code. -/
theorem startOffset_detects_start_code_witness :
    (4 ≤ Sample.nalFrame.data.length ∧ ∀ b ∈ Sample.nalFrame.data, b < 256) ∧
    ((startOffset Sample.nalFrame.data = 3 ↔ Sample.nalFrame.data.take 3 = [0, 0, 1]) ∧
      (startOffset Sample.nalFrame.data = 4
        ↔ Sample.nalFrame.data.take 4 = [0, 0, 0, 1]) ∧
      (Sample.nalFrame.data.take 3 ≠ [0, 0, 1] → Sample.nalFrame.data.take 4 ≠ [0, 0, 0, 1] →
        startOffset Sample.nalFrame.data = 0) ∧
      (startOffset Sample.nalFrame.data = 0 ∨ startOffset Sample.nalFrame.data = 3 ∨
        startOffset Sample.nalFrame.data = 4)) :=
  ⟨⟨by decide, by decide⟩,
    startOffset_detects_start_code Sample.nalFrame.data (by decide) (by decide)⟩

/-- The remaining size `size - offset`, read as an `unsigned`, is `L - o` for every length
that fits 32 bits (the round trip through `int size` loses nothing modulo `2 ^ 32`). -/
theorem toUInt32_remaining_size (L o : Nat) (ho : o ≤ L) (hL : L < 2 ^ 32) :
    toUInt32 (toInt32 (toInt32 (L : Int) - (o : Nat))) = L - o := by
  unfold toUInt32 toInt32
  omega

/-- The difference `size - fMaxSize`, read as an `unsigned`, is `L - o - fMaxSize` when the
sink is smaller than the remaining size. -/
theorem toUInt32_truncated_size (L o fMaxSize : Nat) (ho : o ≤ L) (hL : L < 2 ^ 32)
    (hc : fMaxSize < L - o) :
    toUInt32 (toInt32 (toInt32 (L : Int) - (o : Nat)) - (fMaxSize : Nat))
      = L - o - fMaxSize := by
  unfold toUInt32 toInt32
  omega

/-- A `getFrame` that returns leaves the reader with the queue it had. -/
theorem getFrame_keeps_queue (r r1 : Reader) (h h1 : Heap) (force : Bool) (x : Option Frame)
    (hget : r.getFrame h force = some (x, r1, h1)) : ∃ p, r1.queue = some p := by
  unfold Reader.getFrame at hget
  cases hq : r.queue with
  | none => simp [hq] at hget
  | some p =>
    simp only [hq] at hget
    split_ifs at hget <;>
      (simp only [Option.some.injEq, Prod.mk.injEq] at hget
       obtain ⟨_, hr, _⟩ := hget
       exact ⟨p, by subst hr; first | rfl | exact hq⟩)

/-- On a reader with a queue `removeFrame` returns. -/
theorem removeFrame_returns (r : Reader) (h : Heap) (p : Nat) (hq : r.queue = some p) :
    ∃ ret r2 h2, r.removeFrame h = some (ret, r2, h2) := by
  unfold Reader.removeFrame
  split_ifs
  · simp only [hq]
    exact ⟨_, _, _, rfl⟩
  · exact ⟨_, _, _, rfl⟩


/-- C17: for every available frame of length `L` (a length of 32 bits, within the frame's
buffer) whose start-code offset `o = startOffset(data)` is at most `L`, and every
sink capacity `fMaxSize`, `doGetNextFrame` delivers `fFrameSize = min(fMaxSize, L - o)` bytes
taken from position `o` of the frame and reports
`fNumTruncatedBytes = max(0, L - o - fMaxSize)`, so that
`fFrameSize + fNumTruncatedBytes = L - o` and `fFrameSize ≤ fMaxSize`; it calls
`Reader.getFrame()` and then `Reader.removeFrame()` exactly once, and `afterGetting` once.
When no frame is available it delivers nothing (sink buffer, sizes and presentation time are as
before), calls no `removeFrame()` and schedules one retry. -/
theorem doGetNextFrame_delivery (force : Bool) (s : H264QueueSource) (h : Heap) :
    (∀ (frame : Frame) (r1 : Reader) (h1 : Heap),
        s.fReader.getFrame h force = some (some frame, r1, h1) →
        startOffset frame.data ≤ frame.length → frame.length < 2 ^ 32 →
        frame.length ≤ frame.data.length →
        ∃ ret r2 h2 s2,
          r1.removeFrame h1 = some (ret, r2, h2) ∧
          H264QueueSource.doGetNextFrame force s h = some (s2, h2) ∧
          s2.fReader = r2 ∧
          s2.fFrameSize = min s.fMaxSize (frame.length - startOffset frame.data) ∧
          (s2.fNumTruncatedBytes : Int)
            = max 0 ((frame.length : Int) - startOffset frame.data - s.fMaxSize) ∧
          s2.fFrameSize + s2.fNumTruncatedBytes = frame.length - startOffset frame.data ∧
          s2.fFrameSize ≤ s.fMaxSize ∧
          s2.fTo.take s2.fFrameSize
            = (frame.data.drop (startOffset frame.data)).take s2.fFrameSize ∧
          (s2.fTo.take s2.fFrameSize).length = s2.fFrameSize ∧
          s2.fPresentationTime = frame.presentationTime ∧
          s2.readerCalls = s.readerCalls ++ [Call.getFrame force, Call.removeFrame] ∧
          s2.afterGettingCalls = s.afterGettingCalls + 1 ∧
          s2.scheduledTasks = s.scheduledTasks) ∧
      ∀ (r1 : Reader) (h1 : Heap), s.fReader.getFrame h force = some (none, r1, h1) →
        H264QueueSource.doGetNextFrame force s h
          = some ({ s with
              fReader := r1, frame := none
              readerCalls := s.readerCalls ++ [Call.getFrame force]
              scheduledTasks := s.scheduledTasks + 1 }, h1) := by
  constructor
  · intro frame r1 h1 hget hoff hint hbuf
    obtain ⟨p, hq⟩ := getFrame_keeps_queue _ _ _ _ _ _ hget
    obtain ⟨ret, r2, h2, hrem⟩ := removeFrame_returns r1 h1 p hq
    have hu := toUInt32_remaining_size frame.length (startOffset frame.data) hoff hint
    have hres : H264QueueSource.doGetNextFrame force s h
        = some ({ s with
            fReader := r2, frame := some frame
            fPresentationTime := frame.presentationTime
            fFrameSize :=
              if s.fMaxSize < frame.length - startOffset frame.data then s.fMaxSize
              else frame.length - startOffset frame.data
            fNumTruncatedBytes :=
              if s.fMaxSize < frame.length - startOffset frame.data then
                toUInt32 (toInt32 (toInt32 (frame.length : Int)
                  - (startOffset frame.data : Nat)) - (s.fMaxSize : Nat))
              else 0
            fTo := H264QueueSource.memcpy s.fTo (frame.data.drop (startOffset frame.data))
              (if s.fMaxSize < frame.length - startOffset frame.data then s.fMaxSize
                else frame.length - startOffset frame.data)
            readerCalls := s.readerCalls ++ [Call.getFrame force, Call.removeFrame]
            afterGettingCalls := s.afterGettingCalls + 1 }, h2) := by
      simp only [H264QueueSource.doGetNextFrame, hget, hrem, hu]
    refine ⟨ret, r2, h2, _, hrem, hres, rfl, ?_, ?_, ?_, ?_, ?_, ?_, rfl, rfl, rfl, rfl⟩
    · simp only
      split_ifs with hc <;> omega
    · simp only
      split_ifs with hc
      · rw [toUInt32_truncated_size _ _ _ hoff hint hc]
        omega
      · omega
    · simp only
      split_ifs with hc
      · rw [toUInt32_truncated_size _ _ _ hoff hint hc]
        omega
      · omega
    · simp only
      split_ifs with hc <;> omega
    · simp only [H264QueueSource.memcpy]
      have hlen : ((frame.data.drop (startOffset frame.data)).take
          (if s.fMaxSize < frame.length - startOffset frame.data then s.fMaxSize
            else frame.length - startOffset frame.data)).length
          = (if s.fMaxSize < frame.length - startOffset frame.data then s.fMaxSize
            else frame.length - startOffset frame.data) := by
        rw [List.length_take, List.length_drop]
        split_ifs with hc <;> omega
      rw [List.take_append_of_le_length (by rw [hlen]), List.take_take, Nat.min_self]
    · simp only [H264QueueSource.memcpy]
      rw [List.length_take, List.length_append, List.length_take, List.length_drop]
      split_ifs with hc <;> omega
  · intro r1 h1 hget
    simp only [H264QueueSource.doGetNextFrame, hget]

/-- C17 on a ten-byte frame with a four-byte start code and a sink of four bytes: four of the
six payload bytes are delivered, two are reported as truncated, and the frame is released. -/
theorem doGetNextFrame_delivery_witness :
    ((Sample.h264Source 4).fReader.getFrame Sample.nalHeap false
        = some (some Sample.nalFrame, (Sample.h264Source 4).fReader, Sample.nalHeap) ∧
      startOffset Sample.nalFrame.data ≤ Sample.nalFrame.length ∧
      Sample.nalFrame.length < 2 ^ 32 ∧
      Sample.nalFrame.length ≤ Sample.nalFrame.data.length) ∧
    ∃ ret r2 h2 s2,
      (Sample.h264Source 4).fReader.removeFrame Sample.nalHeap = some (ret, r2, h2) ∧
      H264QueueSource.doGetNextFrame false (Sample.h264Source 4) Sample.nalHeap
        = some (s2, h2) ∧
      s2.fReader = r2 ∧
      s2.fFrameSize
        = min (Sample.h264Source 4).fMaxSize
            (Sample.nalFrame.length - startOffset Sample.nalFrame.data) ∧
      (s2.fNumTruncatedBytes : Int)
        = max 0 ((Sample.nalFrame.length : Int) - startOffset Sample.nalFrame.data
            - (Sample.h264Source 4).fMaxSize) ∧
      s2.fFrameSize + s2.fNumTruncatedBytes
        = Sample.nalFrame.length - startOffset Sample.nalFrame.data ∧
      s2.fFrameSize ≤ (Sample.h264Source 4).fMaxSize ∧
      s2.fTo.take s2.fFrameSize
        = (Sample.nalFrame.data.drop (startOffset Sample.nalFrame.data)).take s2.fFrameSize ∧
      (s2.fTo.take s2.fFrameSize).length = s2.fFrameSize ∧
      s2.fPresentationTime = Sample.nalFrame.presentationTime ∧
      s2.readerCalls
        = (Sample.h264Source 4).readerCalls ++ [Call.getFrame false, Call.removeFrame] ∧
      s2.afterGettingCalls = (Sample.h264Source 4).afterGettingCalls + 1 ∧
      s2.scheduledTasks = (Sample.h264Source 4).scheduledTasks :=
  ⟨⟨rfl, by decide, by decide, by decide⟩,
    (doGetNextFrame_delivery false (Sample.h264Source 4) Sample.nalHeap).1 Sample.nalFrame
      (Sample.h264Source 4).fReader Sample.nalHeap rfl (by decide) (by decide) (by decide)⟩


end LiveMediaStreamer
